import Mathlib

/-!
# Horizon document-editing kernel: shallow embedding of `Core`

Embedding of `src/core/core.cpp` (class `Core`): the snapshot history
(`rebuild`, `undo`, `redo`, `history_clear`, `history_trim`, `can_undo`,
`can_redo`), the tool engine (`tool_begin`, `tool_update`, `maybe_end_tool`),
the needs-save flag and the per-kind entity accessors
(`insert_*`, `get_*`, `delete_*`).

Conventions.

* The C++ object state is an explicit record `Core D T J`; every member
  function is a function from the state before to an `Outcome`.
* A C++ exception leaves the object in the state reached at the `throw`
  (there is no rollback), so `Outcome.threw` carries that state.
* Undefined behaviour of the C++ program (`pop_back` on an empty deque) is the
  outcome `Outcome.undefined`.
* `int history_current` is modelled by `Int` and `(int)history.size()` by the
  list length: the embedding covers histories of fewer than `2^31` entries, on
  which neither the cast nor `++`/`--` wraps.
* Signals are synchronous observer calls; the embedding records them, in
  emission order, in the field `emitted`.
-/

namespace horizon

/-! ## Basic types -/

/-- The 128-bit identifier `UUID`; only equality and the strict order used by
`std::map` matter here. -/
abbrev UUID := Nat

/-- The objects thrown: `std::runtime_error`, `std::out_of_range` from `at`,
any other exception derived from `std::exception`, and `foreign`: a thrown
object of a type that does not derive from `std::exception`, which no handler
`catch (const std::exception &)` catches. -/
inductive Exn where
  | runtime_error (what : String)
  | out_of_range
  | exception (what : String)
  | foreign (what : String)
deriving DecidableEq, Repr

/-- Whether a handler `catch (const std::exception &)` catches the object. -/
def Exn.is_std_exception : Exn → Bool
  | .foreign _ => false
  | _ => true

/-- Result of running a member function from a given object state. -/
inductive Outcome (σ α : Type) where
  /-- normal return with value `val`, the object now in state `s` -/
  | ok (val : α) (s : σ)
  /-- an exception propagates to the caller, the object left in state `s` -/
  | threw (e : Exn) (s : σ)
  /-- the C++ program has undefined behaviour -/
  | undefined
deriving DecidableEq, Repr

/-- Sequencing of two steps: exceptions and undefined behaviour propagate. -/
def Outcome.bind {σ α β : Type} (o : Outcome σ α) (f : α → σ → Outcome σ β) : Outcome σ β :=
  match o with
  | .ok a s => f a s
  | .threw e s => .threw e s
  | .undefined => .undefined

/-- The state an outcome leaves the object in, if the program is still defined. -/
def Outcome.state? {σ α : Type} : Outcome σ α → Option σ
  | .ok _ s => some s
  | .threw _ s => some s
  | .undefined => none

/-- Tool identifiers (`enum class ToolID`); `NONE` is the idle marker. -/
inductive ToolID where
  | NONE
  | MAP_PIN
  | tool (n : Nat)
deriving DecidableEq, Repr

/-- Kinds of selectable objects (`enum class ObjectType`), as far as the kernel
names them. -/
inductive ObjectType where
  | JUNCTION | LINE | ARC | TEXT | POLYGON | HOLE | DIMENSION | KEEPOUT | SYMBOL_PIN
deriving DecidableEq, Repr

/-- A selection item `SelectableRef`. -/
structure SelectableRef where
  uuid : UUID
  type : ObjectType
deriving DecidableEq, Repr

/-- Integer coordinates `Coordi` (`Coord<int64_t>`): the members are 64-bit
signed integers. -/
structure Coordi where
  x : Int
  y : Int
deriving DecidableEq, Repr

/-- Event kinds of `ToolArgs` (`enum class ToolEventType`). -/
inductive ToolEventType where
  | NONE | MOVE | CLICK | KEY | DATA
deriving DecidableEq, Repr

/-- Modelled from the spec: `ToolArgs` is declared in a header that is not part
of the sources; the spec lists its fields: event kind, position, mouse-button
code, key code, selection set and the `keep_selection` flag. -/
structure ToolArgs where
  type : ToolEventType
  coords : Coordi
  button : Nat
  key : Nat
  selection : List SelectableRef
  keep_selection : Bool
deriving DecidableEq, Repr

/-- Modelled from the spec: the tag of a `ToolResponse`
(`ToolResponse::Result`), declared in a header that is not part of the sources.
`core.cpp` names `NOP`, `COMMIT`, `REVERT` and `END`; the spec adds `AGAIN`. -/
inductive Result where
  | NOP | END | COMMIT | REVERT | AGAIN
deriving DecidableEq, Repr

/-- A `ToolResponse`; the kernel only reads its `result`. -/
structure ToolResponse where
  result : Result
deriving DecidableEq, Repr

/-- Default-constructed response `ToolResponse()`: result `NOP`. -/
def ToolResponse.nop : ToolResponse := ⟨Result.NOP⟩

/-- Response `ToolResponse::end()`. -/
def ToolResponse.end_ : ToolResponse := ⟨Result.END⟩

/-- The signals of the kernel, with their payload. -/
inductive Signal (J : Type) where
  | rebuilt
  | can_undo_redo
  | tool_changed (id : ToolID)
  | needs_save (v : Bool)
  | modified
  | load_tool_settings (id : ToolID)
  | save_tool_settings (id : ToolID) (settings : J)
deriving DecidableEq, Repr

/-! ## The state of `Core` -/

/-- The members of `Core` the embedded functions read or write. `D` is the
document (all entity stores of the edited artifact), `T` the state of a tool
object, `J` the JSON values of tool settings. -/
structure Core (D T J : Type) where
  /-- the document being edited -/
  doc : D
  /-- the deque `history`, front first -/
  history : List D
  /-- the cursor `history_current` -/
  history_current : Int
  needs_save : Bool
  /-- the active tool `tool` (`nullptr` is `none`) -/
  tool : Option T
  tool_selection : List SelectableRef
  property_transaction : Bool
  /-- every signal emitted so far, oldest first -/
  emitted : List (Signal J)

variable {D T J : Type}

/-- Emission of a signal: `s_signal_x.emit(...)`. -/
def Core.emit (sig : Signal J) (s : Core D T J) : Core D T J :=
  { s with emitted := s.emitted ++ [sig] }

/-! ## Snapshot history -/

/-- Modelled from the spec: `history_push` is pure virtual in `Core` and its
overrides are not part of the sources. The spec: a history entry captures the
complete document state, and `rebuild` pushes a fresh snapshot of the current
document at the back of the deque. -/
def Core.history_push (s : Core D T J) : Core D T J :=
  { s with history := s.history ++ [s.doc] }

/-- Modelled from the spec: `history_load(unsigned int i)` is pure virtual in
`Core` and its overrides are not part of the sources. The spec: loading an
entry reconstructs the document state it captured. The spec is silent on an
index outside the deque (every negative `int` converts to one); the embedding
takes the access to be bounds-checked (`deque::at`), which throws
`std::out_of_range` and changes nothing. -/
def Core.history_load (i : Int) (s : Core D T J) : Outcome (Core D T J) Unit :=
  if 0 ≤ i then
    match s.history[i.toNat]? with
    | some d => .ok () { s with doc := d }
    | none => .threw .out_of_range s
  else .threw .out_of_range s

/-- The loop `while (history_current + 1 != (int)history.size()) history.pop_back();`
of `rebuild`, run on the deque listed back to front: each round tests the
condition and pops the back element. Popping the empty deque is undefined
behaviour (`none`). -/
def pop_back_loop (history_current : Int) : List D → Option (List D)
  | [] => if history_current + 1 ≠ 0 then none else some []
  | x :: rest =>
    if history_current + 1 ≠ ((x :: rest).length : Int) then pop_back_loop history_current rest
    else some (x :: rest)

/-- The loop of `history_trim`:
`while (history.size() > history_max) { history.pop_front(); history_current--; }`
with `history_max = 50`. -/
def history_trim_loop : List D → Int → List D × Int
  | [], c => ([], c)
  | x :: rest, c =>
    if (x :: rest).length > 50 then history_trim_loop rest (c - 1) else (x :: rest, c)

/-- `Core::history_trim`. -/
def Core.history_trim (s : Core D T J) : Core D T J :=
  let r := history_trim_loop s.history s.history_current
  { s with history := r.1, history_current := r.2 }

/-- `Core::rebuild(bool from_undo)`. -/
def Core.rebuild (from_undo : Bool) (s : Core D T J) : Outcome (Core D T J) Unit :=
  let fin := fun (s : Core D T J) =>
    Outcome.ok () ((s.emit .rebuilt).emit .can_undo_redo)
  if !from_undo then
    match pop_back_loop s.history_current s.history.reverse with
    | none => .undefined
    | some rev =>
      let s := { s with history := rev.reverse }
      let s := s.history_push
      let s := { s with history_current := s.history_current + 1 }
      let s := s.history_trim
      fin s
  else fin s

/-- `Core::set_needs_save(bool v)`. -/
def Core.set_needs_save (v : Bool) (s : Core D T J) : Core D T J :=
  let s := if v then s.emit .modified else s
  if v ≠ s.needs_save then
    ({ s with needs_save := v }).emit (.needs_save v)
  else s

/-- `Core::undo`. The guard `if (history_current)` converts the `int` to
`bool`: it holds for every nonzero cursor. -/
def Core.undo (s : Core D T J) : Outcome (Core D T J) Unit :=
  if s.history_current ≠ 0 then
    let s := { s with history_current := s.history_current - 1 }
    (s.history_load s.history_current).bind fun _ s =>
      let s := s.emit .rebuilt
      let s := s.emit .can_undo_redo
      .ok () (s.set_needs_save true)
  else .ok () s

/-- `Core::redo` (the diagnostic written to standard output is not modelled). -/
def Core.redo (s : Core D T J) : Outcome (Core D T J) Unit :=
  if s.history_current + 1 = (s.history.length : Int) then .ok () s
  else
    let s := { s with history_current := s.history_current + 1 }
    (s.history_load s.history_current).bind fun _ s =>
      let s := s.emit .rebuilt
      let s := s.emit .can_undo_redo
      .ok () (s.set_needs_save true)

/-- `Core::history_clear`. -/
def Core.history_clear (s : Core D T J) : Core D T J :=
  ({ s with history := [], history_current := -1 }).emit .can_undo_redo

/-- `Core::can_redo`. -/
def Core.can_redo (s : Core D T J) : Bool :=
  s.history_current + 1 != (s.history.length : Int)

/-- `Core::can_undo`: `return history_current;`, the conversion of the `int`
to `bool`. -/
def Core.can_undo (s : Core D T J) : Bool :=
  s.history_current != 0

/-! ## Tool engine -/

/-- What one call of a tool's `begin` or `update` does: the tool mutates the
document and its own members, then returns a response or throws. -/
structure ToolStep (D T : Type) where
  /-- the document as the call leaves it -/
  doc : D
  /-- the tool object as the call leaves it -/
  tool : T
  /-- the response returned, or the exception thrown -/
  result : Except Exn ToolResponse

/-- The collaborators of the tool engine that are not part of the sources: the
virtual factory `create_tool`, the virtual hook `update_rules`, the member
functions of the polymorphic tool objects (`ToolBase`), the handler connected
to the load-settings signal and the constant table `action_catalog`. The
embedded functions take them as a parameter. The `ImpInterface` pointer handed
to `set_imp_interface` is only stored by the tool. -/
structure ToolOps (D T J : Type) where
  /-- `update_rules()`: writes the rules into the document -/
  update_rules : D → D
  /-- `create_tool(tool_id)`: throws, or returns an owning pointer that may be null -/
  create_tool : ToolID → Except Exn (Option T)
  /-- `get_settings_proxy() != nullptr` -/
  has_settings_proxy : T → Bool
  get_tool_id_for_settings : T → ToolID
  /-- the value returned by the handler of `s_signal_load_tool_settings`, `none` for `nullptr` -/
  load_tool_settings : ToolID → Option J
  /-- `sp->load_from_json(j)`: the tool as left by the call, and the exception if one is thrown -/
  load_from_json : T → J → T × Option Exn
  set_imp_interface : T → T
  /-- the member `selection` of the tool -/
  selection : T → List SelectableRef
  /-- assignment to the member `selection` of the tool -/
  set_selection : T → List SelectableRef → T
  set_transient : T → T
  can_begin : T → D → Except Exn Bool
  begin : T → ToolArgs → D → ToolStep D T
  update : T → ToolArgs → D → ToolStep D T
  /-- `get_settings_const()` followed by `serialize()`, `none` when the tool has no settings -/
  get_settings_const : T → Option J
  /-- `action_catalog.at({ActionID::TOOL, tool_id}).name`, `none` when the key is missing -/
  action_catalog : ToolID → Option String

/-- `Core::maybe_end_tool`. Calling it without an active tool dereferences a
null pointer as soon as the response is not `NOP`. -/
def Core.maybe_end_tool (ops : ToolOps D T J) (r : ToolResponse) (s : Core D T J) :
    Outcome (Core D T J) Unit :=
  if r.result ≠ Result.NOP then
    match s.tool with
    | none => .undefined
    | some t =>
      let tid := ops.get_tool_id_for_settings t
      let s := match ops.get_settings_const t with
        | some settings => s.emit (.save_tool_settings tid settings)
        | none => s
      let s := { s with tool_selection := ops.selection t }
      let s := { s with tool := none }
      let s := s.emit (.tool_changed ToolID.NONE)
      if r.result = Result.COMMIT then
        (s.set_needs_save true).rebuild false
      else if r.result = Result.REVERT then
        (s.history_load s.history_current).bind fun _ s => s.rebuild true
      else .ok () s
  else .ok () s

/-- The two handlers `catch (const std::exception &e)` of `tool_begin`: the
log message looks the tool up with `action_catalog.at`, which throws
`std::out_of_range` out of the handler when the key is missing; otherwise the
handler returns `ToolResponse::end()`. -/
def Core.tool_begin_catch (ops : ToolOps D T J) (tool_id : ToolID) (s : Core D T J) :
    Outcome (Core D T J) ToolResponse :=
  match ops.action_catalog tool_id with
  | none => .threw .out_of_range s
  | some _ => .ok ToolResponse.end_ s

/-- The first `try` block of `tool_begin` when the object `e` is thrown inside
it, the kernel being in state `s` at the throw: the handler
`catch (const std::exception &e)` runs for a `std::exception`; any other
object propagates to the caller. -/
def Core.tool_begin_guard (ops : ToolOps D T J) (tool_id : ToolID) (e : Exn) (s : Core D T J) :
    Outcome (Core D T J) ToolResponse :=
  if e.is_std_exception then s.tool_begin_catch ops tool_id else .threw e s

/-- The settings block of `tool_begin`: if the tool has a settings proxy, the
load-settings signal is emitted and, when its handler returns settings, they
are handed to `load_from_json`. The value is the state, the tool object, and
the exception if `load_from_json` throws. -/
def Core.tool_begin_settings (ops : ToolOps D T J) (t : T) (s : Core D T J) :
    Core D T J × T × Option Exn :=
  if ops.has_settings_proxy t then
    let tid := ops.get_tool_id_for_settings t
    let s := s.emit (.load_tool_settings tid)
    match ops.load_tool_settings tid with
    | some j =>
      let r := ops.load_from_json t j
      ({ s with tool := some r.1 }, r.1, r.2)
    | none => (s, t, none)
  else (s, t, none)

/-- The setters `tool_begin` calls on the new tool: `set_imp_interface`, the
selection unless `args.keep_selection`, and `set_transient` if `transient`. -/
def ToolOps.tool_begin_setters (ops : ToolOps D T J) (args : ToolArgs) (transient : Bool)
    (t : T) : T :=
  let t := ops.set_imp_interface t
  let t := if !args.keep_selection then ops.set_selection t args.selection else t
  if transient then ops.set_transient t else t

/-- The block `if (tool) { ... }` of `tool_begin`, the tool `t` having been
set up: `tool_changed(tool_id)` is emitted and `begin` called under the
exception guard, then `maybe_end_tool`. The guard is
`catch (const std::exception &e)`: any other object thrown by `begin`
propagates to the caller, the tool staying in place. -/
def Core.tool_begin_call (ops : ToolOps D T J) (tool_id : ToolID) (args : ToolArgs) (t : T)
    (s : Core D T J) : Outcome (Core D T J) ToolResponse :=
  let s := s.emit (.tool_changed tool_id)
  let st := ops.begin t args s.doc
  let s := { s with doc := st.doc, tool := some st.tool }
  match st.result with
  | .error e =>
    if e.is_std_exception then
      let s := { s with tool := none }
      let s := s.emit (.tool_changed ToolID.NONE)
      s.tool_begin_catch ops tool_id
    else .threw e s
  | .ok r => (s.maybe_end_tool ops r).bind fun _ s => .ok r s

/-- `Core::tool_begin`. `tool_is_active()` is `tool != nullptr`. An exception
caught by the first handler leaves `tool` as it is at the throw: still null if
`create_tool` threw, the new tool otherwise; so does an object the handler
does not catch. -/
def Core.tool_begin (ops : ToolOps D T J) (tool_id : ToolID) (args : ToolArgs) (transient : Bool)
    (s : Core D T J) : Outcome (Core D T J) ToolResponse :=
  if s.tool.isSome then
    .threw (.runtime_error "can't begin tool while tool is active") s
  else
    let s := { s with doc := ops.update_rules s.doc }
    match ops.create_tool tool_id with
    | .error e => s.tool_begin_guard ops tool_id e
    | .ok none => .undefined
    | .ok (some t) =>
      match Core.tool_begin_settings ops t { s with tool := some t } with
      | (s, _, some e) => s.tool_begin_guard ops tool_id e
      | (s, t, none) =>
        let t := ops.tool_begin_setters args transient t
        let s := { s with tool := some t }
        match ops.can_begin t s.doc with
        | .error e => s.tool_begin_guard ops tool_id e
        | .ok false => .ok ToolResponse.nop { s with tool := none }
        | .ok true => s.tool_begin_call ops tool_id args t

/-- `Core::tool_update`. The guard is `catch (const std::exception &e)`: any
other object thrown by `update` propagates to the caller, the tool staying in
place. -/
def Core.tool_update (ops : ToolOps D T J) (args : ToolArgs) (s : Core D T J) :
    Outcome (Core D T J) ToolResponse :=
  match s.tool with
  | some t =>
    let st := ops.update t args s.doc
    let s := { s with doc := st.doc, tool := some st.tool }
    match st.result with
    | .error e =>
      if e.is_std_exception then
        let s := { s with tool := none }
        let s := s.emit (.tool_changed ToolID.NONE)
        .ok ToolResponse.end_ s
      else .threw e s
    | .ok r => (s.maybe_end_tool ops r).bind fun _ s => .ok r s
  | none => .ok ToolResponse.nop s

/-- The events of a tool run after its `tool_begin`: while a tool is active
each event goes to `tool_update`; `r` is the response of the latest call. -/
def Core.feed_events (ops : ToolOps D T J) :
    List ToolArgs → ToolResponse → Core D T J → Outcome (Core D T J) ToolResponse
  | [], r, s => .ok r s
  | a :: rest, r, s =>
    if s.tool.isSome then (s.tool_update ops a).bind fun r s => Core.feed_events ops rest r s
    else .ok r s

/-- A tool run: `tool_begin` followed by `tool_update` for the events `evs`
for as long as the tool stays active; the value is the last response. -/
def Core.tool_run (ops : ToolOps D T J) (tool_id : ToolID) (args : ToolArgs) (transient : Bool)
    (evs : List ToolArgs) (s : Core D T J) : Outcome (Core D T J) ToolResponse :=
  (s.tool_begin ops tool_id args transient).bind fun r s => s.feed_events ops evs r

/-- The state and the tool object with which `tool_begin` reaches `can_begin`
when the factory has returned the tool `t0`: the rules are written, the
settings loaded and the setters called. The third component is the exception
if `load_from_json` throws. -/
def Core.tool_begin_prepared (ops : ToolOps D T J) (args : ToolArgs) (transient : Bool) (t0 : T)
    (s : Core D T J) : Core D T J × T × Option Exn :=
  let r := Core.tool_begin_settings ops t0
    { s with doc := ops.update_rules s.doc, tool := some t0 }
  let t := ops.tool_begin_setters args transient r.2.1
  ({ r.1 with tool := some t }, t, r.2.2)

/-! ## Property transaction and saving -/

/-- `Core::set_property_begin`. -/
def Core.set_property_begin (s : Core D T J) : Outcome (Core D T J) Unit :=
  if s.property_transaction then .threw (.runtime_error "transaction already in progress") s
  else .ok () { s with property_transaction := true }

/-- `Core::set_property_commit`; `rebuild()` is `rebuild(false)`. -/
def Core.set_property_commit (s : Core D T J) : Outcome (Core D T J) Unit :=
  if !s.property_transaction then .threw (.runtime_error "no transaction in progress") s
  else
    (s.rebuild false).bind fun _ s =>
      let s := s.set_needs_save true
      .ok () { s with property_transaction := false }

/-- `Core::get_needs_save`. -/
def Core.get_needs_save (s : Core D T J) : Bool :=
  s.needs_save

/-- `Core::get_property_transaction`. -/
def Core.get_property_transaction (s : Core D T J) : Bool :=
  s.property_transaction

/-- A `Core::SearchResult`. -/
structure SearchResult where
  type : ObjectType
  uuid : UUID
  location : Coordi
  sheet : UUID
deriving DecidableEq, Repr

/-- What the comparator of `sort_search_results` calls and the sources do not
contain: the virtual `get_display_name`, `strcmp_natural`, the test
`Coordf(location).in_range(q.area_visible.first, q.area_visible.second)` of the
query's visible area (a function of the location), and the values of the
enumerators of `ObjectType`, by which `<` and `>` compare two types. -/
structure SearchEnv where
  get_display_name : ObjectType → UUID → UUID → String
  strcmp_natural : String → String → Int
  in_range : Coordi → Bool
  type_value : ObjectType → Int

/-- The comparator passed to `results.sort` in `Core::sort_search_results`.
On `bool`, `ina > inb` is `ina && !inb` and `ina < inb` is `!ina && inb`. -/
def search_result_less (env : SearchEnv) (a b : SearchResult) : Bool :=
  let da := env.get_display_name a.type a.uuid a.sheet
  let db := env.get_display_name b.type b.uuid b.sheet
  let ina := !env.in_range a.location
  let inb := !env.in_range b.location
  if ina && !inb then false
  else if !ina && inb then true
  else if env.type_value a.type > env.type_value b.type then false
  else if env.type_value a.type < env.type_value b.type then true
  else
    let c := env.strcmp_natural da db
    if c > 0 then false
    else if c < 0 then true
    else if a.location.x > b.location.x then false
    else if a.location.x < b.location.x then true
    else decide (a.location.y > b.location.y)

/-- `Core::sort_search_results`: `std::list::sort`, a stable sort by the
comparator. -/
def sort_search_results (env : SearchEnv) (results : List SearchResult) : List SearchResult :=
  results.insertionSort fun a b => search_result_less env b a = false

/-! ## Entity stores -/

/-- A `std::map<UUID, E>`: the entries in ascending key order. -/
abbrev Store (E : Type) := List (UUID × E)

/-- `map.find(uu)`: the entity stored under `uu`, if any. -/
def Store.find {E : Type} (uu : UUID) : Store E → Option E
  | [] => none
  | (k, e) :: rest => if k = uu then some e else Store.find uu rest

/-- `map.at(uu)`: throws `std::out_of_range` when the key is absent. -/
def Store.map_at {E : Type} (uu : UUID) (m : Store E) : Except Exn E :=
  match m.find uu with
  | some e => .ok e
  | none => .error .out_of_range

/-- Insertion of a new key at its place in the key order. -/
def Store.insert_sorted {E : Type} (uu : UUID) (e : E) : Store E → Store E
  | [] => [(uu, e)]
  | (k, e1) :: rest =>
    if uu < k then (uu, e) :: (k, e1) :: rest else (k, e1) :: Store.insert_sorted uu e rest

/-- `map.emplace(uu, uu)`: when the key is absent an entity constructed from
`uu` is inserted, when it is present nothing changes. The second component is
the entity the returned iterator points to (`x.first->second`). -/
def Store.emplace {E : Type} (ctor : UUID → E) (uu : UUID) (m : Store E) : Store E × E :=
  match m.find uu with
  | some e => (m, e)
  | none => (m.insert_sorted uu (ctor uu), ctor uu)

/-- `map.erase(uu)`: removes the entry with key `uu` if there is one; the
return value (the number of entries removed) is discarded by every caller. -/
def Store.erase {E : Type} (uu : UUID) : Store E → Store E
  | [] => []
  | (k, e) :: rest => if k = uu then Store.erase uu rest else (k, e) :: Store.erase uu rest

/-- The entity kinds with accessors in `Core`. -/
inductive Kind where
  | junction | line | arc | text | polygon | hole | dimension | keepout
deriving DecidableEq, Repr

/-- The entity classes (`Junction`, `Line`, ...), declared in headers that are
not part of the sources: a type per kind, and its constructor from a `UUID`
(the one `emplace(uu, uu)` calls). -/
structure Entities where
  E : Kind → Type
  ctor : (k : Kind) → UUID → E k

/-- The entity maps of a document, as returned by the virtual
`get_junction_map()`, `get_line_map()`, ...; a document variant without
entities of some kind returns `nullptr` (`none`). -/
structure Document (X : Entities) where
  junction_map : Option (Store (X.E Kind.junction))
  line_map : Option (Store (X.E Kind.line))
  arc_map : Option (Store (X.E Kind.arc))
  text_map : Option (Store (X.E Kind.text))
  polygon_map : Option (Store (X.E Kind.polygon))
  hole_map : Option (Store (X.E Kind.hole))
  dimension_map : Option (Store (X.E Kind.dimension))
  keepout_map : Option (Store (X.E Kind.keepout))

variable {X : Entities}

/-- `Core::insert_junction`. -/
def insert_junction (uu : UUID) (d : Document X) : Outcome (Document X) (X.E Kind.junction) :=
  match d.junction_map with
  | none => .undefined
  | some map =>
    let x := map.emplace (X.ctor Kind.junction) uu
    .ok x.2 { d with junction_map := some x.1 }

/-- `Core::get_junction`. -/
def get_junction (uu : UUID) (d : Document X) : Outcome (Document X) (X.E Kind.junction) :=
  match d.junction_map with
  | none => .undefined
  | some map =>
    match map.map_at uu with
    | .ok e => .ok e d
    | .error e => .threw e d

/-- `Core::delete_junction`. -/
def delete_junction (uu : UUID) (d : Document X) : Outcome (Document X) Unit :=
  match d.junction_map with
  | none => .undefined
  | some map => .ok () { d with junction_map := some (map.erase uu) }

/-- `Core::insert_line`. -/
def insert_line (uu : UUID) (d : Document X) : Outcome (Document X) (X.E Kind.line) :=
  match d.line_map with
  | none => .undefined
  | some map =>
    let x := map.emplace (X.ctor Kind.line) uu
    .ok x.2 { d with line_map := some x.1 }

/-- `Core::get_line`. -/
def get_line (uu : UUID) (d : Document X) : Outcome (Document X) (X.E Kind.line) :=
  match d.line_map with
  | none => .undefined
  | some map =>
    match map.map_at uu with
    | .ok e => .ok e d
    | .error e => .threw e d

/-- `Core::delete_line`. -/
def delete_line (uu : UUID) (d : Document X) : Outcome (Document X) Unit :=
  match d.line_map with
  | none => .undefined
  | some map => .ok () { d with line_map := some (map.erase uu) }

/-- `Core::insert_arc`. -/
def insert_arc (uu : UUID) (d : Document X) : Outcome (Document X) (X.E Kind.arc) :=
  match d.arc_map with
  | none => .undefined
  | some map =>
    let x := map.emplace (X.ctor Kind.arc) uu
    .ok x.2 { d with arc_map := some x.1 }

/-- `Core::get_arc`. -/
def get_arc (uu : UUID) (d : Document X) : Outcome (Document X) (X.E Kind.arc) :=
  match d.arc_map with
  | none => .undefined
  | some map =>
    match map.map_at uu with
    | .ok e => .ok e d
    | .error e => .threw e d

/-- `Core::delete_arc`. -/
def delete_arc (uu : UUID) (d : Document X) : Outcome (Document X) Unit :=
  match d.arc_map with
  | none => .undefined
  | some map => .ok () { d with arc_map := some (map.erase uu) }

/-- `Core::insert_text`. -/
def insert_text (uu : UUID) (d : Document X) : Outcome (Document X) (X.E Kind.text) :=
  match d.text_map with
  | none => .undefined
  | some map =>
    let x := map.emplace (X.ctor Kind.text) uu
    .ok x.2 { d with text_map := some x.1 }

/-- `Core::get_text`. -/
def get_text (uu : UUID) (d : Document X) : Outcome (Document X) (X.E Kind.text) :=
  match d.text_map with
  | none => .undefined
  | some map =>
    match map.map_at uu with
    | .ok e => .ok e d
    | .error e => .threw e d

/-- `Core::delete_text`. -/
def delete_text (uu : UUID) (d : Document X) : Outcome (Document X) Unit :=
  match d.text_map with
  | none => .undefined
  | some map => .ok () { d with text_map := some (map.erase uu) }

/-- `Core::insert_polygon`. -/
def insert_polygon (uu : UUID) (d : Document X) : Outcome (Document X) (X.E Kind.polygon) :=
  match d.polygon_map with
  | none => .undefined
  | some map =>
    let x := map.emplace (X.ctor Kind.polygon) uu
    .ok x.2 { d with polygon_map := some x.1 }

/-- `Core::get_polygon`. -/
def get_polygon (uu : UUID) (d : Document X) : Outcome (Document X) (X.E Kind.polygon) :=
  match d.polygon_map with
  | none => .undefined
  | some map =>
    match map.map_at uu with
    | .ok e => .ok e d
    | .error e => .threw e d

/-- `Core::delete_polygon`. -/
def delete_polygon (uu : UUID) (d : Document X) : Outcome (Document X) Unit :=
  match d.polygon_map with
  | none => .undefined
  | some map => .ok () { d with polygon_map := some (map.erase uu) }

/-- `Core::insert_hole`. -/
def insert_hole (uu : UUID) (d : Document X) : Outcome (Document X) (X.E Kind.hole) :=
  match d.hole_map with
  | none => .undefined
  | some map =>
    let x := map.emplace (X.ctor Kind.hole) uu
    .ok x.2 { d with hole_map := some x.1 }

/-- `Core::get_hole`. -/
def get_hole (uu : UUID) (d : Document X) : Outcome (Document X) (X.E Kind.hole) :=
  match d.hole_map with
  | none => .undefined
  | some map =>
    match map.map_at uu with
    | .ok e => .ok e d
    | .error e => .threw e d

/-- `Core::delete_hole`. -/
def delete_hole (uu : UUID) (d : Document X) : Outcome (Document X) Unit :=
  match d.hole_map with
  | none => .undefined
  | some map => .ok () { d with hole_map := some (map.erase uu) }

/-- `Core::insert_dimension`. -/
def insert_dimension (uu : UUID) (d : Document X) : Outcome (Document X) (X.E Kind.dimension) :=
  match d.dimension_map with
  | none => .undefined
  | some map =>
    let x := map.emplace (X.ctor Kind.dimension) uu
    .ok x.2 { d with dimension_map := some x.1 }

/-- `Core::get_dimension`. -/
def get_dimension (uu : UUID) (d : Document X) : Outcome (Document X) (X.E Kind.dimension) :=
  match d.dimension_map with
  | none => .undefined
  | some map =>
    match map.map_at uu with
    | .ok e => .ok e d
    | .error e => .threw e d

/-- `Core::delete_dimension`. -/
def delete_dimension (uu : UUID) (d : Document X) : Outcome (Document X) Unit :=
  match d.dimension_map with
  | none => .undefined
  | some map => .ok () { d with dimension_map := some (map.erase uu) }

/-- `Core::insert_keepout`. -/
def insert_keepout (uu : UUID) (d : Document X) : Outcome (Document X) (X.E Kind.keepout) :=
  match d.keepout_map with
  | none => .undefined
  | some map =>
    let x := map.emplace (X.ctor Kind.keepout) uu
    .ok x.2 { d with keepout_map := some x.1 }

/-- `Core::get_keepout`. -/
def get_keepout (uu : UUID) (d : Document X) : Outcome (Document X) (X.E Kind.keepout) :=
  match d.keepout_map with
  | none => .undefined
  | some map =>
    match map.map_at uu with
    | .ok e => .ok e d
    | .error e => .threw e d

/-- `Core::delete_keepout`. -/
def delete_keepout (uu : UUID) (d : Document X) : Outcome (Document X) Unit :=
  match d.keepout_map with
  | none => .undefined
  | some map => .ok () { d with keepout_map := some (map.erase uu) }

/-- The map of kind `k` of a document. -/
def Document.get_map (d : Document X) : (k : Kind) → Option (Store (X.E k))
  | .junction => d.junction_map
  | .line => d.line_map
  | .arc => d.arc_map
  | .text => d.text_map
  | .polygon => d.polygon_map
  | .hole => d.hole_map
  | .dimension => d.dimension_map
  | .keepout => d.keepout_map

/-- The document with its map of kind `k` replaced by `m`. -/
def Document.set_map (d : Document X) : (k : Kind) → Store (X.E k) → Document X
  | .junction, m => { d with junction_map := some m }
  | .line, m => { d with line_map := some m }
  | .arc, m => { d with arc_map := some m }
  | .text, m => { d with text_map := some m }
  | .polygon, m => { d with polygon_map := some m }
  | .hole, m => { d with hole_map := some m }
  | .dimension, m => { d with dimension_map := some m }
  | .keepout, m => { d with keepout_map := some m }

/-- The accessor `insert_K` of kind `k`. -/
def Document.insert (k : Kind) (uu : UUID) (d : Document X) : Outcome (Document X) (X.E k) :=
  match k with
  | .junction => insert_junction uu d
  | .line => insert_line uu d
  | .arc => insert_arc uu d
  | .text => insert_text uu d
  | .polygon => insert_polygon uu d
  | .hole => insert_hole uu d
  | .dimension => insert_dimension uu d
  | .keepout => insert_keepout uu d

/-- The accessor `get_K` of kind `k`. -/
def Document.get (k : Kind) (uu : UUID) (d : Document X) : Outcome (Document X) (X.E k) :=
  match k with
  | .junction => get_junction uu d
  | .line => get_line uu d
  | .arc => get_arc uu d
  | .text => get_text uu d
  | .polygon => get_polygon uu d
  | .hole => get_hole uu d
  | .dimension => get_dimension uu d
  | .keepout => get_keepout uu d

/-- The accessor `delete_K` of kind `k`. -/
def Document.delete (k : Kind) (uu : UUID) (d : Document X) : Outcome (Document X) Unit :=
  match k with
  | .junction => delete_junction uu d
  | .line => delete_line uu d
  | .arc => delete_arc uu d
  | .text => delete_text uu d
  | .polygon => delete_polygon uu d
  | .hole => delete_hole uu d
  | .dimension => delete_dimension uu d
  | .keepout => delete_keepout uu d

/-! ## The map-pin tool -/

/-- The orientation of a pin (`enum class Orientation`). -/
inductive Orientation where
  | UP | DOWN | LEFT | RIGHT
deriving DecidableEq, Repr

/-- The least value of `int64_t`. -/
def INT64_MIN : Int := -9223372036854775808

/-- The greatest value of `int64_t`. -/
def INT64_MAX : Int := 9223372036854775807

/-- Whether the integer is a value of `int64_t`. -/
def in_int64 (v : Int) : Bool :=
  decide (INT64_MIN ≤ v) && decide (v ≤ INT64_MAX)

/-- Modelled from the spec: `Coordi::operator+` is declared in a header that is
not part of the sources; the spec adds positions as vectors. The members are
of type `int64_t`: a sum outside its range is a signed overflow, which is
undefined behaviour (`none`). -/
def Coordi.add (a b : Coordi) : Option Coordi :=
  if in_int64 (a.x + b.x) = true ∧ in_int64 (a.y + b.y) = true then
    some ⟨a.x + b.x, a.y + b.y⟩
  else none

/-- Modelled from the spec: `Coordi::operator-` is declared in a header that is
not part of the sources; the spec subtracts positions as vectors. A difference
outside the range of `int64_t` is a signed overflow, which is undefined
behaviour (`none`). -/
def Coordi.sub (a b : Coordi) : Option Coordi :=
  if in_int64 (a.x - b.x) = true ∧ in_int64 (a.y - b.y) = true then
    some ⟨a.x - b.x, a.y - b.y⟩
  else none

/-- Modelled from the spec: the class `SymbolPin` is declared in a header that
is not part of the sources. The spec: position, orientation, length, name,
keyed by a UUID drawn from the unit's pin set. Lengths and coordinates are in
nanometres. -/
structure SymbolPin where
  uuid : UUID
  name : String
  position : Coordi
  orientation : Orientation
  length : Int
deriving DecidableEq, Repr

/-- The constructor `SymbolPin(uu)`; the tool overwrites every field but the
UUID before it returns. -/
def SymbolPin.ctor (uu : UUID) : SymbolPin :=
  { uuid := uu, name := "", position := ⟨0, 0⟩, orientation := Orientation.RIGHT, length := 0 }

/-- A pin of the unit (`Pin`), as far as the tool reads it. -/
structure Pin where
  uuid : UUID
  primary_name : String
deriving DecidableEq, Repr

/-- The literal `2.5_mm`: 2.5 mm in nanometres. -/
def mm_2_5 : Int := 2500000

/-- `GDK_KEY_Return`. -/
def GDK_KEY_Return : Nat := 0xff0d

/-- `GDK_KEY_space`. -/
def GDK_KEY_space : Nat := 0x020

/-- `GDK_KEY_r`. -/
def GDK_KEY_r : Nat := 0x072

/-- `GDK_KEY_e`. -/
def GDK_KEY_e : Nat := 0x065

/-- `GDK_KEY_Escape`. -/
def GDK_KEY_Escape : Nat := 0xff1b

/-- Response `ToolResponse::commit()`. -/
def ToolResponse.commit : ToolResponse := ⟨Result.COMMIT⟩

/-- Response `ToolResponse::revert()`. -/
def ToolResponse.revert : ToolResponse := ⟨Result.REVERT⟩

/-- The members of `ToolMapPin` together with the part of the symbol document
it works on. A `SymbolPin *` is the key of the pin in the symbol's map
(`std::map` keeps the address of an element until it is erased); `none` is
`nullptr`. A `const Pin *` of the pin list is the pin of the unit it points
to. -/
structure MapPin where
  /-- `doc.y->get_symbol()->pins` -/
  symbol_pins : Store SymbolPin
  /-- `doc.y->get_symbol()->unit->pins` -/
  unit_pins : Store Pin
  /-- the member `pins`: each pin of the list with its placed flag -/
  pins : List (Pin × Bool)
  pin_index : Nat
  pin : Option UUID
  pin_last : Option UUID
  pin_last2 : Option UUID
  selection : List SelectableRef
deriving DecidableEq, Repr

/-- What the tool calls and the sources do not contain: `strcmp_natural`, the
dialog `imp->dialogs.map_pin(pins)` with its answer (accepted, chosen pin), and
`ToolHelperMove::transform_orientation`. The tool bar calls of `imp` have no
effect on the tool or the document. -/
structure MapPinEnv where
  strcmp_natural : String → String → Int
  map_pin : List (Pin × Bool) → Bool × UUID
  transform_orientation : Orientation → Bool → Orientation

/-- Dereference of a `SymbolPin *`: `none` for a null pointer and for a
pointer to an erased pin, where the C++ program has undefined behaviour. -/
def MapPin.deref (st : MapPin) (p : Option UUID) : Option SymbolPin :=
  match p with
  | none => none
  | some u => st.symbol_pins.find u

/-- Replacement of the entity stored under `uu`: an assignment through a
pointer to it. -/
def Store.modify {E : Type} (uu : UUID) (f : E → E) : Store E → Store E
  | [] => []
  | (k, e) :: rest => if k = uu then (k, f e) :: rest else (k, e) :: Store.modify uu f rest

/-- An assignment `p->field = ...` through the pin pointer `u`. -/
def MapPin.assign (st : MapPin) (u : UUID) (f : SymbolPin → SymbolPin) : MapPin :=
  { st with symbol_pins := st.symbol_pins.modify u f }

/-- Modelled from the spec: `insert_symbol_pin` belongs to the document
interface, which is not part of the sources; as every `insert` of the document
it constructs the entity keyed by `uu`, or returns the existing one. The value
is the new map. -/
def MapPin.insert_symbol_pin (st : MapPin) (uu : UUID) : MapPin :=
  { st with symbol_pins := (st.symbol_pins.emplace SymbolPin.ctor uu).1 }

/-- `ToolMapPin::create_pin`. -/
def MapPin.create_pin (uu : UUID) (st : MapPin) : Outcome MapPin Unit :=
  let rest := fun (orientation : Orientation) =>
    let st := { st with pin_last2 := st.pin_last }
    let st := { st with pin_last := st.pin }
    let st := { st.insert_symbol_pin uu with pin := some uu }
    let st := st.assign uu fun p => { p with length := mm_2_5 }
    match st.unit_pins.map_at uu with
    | .error e => Outcome.threw e st
    | .ok unit_pin =>
      let st := st.assign uu fun p => { p with name := unit_pin.primary_name }
      let st := st.assign uu fun p => { p with orientation := orientation }
      Outcome.ok () st
  match st.pin with
  | none => rest Orientation.RIGHT
  | some u =>
    match st.symbol_pins.find u with
    | none => .undefined
    | some p => rest p.orientation

/-- The loop
`while (pin_index < pins.size()) { if (pins.at(pin_index).second == false) break; pin_index++; }`
run on the entries from `pin_index` on: the value is the final `pin_index`. -/
def skip_placed_loop : List (Pin × Bool) → Nat → Nat
  | [], i => i
  | (_, placed) :: rest, i => if placed = false then i else skip_placed_loop rest (i + 1)

/-- The assignment `pins.at(i).second = true`; `at` throws `std::out_of_range`
for an index outside the list. -/
def set_placed (pins : List (Pin × Bool)) (i : Nat) : Except Exn (List (Pin × Bool)) :=
  match pins[i]? with
  | none => .error .out_of_range
  | some e => .ok (pins.set i (e.1, true))

/-- The first loop of `ToolMapPin::begin`, over the selection: every selected
symbol pin that the symbol does not have yet is appended to the pin list, and
`from_sidebar` is set. `unit->pins.at` throws for a UUID that is not a pin of
the unit. The value is the pin list and `from_sidebar`, or the exception
together with the pin list at the throw. -/
def begin_selection_loop (unit_pins : Store Pin) (symbol_pins : Store SymbolPin) :
    List SelectableRef → List (Pin × Bool) → Bool → Except (Exn × List (Pin × Bool))
      (List (Pin × Bool) × Bool)
  | [], pins, from_sidebar => .ok (pins, from_sidebar)
  | it :: rest, pins, from_sidebar =>
    if it.type = ObjectType.SYMBOL_PIN then
      if (symbol_pins.find it.uuid).isNone then
        match unit_pins.map_at it.uuid with
        | .error e => .error (e, pins)
        | .ok p => begin_selection_loop unit_pins symbol_pins rest (pins ++ [(p, false)]) true
      else begin_selection_loop unit_pins symbol_pins rest pins from_sidebar
    else begin_selection_loop unit_pins symbol_pins rest pins from_sidebar

/-- The call of `std::sort` in `begin`: the pin list in ascending order of the
primary names under `strcmp_natural`. Among names that compare equal
`std::sort` may leave any order; the embedding keeps the given one. -/
def sort_pins (env : MapPinEnv) (pins : List (Pin × Bool)) : List (Pin × Bool) :=
  pins.insertionSort fun a b => ¬ env.strcmp_natural b.1.primary_name a.1.primary_name < 0

/-- The loop of `begin` that marks as placed every listed pin the symbol has
(`doc.y->get_symbol_pin` is not null). -/
def mark_placed (symbol_pins : Store SymbolPin) (pins : List (Pin × Bool)) : List (Pin × Bool) :=
  pins.map fun it => if (symbol_pins.find it.1.uuid).isSome then (it.1, true) else it

/-- Modelled from the spec: `get_pins` belongs to the document interface,
which is not part of the sources; the spec has the list seeded from all of the
unit's pins. -/
def MapPin.get_pins (st : MapPin) : List Pin :=
  st.unit_pins.map fun it => it.2

/-- The first part of `ToolMapPin::begin`, which builds the pin list: the
selected unplaced pins or, if there is none, the pins `doc.y->get_pins()`
returns, sorted by name, with the pins the symbol already has marked placed.
The value is the list and `from_sidebar`, or the exception of the selection
loop with the list at the throw. -/
def MapPin.begin_list (env : MapPinEnv) (args : ToolArgs) (st : MapPin) :
    Except (Exn × List (Pin × Bool)) (List (Pin × Bool) × Bool) :=
  match begin_selection_loop st.unit_pins st.symbol_pins args.selection st.pins false with
  | .error x => .error x
  | .ok (pins, from_sidebar) =>
    let pins := if pins.length = 0 then pins ++ st.get_pins.map (fun it => (it, false))
      else pins
    let pins := sort_pins env pins
    let pins := mark_placed st.symbol_pins pins
    .ok (pins, from_sidebar)

/-- `ToolMapPin::begin`. A failing `assert` (the chosen pin is not in the
list) ends the program and is rendered as `Outcome.undefined`. -/
def MapPin.begin (env : MapPinEnv) (args : ToolArgs) (st : MapPin) :
    Outcome MapPin ToolResponse :=
  match st.begin_list env args with
  | .error (e, pins) => .threw e { st with pins := pins }
  | .ok (pins, from_sidebar) =>
    let st := { st with pins := pins }
    let pins_unplaced := pins.countP fun a => a.2 = false
    if pins_unplaced = 0 then .ok ToolResponse.end_ st
    else
      let chosen : Option UUID :=
        if pins_unplaced > 1 ∧ from_sidebar = false then
          let r := env.map_pin pins
          if !r.1 then none else some r.2
        else (pins.find? fun a => a.2 = false).map fun a => a.1.uuid
      match chosen with
      | none => .ok ToolResponse.end_ st
      | some selected_pin =>
        match pins.findIdx? fun a => a.1.uuid = selected_pin with
        | none => .undefined
        | some x =>
          let st := { st with pin_index := x }
          (st.create_pin selected_pin).bind fun _ st =>
            match st.pin with
            | none => .undefined
            | some u =>
              let st := st.assign u fun p => { p with position := args.coords }
              let st := { st with selection := [] }
              .ok ToolResponse.nop st

/-- `ToolMapPin::update`. On Return a signed overflow in
`pin_last->position - pin_last2->position` or in the sum is undefined
behaviour. -/
def MapPin.update (env : MapPinEnv) (args : ToolArgs) (st : MapPin) :
    Outcome MapPin ToolResponse :=
  if args.type = ToolEventType.MOVE then
    match st.deref st.pin, st.pin with
    | some _, some u =>
      .ok ToolResponse.nop (st.assign u fun p => { p with position := args.coords })
    | _, _ => .undefined
  else if args.type = ToolEventType.CLICK then
    if args.button = 1 then
      match set_placed st.pins st.pin_index with
      | .error e => .threw e st
      | .ok pins =>
        let st := { st with pins := pins }
        let st := { st with pin_index := st.pin_index + 1 }
        let st := { st with
          pin_index := skip_placed_loop (st.pins.drop st.pin_index) st.pin_index }
        if st.pin_index = st.pins.length then .ok ToolResponse.commit st
        else
          match st.pins[st.pin_index]? with
          | none => .threw .out_of_range st
          | some next =>
            (st.create_pin next.1.uuid).bind fun _ st =>
              match st.pin with
              | none => .undefined
              | some u =>
                .ok ToolResponse.nop (st.assign u fun p => { p with position := args.coords })
    else if args.button = 3 then
      match st.pin with
      | none => .ok ToolResponse.commit st
      | some u =>
        match st.symbol_pins.find u with
        | none => .undefined
        | some p => .ok ToolResponse.commit { st with symbol_pins := st.symbol_pins.erase p.uuid }
    else .ok ToolResponse.nop st
  else if args.type = ToolEventType.KEY then
    if args.key = GDK_KEY_Return then
      match st.pin_last, st.pin_last2 with
      | some l, some l2 =>
        match st.symbol_pins.find l2, st.symbol_pins.find l with
        | some last2, some last =>
          if last2.orientation = last.orientation then
            match last.position.sub last2.position with
            | none => .undefined
            | some shift =>
              match last.position.add shift with
              | none => .undefined
              | some pos =>
                match st.deref st.pin, st.pin with
                | some _, some u =>
                  let st := st.assign u fun p => { p with position := pos }
                  match set_placed st.pins st.pin_index with
                  | .error e => .threw e st
                  | .ok pins =>
                    let st := { st with pins := pins }
                    let st := { st with pin_index := st.pin_index + 1 }
                    let st := { st with
                      pin_index := skip_placed_loop (st.pins.drop st.pin_index) st.pin_index }
                    if st.pin_index = st.pins.length then .ok ToolResponse.commit st
                    else
                      match st.pins[st.pin_index]? with
                      | none => .threw .out_of_range st
                      | some next =>
                        (st.create_pin next.1.uuid).bind fun _ st =>
                          match st.pin with
                          | none => .undefined
                          | some u =>
                            .ok ToolResponse.nop
                              (st.assign u fun p => { p with position := args.coords })
                | _, _ => .undefined
          else .ok ToolResponse.nop st
        | _, _ => .undefined
      | _, _ => .ok ToolResponse.nop st
    else if args.key = GDK_KEY_space then
      let r := env.map_pin st.pins
      if r.1 then
        match st.deref st.pin with
        | none => .undefined
        | some p =>
          let st := { st with symbol_pins := st.symbol_pins.erase p.uuid }
          match st.pins.findIdx? fun a => a.1.uuid = r.2 with
          | none => .undefined
          | some x =>
            let st := { st with pin_index := x }
            let p1 := st.pin_last
            let p2 := st.pin_last2
            (st.create_pin r.2).bind fun _ st =>
              match st.pin with
              | none => .undefined
              | some u =>
                let st := st.assign u fun p => { p with position := args.coords }
                let st := { st with pin_last2 := p2 }
                let st := { st with pin_last := p1 }
                .ok ToolResponse.nop st
      else .ok ToolResponse.nop st
    else if args.key = GDK_KEY_r ∨ args.key = GDK_KEY_e then
      match st.deref st.pin, st.pin with
      | some p, some u =>
        let o := env.transform_orientation p.orientation (args.key = GDK_KEY_r)
        .ok ToolResponse.nop (st.assign u fun q => { q with orientation := o })
      | _, _ => .undefined
    else if args.key = GDK_KEY_Escape then .ok ToolResponse.revert st
    else .ok ToolResponse.nop st
  else .ok ToolResponse.nop st

/-! ## Sequences of history operations -/

/-- The operations on the history, and `edit`: a mutation of the document made
between two of them (by a tool or a property edit). -/
inductive HistoryOp (D : Type) where
  | rebuild (from_undo : Bool)
  | undo
  | redo
  | history_clear
  | edit (d : D)

/-- One operation, run from state `s`. -/
def Core.history_op (s : Core D T J) : HistoryOp D → Outcome (Core D T J) Unit
  | .rebuild from_undo => s.rebuild from_undo
  | .undo => s.undo
  | .redo => s.redo
  | .history_clear => .ok () s.history_clear
  | .edit d => .ok () { s with doc := d }

/-- The states reachable from `history_clear()` by history operations; an
operation that throws leaves the state it had reached. -/
inductive Core.Reachable : Core D T J → Prop where
  | clear (s : Core D T J) : Core.Reachable s.history_clear
  | step {s s1 : Core D T J} (op : HistoryOp D) :
      Core.Reachable s → (s.history_op op).state? = some s1 → Core.Reachable s1

/-- A commit of document state `d`: the document has become `d`, then
`rebuild(false)` runs. -/
def Core.commit (d : D) (s : Core D T J) : Outcome (Core D T J) Unit :=
  Core.rebuild false { s with doc := d }

/-- Consecutive commits of the document states `ds`, in order. -/
def Core.commits : List D → Core D T J → Outcome (Core D T J) Unit
  | [], s => .ok () s
  | d :: ds, s => (s.commit d).bind fun _ s1 => Core.commits ds s1

/-- History operations run one after the other, up to the first that does not
return normally. -/
def Core.history_ops : List (HistoryOp D) → Core D T J → Outcome (Core D T J) Unit
  | [], s => .ok () s
  | op :: ops, s => (s.history_op op).bind fun _ s1 => Core.history_ops ops s1

/-- The states reachable from `history_clear()` by history operations when
`undo()` is never called with the cursor at `-1`. -/
inductive Core.ReachableGuarded : Core D T J → Prop where
  | clear (s : Core D T J) : Core.ReachableGuarded s.history_clear
  | step {s s1 : Core D T J} (op : HistoryOp D) :
      Core.ReachableGuarded s → (op = HistoryOp.undo → s.history_current ≠ -1) →
      (s.history_op op).state? = some s1 → Core.ReachableGuarded s1

/-! ## Predicates of the statements -/

/-- The invariant of the history cursor: `-1 ≤ cursor < |history|`, and the
cursor is `-1` exactly when the history is empty. -/
def Core.cursor_inv (s : Core D T J) : Prop :=
  -1 ≤ s.history_current ∧ s.history_current < s.history.length
    ∧ (s.history_current = -1 ↔ s.history = [])

/-- The document equals the snapshot under the cursor, `history[cursor]`. -/
def Core.at_snapshot (s : Core D T J) : Prop :=
  0 ≤ s.history_current ∧ s.history[s.history_current.toNat]? = some s.doc

/-- What one engine call establishes, from state `s` to state `s1` with
response `r`: the cursor is on an entry; the history and the cursor change only
on `COMMIT`; after `COMMIT` or `REVERT` the engine is idle and the document
equals `history[cursor]`; on `COMMIT` the history is the entries of `s` up to
its cursor followed by the document, trimmed to fifty entries, and the cursor
is on the last entry. -/
def Core.tool_step_post (s : Core D T J) (r : ToolResponse) (s1 : Core D T J) : Prop :=
  0 ≤ s1.history_current ∧ s1.history_current < s1.history.length
    ∧ (r.result ≠ Result.COMMIT →
        s1.history = s.history ∧ s1.history_current = s.history_current)
    ∧ (r.result = Result.COMMIT ∨ r.result = Result.REVERT → s1.tool = none ∧ s1.at_snapshot)
    ∧ (r.result = Result.COMMIT →
        s1.history = (s.history.take (s.history_current + 1).toNat ++ [s1.doc]).drop
            ((s.history_current + 2).toNat - 50)
          ∧ s1.history_current = (s1.history.length : Int) - 1)

/-- What one engine call establishes whichever way it ends: `tool_step_post`
on a normal return; an object that propagates is not a `std::exception` and
the history and the cursor are unchanged; the behaviour is defined. -/
def Core.tool_call_post (s : Core D T J) : Outcome (Core D T J) ToolResponse → Prop
  | .ok r s1 => s.tool_step_post r s1
  | .threw e s1 =>
    e.is_std_exception = false ∧ s1.history = s.history
      ∧ s1.history_current = s.history_current
  | .undefined => False

/-- The outcome is not the busy error: no `std::runtime_error` is thrown. -/
def Outcome.no_runtime_error {σ α : Type} (o : Outcome σ α) : Prop :=
  ∀ (what : String) (s1 : σ), o ≠ .threw (.runtime_error what) s1

/-- Whether a signal is `needs_save` with some payload. -/
def Signal.is_needs_save : Signal J → Bool
  | .needs_save _ => true
  | _ => false

/-- Whether a signal is `modified`. -/
def Signal.is_modified : Signal J → Bool
  | .modified => true
  | _ => false

/-- `strcmp_natural` is a consistent three-way comparison: swapping the
arguments swaps the sign, and "not greater" is transitive. -/
structure SearchEnv.consistent (env : SearchEnv) : Prop where
  swap : ∀ a b, env.strcmp_natural a b < 0 ↔ 0 < env.strcmp_natural b a
  le_trans : ∀ a b c, env.strcmp_natural a b ≤ 0 → env.strcmp_natural b c ≤ 0 →
    env.strcmp_natural a c ≤ 0

/-- The first sort key of a result: `0` inside the visible area, `1` outside. -/
def SearchEnv.area_key (env : SearchEnv) (a : SearchResult) : Int :=
  if env.in_range a.location then 0 else 1

/-- The display name of a result, as the comparator computes it. -/
def SearchEnv.name (env : SearchEnv) (a : SearchResult) : String :=
  env.get_display_name a.type a.uuid a.sheet

/-- Two results tie under the comparator: same side of the visible area, same
type value, display names that compare equal, same `x` and same `y`. -/
def search_result_tie (env : SearchEnv) (a b : SearchResult) : Prop :=
  env.in_range a.location = env.in_range b.location
    ∧ env.type_value a.type = env.type_value b.type
    ∧ env.strcmp_natural (env.get_display_name a.type a.uuid a.sheet)
        (env.get_display_name b.type b.uuid b.sheet) = 0
    ∧ a.location.x = b.location.x ∧ a.location.y = b.location.y

/-- The placed flag of entry `k` of a pin list. -/
def placed_at (pins : List (Pin × Bool)) (k : Nat) : Option Bool :=
  pins[k]?.map Prod.snd

/-- Every entry of the pin list before `pin_index` is marked placed. -/
def MapPin.prefix_placed (st : MapPin) : Prop :=
  ∀ k, k < st.pin_index → placed_at st.pins k = some true

/-- The event is a click of button 1 or the key Return. -/
def is_click_or_return (args : ToolArgs) : Prop :=
  (args.type = ToolEventType.CLICK ∧ args.button = 1)
    ∨ (args.type = ToolEventType.KEY ∧ args.key = GDK_KEY_Return)

/-- The event is neither the key Space nor a click of button 3. -/
def is_plain_event (args : ToolArgs) : Prop :=
  ¬ (args.type = ToolEventType.KEY ∧ args.key = GDK_KEY_space)
    ∧ ¬ (args.type = ToolEventType.CLICK ∧ args.button = 3)

/-- The number of `pop_back` calls the loop
`while (history_current + 1 != (int)history.size()) history.pop_back();` makes
before it exits, on the deque listed back to front; `none` when it pops the
empty deque. -/
def pop_back_count (history_current : Int) : List D → Option Nat
  | [] => if history_current + 1 ≠ 0 then none else some 0
  | x :: rest =>
    if history_current + 1 ≠ ((x :: rest).length : Int) then
      (pop_back_count history_current rest).map fun k => k + 1
    else some 0

/-- The number of `pop_front` calls the loop of `history_trim` makes. -/
def history_trim_count : List D → Nat
  | [] => 0
  | x :: rest => if (x :: rest).length > 50 then history_trim_count rest + 1 else 0

/-- The cursor is at `-1` or on an entry of the history: `-1 ≤ cursor` and
`cursor + 1 ≤ |history|`. -/
def Core.rebuild_pre (s : Core D T J) : Prop :=
  -1 ≤ s.history_current ∧ s.history_current + 1 ≤ (s.history.length : Int)

/-- Whether a signal is `rebuilt`. -/
def Signal.is_rebuilt : Signal J → Bool
  | .rebuilt => true
  | _ => false

/-- The signal by which `maybe_end_tool` saves the settings of tool `t`: one
`save_tool_settings` if the tool has settings, none otherwise. -/
def ToolOps.save_settings_signals (ops : ToolOps D T J) (t : T) : List (Signal J) :=
  match ops.get_settings_const t with
  | some settings => [.save_tool_settings (ops.get_tool_id_for_settings t) settings]
  | none => []

/-! ## Sample states -/

/-- An idle kernel around document `d` with nothing to save and an empty
history, the cursor at `-1`. -/
def Core.init (d : D) : Core D T J :=
  { doc := d, history := [], history_current := -1, needs_save := false,
    tool := none, tool_selection := [], property_transaction := false, emitted := [] }

/-- An idle kernel with the given document, history and cursor. -/
def Core.sample (d : D) (h : List D) (c : Int) : Core D T J :=
  { doc := d, history := h, history_current := c, needs_save := false,
    tool := none, tool_selection := [], property_transaction := false, emitted := [] }

/-- The state after fifty commits of the documents `0, ..., 49`, the document
now being `50`: a full history with the cursor on its last entry. -/
def full_history : Core Nat Unit Unit := Core.sample 50 (List.range 50) 49

/-- The state of the undo/redo scenario before its last commit: commits of the
documents `1`, `2`, `3`, two undos, and the document edited to `4`. -/
def after_two_undos : Core Nat Unit Unit :=
  { doc := 4, history := [1, 2, 3], history_current := 0, needs_save := true,
    tool := none, tool_selection := [], property_transaction := false,
    emitted := [.can_undo_redo, .rebuilt, .can_undo_redo, .rebuilt, .can_undo_redo,
      .rebuilt, .can_undo_redo, .rebuilt, .can_undo_redo, .modified, .needs_save true,
      .rebuilt, .can_undo_redo, .modified] }

/-- A sample tool over documents that are numbers, without settings: `begin`
leaves the document alone and returns `NOP`, `update` is the given function of
the document. The factory knows every tool id, and so does the catalogue. -/
def sample_tool (upd : Nat → ToolStep Nat Unit) : ToolOps Nat Unit Unit :=
  { update_rules := fun d => d
    create_tool := fun _ => .ok (some ())
    has_settings_proxy := fun _ => false
    get_tool_id_for_settings := fun _ => ToolID.NONE
    load_tool_settings := fun _ => none
    load_from_json := fun t _ => (t, none)
    set_imp_interface := fun t => t
    selection := fun _ => []
    set_selection := fun t _ => t
    set_transient := fun t => t
    can_begin := fun _ _ => .ok true
    begin := fun t _ d => { doc := d, tool := t, result := .ok ToolResponse.nop }
    update := fun _ _ d => upd d
    get_settings_const := fun _ => none
    action_catalog := fun _ => some "tool" }

/-- A tool whose `update` changes the document to `99` and then throws. -/
def throwing_tool : ToolOps Nat Unit Unit :=
  sample_tool fun _ => { doc := 99, tool := (), result := .error (.exception "update failed") }

/-- A tool whose `update` changes the document to `99` and then throws an
object that is not a `std::exception`. -/
def foreign_throwing_tool : ToolOps Nat Unit Unit :=
  sample_tool fun _ => { doc := 99, tool := (), result := .error (.foreign "update failed") }

/-- A tool whose `update` changes the document to `8` and returns `COMMIT`. -/
def committing_tool : ToolOps Nat Unit Unit :=
  sample_tool fun _ => { doc := 8, tool := (), result := .ok ⟨Result.COMMIT⟩ }

/-- A pointer-move event at the origin with an empty selection. -/
def move_event : ToolArgs :=
  { type := ToolEventType.MOVE, coords := ⟨0, 0⟩, button := 0, key := 0, selection := [],
    keep_selection := false }

/-- A kernel with an active tool `t`, the given document, history and cursor. -/
def Core.sample_active (t : T) (d : D) (h : List D) (c : Int) : Core D T J :=
  { doc := d, history := h, history_current := c, needs_save := false,
    tool := some t, tool_selection := [], property_transaction := false, emitted := [] }

/-- A tool whose `can_begin` throws. -/
def failing_can_begin_tool : ToolOps Nat Unit Unit :=
  { sample_tool (fun d => { doc := d, tool := (), result := .ok ToolResponse.nop }) with
    can_begin := fun _ _ => .error (.exception "can_begin failed") }

/-- A tool whose `begin` changes the document to `99` and then throws. -/
def failing_begin_tool : ToolOps Nat Unit Unit :=
  { sample_tool (fun d => { doc := d, tool := (), result := .ok ToolResponse.nop }) with
    begin := fun _ _ _ =>
      { doc := 99, tool := (), result := .error (.exception "begin failed") } }

/-- A tool that stays active: `begin` and `update` return `NOP`. -/
def idle_tool : ToolOps Nat Unit Unit :=
  sample_tool fun d => { doc := d, tool := (), result := .ok ToolResponse.nop }

/-- A sample search environment: every junction is displayed as `"J"` and
everything else as `"XX"`, names compare by their length, everything is inside
the visible area, and the types are numbered in the order of their
declaration. -/
def sample_search_env : SearchEnv :=
  { get_display_name := fun t _ _ => if t = ObjectType.JUNCTION then "J" else "XX"
    strcmp_natural := fun a b => (a.length : Int) - (b.length : Int)
    in_range := fun _ => true
    type_value := fun t => (t.toCtorIdx : Int) }

/-- A junction with UUID `1` at the origin. -/
def junction_one : SearchResult :=
  { type := ObjectType.JUNCTION, uuid := 1, location := ⟨0, 0⟩, sheet := 0 }

/-- A junction with UUID `2` at the origin. -/
def junction_two : SearchResult :=
  { type := ObjectType.JUNCTION, uuid := 2, location := ⟨0, 0⟩, sheet := 0 }

/-- A junction with UUID `3` at `(0, 5)`. -/
def junction_three : SearchResult :=
  { type := ObjectType.JUNCTION, uuid := 3, location := ⟨0, 5⟩, sheet := 0 }

/-- The number a string of decimal digits stands for. -/
def digits_value (s : String) : Nat :=
  s.data.foldl (fun n c => 10 * n + (c.toNat - 48)) 0

/-- A sample environment of the map-pin tool: names are numbers and compare
by their value, the dialog accepts and answers `choice`. -/
def sample_map_pin_env (choice : UUID) : MapPinEnv :=
  { strcmp_natural := fun a b => (digits_value a : Int) - (digits_value b : Int)
    map_pin := fun _ => (true, choice)
    transform_orientation := fun o _ => o }

/-- A new map-pin tool on a symbol without pins whose unit has the pins named
`"10"`, `"1"` and `"2"`, with the UUIDs `1`, `2` and `3`. -/
def fresh_map_pin : MapPin :=
  { symbol_pins := []
    unit_pins := [(1, ⟨1, "10"⟩), (2, ⟨2, "1"⟩), (3, ⟨3, "2"⟩)]
    pins := [], pin_index := 0, pin := none, pin_last := none, pin_last2 := none,
    selection := [] }

/-- An event of the given kind at `(x, 0)`, with an empty selection. -/
def event_at (type : ToolEventType) (button key : Nat) (x : Int) : ToolArgs :=
  { type := type, coords := ⟨x, 0⟩, button := button, key := key, selection := [],
    keep_selection := false }

/-- Events fed to `update` one after the other for as long as it answers
`NOP`; the value is the last response. -/
def MapPin.updates (env : MapPinEnv) : List ToolArgs → ToolResponse → MapPin →
    Outcome MapPin ToolResponse
  | [], r, st => .ok r st
  | a :: rest, r, st =>
    if r.result = Result.NOP then
      (st.update env a).bind fun r1 st1 => MapPin.updates env rest r1 st1
    else .ok r st

/-- The tool after `begin` at the origin, the dialog having answered the pin
named `"1"`: the pin list in the order `"1"`, `"2"`, `"10"`, nothing placed,
the pin `"1"` created at the origin. -/
def map_pin_started : MapPin :=
  { symbol_pins := [(2, ⟨2, "1", ⟨0, 0⟩, Orientation.RIGHT, 2500000⟩)]
    unit_pins := [(1, ⟨1, "10"⟩), (2, ⟨2, "1"⟩), (3, ⟨3, "2"⟩)]
    pins := [(⟨2, "1"⟩, false), (⟨3, "2"⟩, false), (⟨1, "10"⟩, false)]
    pin_index := 0, pin := some 2, pin_last := none, pin_last2 := none, selection := [] }

/-- The tool after the pin `"1"` was placed at the origin and the pin `"2"`
at `(5, 0)`: the pin `"10"` is the current pin, created at `(5, 0)`. -/
def map_pin_two_placed : MapPin :=
  { symbol_pins := [(1, ⟨1, "10", ⟨5, 0⟩, Orientation.RIGHT, 2500000⟩),
      (2, ⟨2, "1", ⟨0, 0⟩, Orientation.RIGHT, 2500000⟩),
      (3, ⟨3, "2", ⟨5, 0⟩, Orientation.RIGHT, 2500000⟩)]
    unit_pins := [(1, ⟨1, "10"⟩), (2, ⟨2, "1"⟩), (3, ⟨3, "2"⟩)]
    pins := [(⟨2, "1"⟩, true), (⟨3, "2"⟩, true), (⟨1, "10"⟩, false)]
    pin_index := 2, pin := some 1, pin_last := some 3, pin_last2 := some 2, selection := [] }

/-- The tool with the pin `"1"` placed at `(3, 4)` and the pin `"2"` at
`(8, 6)`: the pin `"10"` is the current pin, created at `(8, 6)`. -/
def map_pin_oblique : MapPin :=
  { symbol_pins := [(1, ⟨1, "10", ⟨8, 6⟩, Orientation.RIGHT, 2500000⟩),
      (2, ⟨2, "1", ⟨3, 4⟩, Orientation.RIGHT, 2500000⟩),
      (3, ⟨3, "2", ⟨8, 6⟩, Orientation.RIGHT, 2500000⟩)]
    unit_pins := [(1, ⟨1, "10"⟩), (2, ⟨2, "1"⟩), (3, ⟨3, "2"⟩)]
    pins := [(⟨2, "1"⟩, true), (⟨3, "2"⟩, true), (⟨1, "10"⟩, false)]
    pin_index := 2, pin := some 1, pin_last := some 3, pin_last2 := some 2, selection := [] }

/-- The tool with the pin `"1"` placed at `(-2^62, 0)` and the pin `"2"` at
`(2^62, 0)`: the pin `"10"` is the current pin. -/
def map_pin_far_apart : MapPin :=
  { symbol_pins := [(1, ⟨1, "10", ⟨0, 0⟩, Orientation.RIGHT, 2500000⟩),
      (2, ⟨2, "1", ⟨-4611686018427387904, 0⟩, Orientation.RIGHT, 2500000⟩),
      (3, ⟨3, "2", ⟨4611686018427387904, 0⟩, Orientation.RIGHT, 2500000⟩)]
    unit_pins := [(1, ⟨1, "10"⟩), (2, ⟨2, "1"⟩), (3, ⟨3, "2"⟩)]
    pins := [(⟨2, "1"⟩, true), (⟨3, "2"⟩, true), (⟨1, "10"⟩, false)]
    pin_index := 2, pin := some 1, pin_last := some 3, pin_last2 := some 2, selection := [] }

/-- The tool after `begin`, the dialog having answered the pin named `"10"`,
the last of the list. -/
def map_pin_started_at_last : MapPin :=
  { symbol_pins := [(1, ⟨1, "10", ⟨0, 0⟩, Orientation.RIGHT, 2500000⟩)]
    unit_pins := [(1, ⟨1, "10"⟩), (2, ⟨2, "1"⟩), (3, ⟨3, "2"⟩)]
    pins := [(⟨2, "1"⟩, false), (⟨3, "2"⟩, false), (⟨1, "10"⟩, false)]
    pin_index := 2, pin := some 1, pin_last := none, pin_last2 := none, selection := [] }

/-- The event `begin` gets when the pins with the UUIDs `2` and `3` are
selected in the sidebar. -/
def sidebar_event : ToolArgs :=
  { type := ToolEventType.NONE, coords := ⟨0, 0⟩, button := 0, key := 0,
    selection := [⟨2, ObjectType.SYMBOL_PIN⟩, ⟨3, ObjectType.SYMBOL_PIN⟩],
    keep_selection := false }

/-- Sample entity classes: every entity is its UUID with a number as content,
`0` in a newly constructed entity. -/
def sample_entities : Entities :=
  { E := fun _ => UUID × Nat, ctor := fun _ uu => (uu, 0) }

/-- A document that has a map of every kind, all of them empty. -/
def empty_document : Document sample_entities :=
  { junction_map := some [], line_map := some [], arc_map := some [], text_map := some [],
    polygon_map := some [], hole_map := some [], dimension_map := some [],
    keepout_map := some [] }

/-- A document whose text map holds the UUIDs `3` and `5`, the text `5` with
the content `42`. -/
def text_document : Document sample_entities :=
  { empty_document with text_map := some [(3, (3, 7)), (5, (5, 42))] }

/-! ## The loops of `rebuild` and `history_trim` -/

theorem pop_back_loop_eq (n : Nat) (rev : List D) (hle : n ≤ rev.length) :
    pop_back_loop ((n : Int) - 1) rev = some (rev.drop (rev.length - n)) := by
  induction rev with
  | nil =>
    have : n = 0 := by simpa using hle
    subst this
    simp [pop_back_loop]
  | cons x rest ih =>
    by_cases h : n = rest.length + 1
    · subst h
      simp [pop_back_loop]
    · have hle2 : n ≤ rest.length := by
        simp only [List.length_cons] at hle
        omega
      have hne : (n : Int) - 1 + 1 ≠ ((x :: rest).length : Int) := by
        simp only [List.length_cons]
        push_cast
        omega
      rw [pop_back_loop, if_pos hne, ih hle2]
      have : (x :: rest).length - n = (rest.length - n) + 1 := by
        simp only [List.length_cons]
        omega
      rw [this, List.drop_succ_cons]

theorem history_trim_loop_eq (h : List D) (c : Int) :
    history_trim_loop h c = (h.drop (h.length - 50), c - ((h.length - 50 : Nat) : Int)) := by
  induction h generalizing c with
  | nil => simp [history_trim_loop]
  | cons x rest ih =>
    by_cases hgt : (x :: rest).length > 50
    · rw [history_trim_loop, if_pos hgt, ih]
      have : (x :: rest).length - 50 = (rest.length - 50) + 1 := by
        simp only [List.length_cons] at hgt ⊢
        omega
      rw [this, List.drop_succ_cons]
      congr 1
      push_cast
      omega
    · rw [history_trim_loop, if_neg hgt]
      have : (x :: rest).length - 50 = 0 := by omega
      rw [this]
      simp

/-- The value of `rebuild(false)` on a state whose cursor is inside the deque
or just before it: the entries after the cursor are popped, the document is
pushed, and the front is trimmed down to fifty entries. -/
theorem rebuild_false_eq (s : Core D T J) (n : Nat) (hn : s.history_current + 1 = (n : Int))
    (hle : n ≤ s.history.length) :
    s.rebuild false = .ok ()
      { s with
        history := (s.history.take n ++ [s.doc]).drop (n + 1 - 50)
        history_current := (n : Int) - ((n + 1 - 50 : Nat) : Int)
        emitted := s.emitted ++ [.rebuilt, .can_undo_redo] } := by
  have hc : s.history_current = (n : Int) - 1 := by omega
  have hpop : pop_back_loop s.history_current s.history.reverse
      = some (s.history.take n).reverse := by
    rw [hc, pop_back_loop_eq n s.history.reverse (by simpa using hle)]
    simp only [List.length_reverse]
    rw [List.drop_reverse]
    have : s.history.length - (s.history.length - n) = n := by omega
    rw [this]
  simp only [Core.rebuild, hpop, Core.history_push, Core.history_trim, history_trim_loop_eq,
    Core.emit, List.reverse_reverse, Bool.not_false, if_true]
  have hlen : (s.history.take n ++ [s.doc]).length = n + 1 := by
    simp [List.length_take, Nat.min_eq_left hle]
  simp [hlen, hn]

theorem history_trim_loop_length_le (h : List D) (c : Int) :
    (history_trim_loop h c).1.length ≤ 50 := by
  rw [history_trim_loop_eq]
  simp only [List.length_drop]
  omega

/-- Whatever state `rebuild` leaves has at most fifty entries if the state
before had. -/
theorem rebuild_length_le (b : Bool) (s s1 : Core D T J) (h : s.history.length ≤ 50)
    (hs : (s.rebuild b).state? = some s1) : s1.history.length ≤ 50 := by
  cases b with
  | true =>
    simp only [Core.rebuild, Bool.not_true, Bool.false_eq_true, if_false, Outcome.state?,
      Option.some.injEq] at hs
    subst hs
    exact h
  | false =>
    simp only [Core.rebuild, Bool.not_false, if_true] at hs
    cases hp : pop_back_loop s.history_current s.history.reverse with
    | none => simp [hp, Outcome.state?] at hs
    | some rev =>
      simp only [hp, Outcome.state?, Option.some.injEq] at hs
      subst hs
      exact history_trim_loop_length_le _ _

theorem set_needs_save_history (v : Bool) (s : Core D T J) :
    (s.set_needs_save v).history = s.history
      ∧ (s.set_needs_save v).history_current = s.history_current
      ∧ (s.set_needs_save v).doc = s.doc ∧ (s.set_needs_save v).tool = s.tool := by
  rcases s with ⟨d, h, c, ns, t, ts, pt, em⟩
  cases v <;> cases ns <;> simp [Core.set_needs_save, Core.emit]

/-- The state left by loading and then signalling, as `undo` and `redo` do. -/
theorem load_then_signal_history (i : Int) (s s1 : Core D T J)
    (hs : ((s.history_load i).bind fun _ s =>
        Outcome.ok () (((s.emit .rebuilt).emit .can_undo_redo).set_needs_save true)).state?
      = some s1) :
    s1.history = s.history := by
  unfold Core.history_load at hs
  split at hs
  · split at hs
    · simp only [Outcome.bind, Outcome.state?, Option.some.injEq] at hs
      subst hs
      rw [(set_needs_save_history _ _).1]
      rfl
    · simp only [Outcome.bind, Outcome.state?, Option.some.injEq] at hs
      subst hs
      rfl
  · simp only [Outcome.bind, Outcome.state?, Option.some.injEq] at hs
    subst hs
    rfl

theorem history_op_length_le (op : HistoryOp D) (s s1 : Core D T J) (h : s.history.length ≤ 50)
    (hs : (s.history_op op).state? = some s1) : s1.history.length ≤ 50 := by
  cases op with
  | rebuild b => exact rebuild_length_le b s s1 h hs
  | undo =>
    simp only [Core.history_op, Core.undo] at hs
    split at hs
    · rw [load_then_signal_history _ _ _ hs]
      exact h
    · simp only [Outcome.state?, Option.some.injEq] at hs
      subst hs
      exact h
  | redo =>
    simp only [Core.history_op, Core.redo] at hs
    split at hs
    · simp only [Outcome.state?, Option.some.injEq] at hs
      subst hs
      exact h
    · rw [load_then_signal_history _ _ _ hs]
      exact h
  | history_clear =>
    simp only [Core.history_op, Outcome.state?, Option.some.injEq] at hs
    subst hs
    simp [Core.history_clear, Core.emit]
  | edit d =>
    simp only [Core.history_op, Outcome.state?, Option.some.injEq] at hs
    subst hs
    exact h

theorem reachable_length_le (r : Core D T J) (hr : Core.Reachable r) : r.history.length ≤ 50 := by
  induction hr with
  | clear s => simp [Core.history_clear, Core.emit]
  | step op _ hs ih => exact history_op_length_le op _ _ ih hs

/-- Consecutive commits from a state whose cursor is on the last of at most
fifty entries keep the last fifty of all the snapshots. -/
theorem commits_eq (ds : List D) (s : Core D T J)
    (hc : s.history_current + 1 = (s.history.length : Int)) (h50 : s.history.length ≤ 50) :
    ∃ s1, s.commits ds = .ok () s1
      ∧ s1.history = (s.history ++ ds).drop ((s.history ++ ds).length - 50)
      ∧ s1.history_current + 1 = (s1.history.length : Int) := by
  induction ds generalizing s with
  | nil =>
    refine ⟨s, rfl, ?_, hc⟩
    have : (s.history ++ []).length - 50 = 0 := by simp; omega
    rw [this]
    simp
  | cons d ds ih =>
    have hr := rebuild_false_eq ({ s with doc := d }) s.history.length hc (le_refl _)
    simp only [List.take_length] at hr
    let k := s.history.length + 1 - 50
    have hlen0 : (s.history ++ [d]).length = s.history.length + 1 := by simp
    obtain ⟨s1, hs1, hh, hc1⟩ := ih
      { s with
        doc := d
        history := (s.history ++ [d]).drop (s.history.length + 1 - 50)
        history_current := (s.history.length : Int) - ((s.history.length + 1 - 50 : Nat) : Int)
        emitted := s.emitted ++ [.rebuilt, .can_undo_redo] }
      (by simp only [List.length_drop, hlen0]; omega)
      (by simp only [List.length_drop, hlen0]; omega)
    refine ⟨s1, ?_, ?_, hc1⟩
    · simp only [Core.commits, Core.commit, hr, Outcome.bind]
      exact hs1
    · rw [hh]
      simp only []
      have e1 : List.drop (s.history.length + 1 - 50) (s.history ++ [d]) ++ ds
          = List.drop (s.history.length + 1 - 50) (s.history ++ d :: ds) := by
        rw [show s.history ++ d :: ds = (s.history ++ [d]) ++ ds by simp]
        exact (List.drop_append_of_le_length (by rw [hlen0]; omega)).symm
      rw [e1, List.length_drop, List.drop_drop]
      congr 1
      simp only [List.length_append, List.length_cons]
      omega

/-! ## History claims -/

/-- C1 (the code departs from the claim): `undo()` right after
`history_clear()` passes the guard `if (history_current)`, because `-1` is
nonzero, and decrements the cursor to `-2` before it calls `history_load`,
which then fails to load an entry. The state it leaves is reachable, has an
empty history and a cursor below `-1`. -/
theorem C1_undo_after_history_clear (s : Core D T J) :
    s.history_clear.history_current ≠ 0
      ∧ s.history_clear.history_current - 1 = -2
      ∧ ∃ s1, Core.Reachable s1 ∧ s.history_clear.undo = .threw .out_of_range s1
          ∧ s1.history = [] ∧ s1.history_current = -2 ∧ ¬ (-1 ≤ s1.history_current) := by
  refine ⟨?_, rfl, { s.history_clear with history_current := -2 }, ?_, rfl, rfl, rfl, ?_⟩
  · show (-1 : Int) ≠ 0
    decide
  · exact Core.Reachable.step HistoryOp.undo (Core.Reachable.clear s) rfl
  · show ¬ ((-1 : Int) ≤ -2)
    decide

/-- C2 (the claim as stated fails): on a full history of fifty entries with
the cursor on the last one, `rebuild(false)` returns normally but entry `0` is
not kept: trimming drops it and every other entry moves one place down. -/
theorem C2_entries_shift_when_trimmed :
    -1 ≤ full_history.history_current
      ∧ full_history.history_current < full_history.history.length
      ∧ (0 : Int) ≤ full_history.history_current
      ∧ ∃ s1, full_history.rebuild false = .ok () s1
          ∧ s1.history[0]? ≠ full_history.history[0]? :=
  ⟨by decide, by decide, by decide, _, rfl, by decide⟩

/-- What `rebuild(false)` does on a state with `-1 ≤ cursor < |history|`. -/
theorem rebuild_false_spec (s : Core D T J) (h1 : -1 ≤ s.history_current)
    (h2 : s.history_current < s.history.length) :
    ∃ s1, s.rebuild false = .ok () s1
      ∧ s1.history = (s.history.take (s.history_current + 1).toNat ++ [s.doc]).drop
          ((s.history_current + 2).toNat - 50)
      ∧ (s1.history.length : Int) = min (s.history_current + 2) 50
      ∧ s1.history_current = (s1.history.length : Int) - 1
      ∧ s1.history[s1.history_current.toNat]? = some s.doc
      ∧ (s.history_current + 2 ≤ 50 →
          ∀ i : Nat, (i : Int) ≤ s.history_current → s1.history[i]? = s.history[i]?)
      ∧ s1.doc = s.doc ∧ s1.tool = s.tool := by
  obtain ⟨n, hn⟩ : ∃ n : Nat, s.history_current + 1 = (n : Int) :=
    ⟨(s.history_current + 1).toNat, by omega⟩
  have hle : n ≤ s.history.length := by omega
  have hn1 : (s.history_current + 1).toNat = n := by omega
  have hn2 : (s.history_current + 2).toNat = n + 1 := by omega
  have hlen0 : (s.history.take n ++ [s.doc]).length = n + 1 := by
    simp [List.length_take, Nat.min_eq_left hle]
  have hlen : ((s.history.take n ++ [s.doc]).drop (n + 1 - 50)).length = n + 1 - (n + 1 - 50) := by
    rw [List.length_drop, hlen0]
  refine ⟨_, rebuild_false_eq s n hn hle, ?_, ?_, ?_, ?_, ?_, rfl, rfl⟩
  · simp only [hn1, hn2]
  · simp only [hlen]
    omega
  · simp only [hlen]
    omega
  · simp only []
    have hidx : ((n : Int) - ((n + 1 - 50 : Nat) : Int)).toNat = n - (n + 1 - 50) := by omega
    rw [hidx, List.getElem?_drop]
    have : n + 1 - 50 + (n - (n + 1 - 50)) = n := by omega
    rw [this, List.getElem?_append_right (by simp [List.length_take, Nat.min_eq_left hle])]
    simp [List.length_take, Nat.min_eq_left hle]
  · intro h50 i hi
    simp only []
    have hk : n + 1 - 50 = 0 := by omega
    have hin : i < n := by omega
    rw [hk, List.drop_zero, List.getElem?_append_left (by simp [List.length_take]; omega)]
    rw [List.getElem?_take_of_lt hin]

/-- C2 (amended): for every state with `-1 ≤ cursor < |history|`,
`rebuild(false)` returns normally; the new history consists of the old entries
`0..cursor` followed by one snapshot of the current document, with its oldest
`max(0, cursor + 2 - 50)` entries trimmed from the front; its length is
`min(cursor + 2, 50)`, the new cursor is the last index and points at the
pushed snapshot; and when `cursor + 2 ≤ 50` nothing is trimmed, so that every
entry `0..cursor` stays at its index. The document is not changed. -/
theorem C2_rebuild_commit (s : Core D T J) (h1 : -1 ≤ s.history_current)
    (h2 : s.history_current < s.history.length) :
    ∃ s1, s.rebuild false = .ok () s1
      ∧ s1.history = (s.history.take (s.history_current + 1).toNat ++ [s.doc]).drop
          ((s.history_current + 2).toNat - 50)
      ∧ (s1.history.length : Int) = min (s.history_current + 2) 50
      ∧ s1.history_current = (s1.history.length : Int) - 1
      ∧ s1.history[s1.history_current.toNat]? = some s.doc
      ∧ (s.history_current + 2 ≤ 50 →
          ∀ i : Nat, (i : Int) ≤ s.history_current → s1.history[i]? = s.history[i]?)
      ∧ s1.doc = s.doc := by
  obtain ⟨s1, e0, e1, e2, e3, e4, e5, e6, -⟩ := rebuild_false_spec s h1 h2
  exact ⟨s1, e0, e1, e2, e3, e4, e5, e6⟩

/-- Witness of C2: the undo/redo scenario. After commits of `1`, `2`, `3` and
two undos (history `[1, 2, 3]`, cursor `0`) the commit of `4` drops the redo
tail: the history is `[1, 4]`, two entries, and the cursor is `1`. -/
theorem C2_rebuild_commit_witness :
    (Core.init 0 : Core Nat Unit Unit).history_clear.history_ops
        [.edit 1, .rebuild false, .edit 2, .rebuild false, .edit 3, .rebuild false,
          .undo, .undo, .edit 4] = .ok () after_two_undos
      ∧ -1 ≤ after_two_undos.history_current
      ∧ after_two_undos.history_current < after_two_undos.history.length
      ∧ ∃ s1, after_two_undos.rebuild false = .ok () s1
          ∧ s1.history = [1, 4] ∧ s1.history.length = 2 ∧ s1.history_current = 1 := by
  refine ⟨rfl, by decide, by decide, ?_⟩
  obtain ⟨s1, hs, hh, -, hc, -⟩ :=
    C2_rebuild_commit after_two_undos (by decide) (by decide)
  have hh2 : s1.history = [1, 4] := by rw [hh]; rfl
  refine ⟨s1, hs, hh2, by rw [hh2]; rfl, ?_⟩
  rw [hc, hh2]
  rfl

/-- C3: from the empty history, `n` consecutive commits return normally and
leave `min(n, 50)` entries, the last `min(n, 50)` of the `n` snapshots in
order, with the cursor on the last entry: entry `i` is the snapshot of commit
`n - |history| + i + 1` (the element of index `n - |history| + i` of `ds`).
And every state reachable from `history_clear()` has at most fifty entries. -/
theorem C3_commits_from_empty (s : Core D T J) (ds : List D) (r : Core D T J)
    (hr : Core.Reachable r) :
    (∃ s1, s.history_clear.commits ds = .ok () s1
      ∧ s1.history.length = min ds.length 50
      ∧ s1.history_current = (s1.history.length : Int) - 1
      ∧ ∀ i : Nat, s1.history[i]? = ds[ds.length - s1.history.length + i]?)
    ∧ r.history.length ≤ 50 := by
  refine ⟨?_, reachable_length_le r hr⟩
  obtain ⟨s1, hs, hh, hc⟩ := commits_eq ds s.history_clear rfl (by simp [Core.history_clear, Core.emit])
  have hh2 : s1.history = ds.drop (ds.length - 50) := by
    rw [hh]
    simp [Core.history_clear, Core.emit]
  have hlen : s1.history.length = min ds.length 50 := by
    rw [hh2, List.length_drop]
    omega
  refine ⟨s1, hs, hlen, by omega, ?_⟩
  intro i
  rw [hlen, hh2, List.getElem?_drop]
  congr 1
  omega

/-- Witness of C3: fifty-five commits, of the documents `1, ..., 55`, from the
empty history leave fifty entries, the cursor at `49`, and at index `0` the
snapshot taken at commit `6`. -/
theorem C3_commits_from_empty_witness :
    Core.Reachable (Core.init 0 : Core Nat Unit Unit).history_clear
      ∧ ∃ s1, (Core.init 0 : Core Nat Unit Unit).history_clear.commits (List.range' 1 55)
            = .ok () s1
          ∧ s1.history.length = 50 ∧ s1.history_current = 49 ∧ s1.history[0]? = some 6 := by
  refine ⟨Core.Reachable.clear _, ?_⟩
  obtain ⟨⟨s1, hs, hlen, hc, hi⟩, -⟩ :=
    C3_commits_from_empty (Core.init 0 : Core Nat Unit Unit) (List.range' 1 55) _
      (Core.Reachable.clear (Core.init 0))
  have hlen2 : s1.history.length = 50 := by rw [hlen]; rfl
  refine ⟨s1, hs, hlen2, ?_, ?_⟩
  · rw [hc, hlen2]; rfl
  · rw [hi 0, hlen2]; rfl

/-- C4 (the code departs from the claim): on the empty history, cursor `-1`,
`can_undo()` returns true although the cursor is not positive: it returns the
cursor converted to `bool`, which is true for every nonzero value. -/
theorem C4_can_undo_on_empty_history (s : Core D T J) :
    s.history_clear.history = [] ∧ s.history_clear.history_current = -1
      ∧ s.history_clear.can_undo = true ∧ ¬ (0 < s.history_clear.history_current) := by
  refine ⟨rfl, rfl, rfl, ?_⟩
  show ¬ ((0 : Int) < -1)
  decide

/-- The value of `undo()` below a nonzero cursor whose predecessor indexes an entry. -/
theorem undo_eq (s : Core D T J) (n : Nat) (a : D) (hc : s.history_current = (n : Int) + 1)
    (ha : s.history[n]? = some a) :
    s.undo = .ok ()
      (((({ s with history_current := (n : Int), doc := a } : Core D T J).emit .rebuilt).emit
        .can_undo_redo).set_needs_save true) := by
  have hne : s.history_current ≠ 0 := by omega
  have e1 : s.history_current - 1 = (n : Int) := by omega
  simp [Core.undo, hne, e1, Core.history_load, ha, Outcome.bind]

/-- The value of `redo()` when the entry after the cursor exists. -/
theorem redo_eq (s : Core D T J) (n : Nat) (b : D) (hc : s.history_current + 1 = (n : Int))
    (hb : s.history[n]? = some b) :
    s.redo = .ok ()
      (((({ s with history_current := (n : Int), doc := b } : Core D T J).emit .rebuilt).emit
        .can_undo_redo).set_needs_save true) := by
  have hlt : n < s.history.length := by
    rcases Nat.lt_or_ge n s.history.length with h | h
    · exact h
    · rw [List.getElem?_eq_none h] at hb
      cases hb
  have hne : s.history_current + 1 ≠ (s.history.length : Int) := by omega
  unfold Core.redo
  rw [if_neg hne]
  simp [hc, Core.history_load, hb, Outcome.bind]

/-- C5: on every state with `0 < cursor < |history|`, `undo()` returns
normally and loads the entry before the cursor, and the following `redo()`
returns normally with the history entries and the cursor as they were before
the undo and the document loaded from the entry at that cursor. -/
theorem C5_undo_then_redo (s : Core D T J) (h1 : 0 < s.history_current)
    (h2 : s.history_current < s.history.length) :
    ∃ s1 s2, s.undo = .ok () s1 ∧ s1.redo = .ok () s2
      ∧ s1.history[(s.history_current - 1).toNat]? = some s1.doc
      ∧ s2.history = s.history ∧ s2.history_current = s.history_current
      ∧ s.history[s.history_current.toNat]? = some s2.doc := by
  obtain ⟨n, hn⟩ : ∃ n : Nat, s.history_current = (n : Int) + 1 :=
    ⟨(s.history_current - 1).toNat, by omega⟩
  have hlt : n + 1 < s.history.length := by omega
  obtain ⟨a, ha⟩ : ∃ a, s.history[n]? = some a :=
    ⟨s.history[n], List.getElem?_eq_getElem (by omega)⟩
  obtain ⟨b, hb⟩ : ∃ b, s.history[n + 1]? = some b :=
    ⟨s.history[n + 1], List.getElem?_eq_getElem hlt⟩
  have hundo := undo_eq s n a hn ha
  obtain ⟨s1, hs1⟩ : ∃ s1, s1 = ((({ s with history_current := (n : Int), doc := a } :
      Core D T J).emit .rebuilt).emit .can_undo_redo).set_needs_save true := ⟨_, rfl⟩
  have p1 : s1.history = s.history := by
    rw [hs1, (set_needs_save_history _ _).1]; rfl
  have p2 : s1.history_current = (n : Int) := by
    rw [hs1, (set_needs_save_history _ _).2.1]; rfl
  have p3 : s1.doc = a := by
    rw [hs1, (set_needs_save_history _ _).2.2.1]; rfl
  have hredo := redo_eq s1 (n + 1) b (by rw [p2]; push_cast; rfl) (by rw [p1]; exact hb)
  refine ⟨s1, _, by rw [hs1]; exact hundo, hredo, ?_, ?_, ?_, ?_⟩
  · rw [p1, p3, ← ha]
    congr 1
    omega
  · rw [(set_needs_save_history _ _).1]
    exact p1
  · rw [(set_needs_save_history _ _).2.1, hn]
    simp [Core.emit]
  · rw [(set_needs_save_history _ _).2.2.1]
    simp only [Core.emit]
    rw [← hb]
    congr 1
    omega

/-- Witness of C5: history `[1, 2, 3]`, cursor `1`, document `2`; the undo
loads `1`, the redo loads `2` again. -/
theorem C5_undo_then_redo_witness :
    ∃ s1 s2, (Core.sample 2 [1, 2, 3] 1 : Core Nat Unit Unit).undo = .ok () s1
      ∧ s1.redo = .ok () s2
      ∧ s1.doc = 1 ∧ s2.history = [1, 2, 3] ∧ s2.history_current = 1 ∧ s2.doc = 2 := by
  obtain ⟨s1, s2, hu, hr, e1, e2, e3, e4⟩ :=
    C5_undo_then_redo (Core.sample 2 [1, 2, 3] 1 : Core Nat Unit Unit) (by decide) (by decide)
  have hu2 : (Core.sample 2 [1, 2, 3] 1 : Core Nat Unit Unit).undo = .ok () _ := rfl
  have hs1 := hu.symm.trans hu2
  injection hs1 with _ hs1
  refine ⟨s1, s2, hu, hr, by rw [hs1]; rfl, e2, e3, ?_⟩
  have : (some 2 : Option Nat) = some s2.doc := e4
  injection this with this
  exact this.symm

/-! ## Tool engine claims -/

/-- The value of `maybe_end_tool` on `REVERT`. -/
theorem maybe_end_tool_revert_eq (ops : ToolOps D T J) (s : Core D T J) (t : T) (n : Nat) (a : D)
    (ht : s.tool = some t) (hc : s.history_current = (n : Int)) (ha : s.history[n]? = some a) :
    s.maybe_end_tool ops ⟨Result.REVERT⟩ = .ok ()
      { s with
        doc := a
        tool := none
        tool_selection := ops.selection t
        emitted := s.emitted ++ ops.save_settings_signals t
          ++ [.tool_changed ToolID.NONE, .rebuilt, .can_undo_redo] } := by
  unfold Core.maybe_end_tool ToolOps.save_settings_signals
  cases hset : ops.get_settings_const t <;>
    simp [ht, hset, hc, Core.emit, Core.history_load, ha, Outcome.bind, Core.rebuild]

/-- The value of `maybe_end_tool` on `END`. -/
theorem maybe_end_tool_end_eq (ops : ToolOps D T J) (s : Core D T J) (t : T)
    (ht : s.tool = some t) :
    s.maybe_end_tool ops ⟨Result.END⟩ = .ok ()
      { s with
        tool := none
        tool_selection := ops.selection t
        emitted := s.emitted ++ ops.save_settings_signals t ++ [.tool_changed ToolID.NONE] } := by
  unfold Core.maybe_end_tool ToolOps.save_settings_signals
  cases hset : ops.get_settings_const t <;>
    simp [ht, hset, Core.emit]

theorem save_settings_signals_not_rebuilt (ops : ToolOps D T J) (t : T) :
    (ops.save_settings_signals t).countP Signal.is_rebuilt = 0 := by
  unfold ToolOps.save_settings_signals
  cases ops.get_settings_const t <;> simp [Signal.is_rebuilt]

/-- The value of `tool_update` when the tool's `update` returns a response. -/
theorem tool_update_ok_eq (ops : ToolOps D T J) (s : Core D T J) (t : T) (a : ToolArgs)
    (r : ToolResponse) (ht : s.tool = some t) (hr : (ops.update t a s.doc).result = .ok r) :
    s.tool_update ops a =
      (Core.maybe_end_tool ops r
        { s with doc := (ops.update t a s.doc).doc, tool := some (ops.update t a s.doc).tool }).bind
        fun _ s1 => .ok r s1 := by
  simp [Core.tool_update, ht, hr]

/-- C6: in every engine state with an active tool and `0 ≤ cursor < |history|`,
`maybe_end_tool` on `REVERT` returns normally, leaves the history entries, the
cursor and `needs_save` as they were, loads the document from
`history[cursor]`, emits `rebuilt` exactly once and leaves the engine idle; on
`END` it returns normally, leaves the history entries, the cursor, `needs_save`
and the document as they were, emits no `rebuilt` and leaves the engine idle.
The same holds for a `tool_update` whose tool returns `REVERT` or `END`, the
document on `END` being the one the tool's `update` left. -/
theorem C6_revert_and_end_frame (ops : ToolOps D T J) (s : Core D T J) (t : T)
    (ht : s.tool = some t) (h0 : 0 ≤ s.history_current)
    (h1 : s.history_current < s.history.length) :
    (∃ s1, s.maybe_end_tool ops ⟨Result.REVERT⟩ = .ok () s1
      ∧ s1.history = s.history ∧ s1.history_current = s.history_current
      ∧ s1.needs_save = s.needs_save
      ∧ s.history[s.history_current.toNat]? = some s1.doc
      ∧ s1.emitted.countP Signal.is_rebuilt = s.emitted.countP Signal.is_rebuilt + 1
      ∧ s1.tool = none)
    ∧ (∃ s2, s.maybe_end_tool ops ⟨Result.END⟩ = .ok () s2
      ∧ s2.history = s.history ∧ s2.history_current = s.history_current
      ∧ s2.needs_save = s.needs_save ∧ s2.doc = s.doc
      ∧ s2.emitted.countP Signal.is_rebuilt = s.emitted.countP Signal.is_rebuilt
      ∧ s2.tool = none)
    ∧ (∀ a, (ops.update t a s.doc).result = .ok ⟨Result.REVERT⟩ →
        ∃ s1, s.tool_update ops a = .ok ⟨Result.REVERT⟩ s1
          ∧ s1.history = s.history ∧ s1.history_current = s.history_current
          ∧ s1.needs_save = s.needs_save
          ∧ s.history[s.history_current.toNat]? = some s1.doc
          ∧ s1.emitted.countP Signal.is_rebuilt = s.emitted.countP Signal.is_rebuilt + 1
          ∧ s1.tool = none)
    ∧ (∀ a, (ops.update t a s.doc).result = .ok ⟨Result.END⟩ →
        ∃ s2, s.tool_update ops a = .ok ⟨Result.END⟩ s2
          ∧ s2.history = s.history ∧ s2.history_current = s.history_current
          ∧ s2.needs_save = s.needs_save ∧ s2.doc = (ops.update t a s.doc).doc
          ∧ s2.emitted.countP Signal.is_rebuilt = s.emitted.countP Signal.is_rebuilt
          ∧ s2.tool = none) := by
  obtain ⟨n, hn⟩ : ∃ n : Nat, s.history_current = (n : Int) := ⟨s.history_current.toNat, by omega⟩
  have hlt : n < s.history.length := by omega
  have hn2 : s.history_current.toNat = n := by omega
  have ha : s.history[n]? = some s.history[n] := List.getElem?_eq_getElem hlt
  have hcnt := save_settings_signals_not_rebuilt ops
  refine ⟨?_, ?_, ?_, ?_⟩
  · refine ⟨_, maybe_end_tool_revert_eq ops s t n _ ht hn ha, rfl, rfl, rfl, ?_, ?_, rfl⟩
    · rw [hn2]; exact ha
    · simp [List.countP_append, hcnt, Signal.is_rebuilt]
  · refine ⟨_, maybe_end_tool_end_eq ops s t ht, rfl, rfl, rfl, rfl, ?_, rfl⟩
    simp [List.countP_append, hcnt, Signal.is_rebuilt]
  · intro a hr
    have key := maybe_end_tool_revert_eq ops
      { s with doc := (ops.update t a s.doc).doc, tool := some (ops.update t a s.doc).tool }
      (ops.update t a s.doc).tool n s.history[n] rfl hn ha
    rw [tool_update_ok_eq ops s t a _ ht hr, key]
    refine ⟨_, rfl, rfl, rfl, rfl, ?_, ?_, rfl⟩
    · rw [hn2]; exact ha
    · simp [List.countP_append, hcnt, Signal.is_rebuilt]
  · intro a hr
    have key := maybe_end_tool_end_eq ops
      { s with doc := (ops.update t a s.doc).doc, tool := some (ops.update t a s.doc).tool }
      (ops.update t a s.doc).tool rfl
    rw [tool_update_ok_eq ops s t a _ ht hr, key]
    refine ⟨_, rfl, rfl, rfl, rfl, rfl, ?_, rfl⟩
    simp [List.countP_append, hcnt, Signal.is_rebuilt]

/-- Witness of C6: an active tool on document `9` with history `[7]`, cursor
`0`: `REVERT` loads `7` again and emits `rebuilt` once. -/
theorem C6_revert_and_end_frame_witness :
    ∃ s1, (Core.sample_active () 9 [7] 0 : Core Nat Unit Unit).maybe_end_tool throwing_tool
          ⟨Result.REVERT⟩ = .ok () s1
      ∧ s1.history = [7] ∧ s1.history_current = 0 ∧ s1.needs_save = false ∧ s1.doc = 7
      ∧ s1.emitted.countP Signal.is_rebuilt = 1 ∧ s1.tool = none := by
  obtain ⟨⟨s1, hs, e1, e2, e3, e4, e5, e6⟩, -⟩ :=
    C6_revert_and_end_frame throwing_tool (Core.sample_active () 9 [7] 0 : Core Nat Unit Unit) ()
      rfl (by decide) (by decide)
  refine ⟨s1, hs, e1, e2, e3, ?_, e5, e6⟩
  have : (some 7 : Option Nat) = some s1.doc := e4
  injection this with this
  exact this.symm

/-- One call of `maybe_end_tool` with an active tool and the cursor on an
entry: it returns normally with the cursor on an entry; the history and the
cursor change only on `COMMIT`; after `COMMIT` or `REVERT` the engine is
idle with the document equal to `history[cursor]`; and on `COMMIT` the history
is the entries up to the cursor followed by the document, trimmed to fifty
entries, with the cursor on the last one. -/
theorem maybe_end_tool_step (ops : ToolOps D T J) (r : ToolResponse) (s : Core D T J) (t : T)
    (ht : s.tool = some t) (h0 : 0 ≤ s.history_current)
    (h1 : s.history_current < s.history.length) :
    ∃ s1, s.maybe_end_tool ops r = .ok () s1
      ∧ 0 ≤ s1.history_current ∧ s1.history_current < s1.history.length
      ∧ (r.result ≠ Result.COMMIT →
          s1.history = s.history ∧ s1.history_current = s.history_current)
      ∧ (r.result = Result.COMMIT ∨ r.result = Result.REVERT →
          s1.tool = none ∧ s1.at_snapshot)
      ∧ (r.result = Result.COMMIT →
          s1.history = (s.history.take (s.history_current + 1).toNat ++ [s1.doc]).drop
              ((s.history_current + 2).toNat - 50)
            ∧ s1.history_current = (s1.history.length : Int) - 1
            ∧ s1.doc = s.doc) := by
  obtain ⟨res⟩ := r
  cases res with
  | NOP =>
    refine ⟨s, by simp [Core.maybe_end_tool], h0, h1, fun _ => ⟨rfl, rfl⟩, ?_, ?_⟩
    · rintro (h | h) <;> cases h
    · intro h
      cases h
  | END =>
    refine ⟨_, maybe_end_tool_end_eq ops s t ht, h0, h1, fun _ => ⟨rfl, rfl⟩, ?_, ?_⟩
    · rintro (h | h) <;> cases h
    · intro h
      cases h
  | AGAIN =>
    have : s.maybe_end_tool ops ⟨Result.AGAIN⟩ = .ok ()
        { s with
          tool := none
          tool_selection := ops.selection t
          emitted := s.emitted ++ ops.save_settings_signals t ++ [.tool_changed ToolID.NONE] } := by
      unfold Core.maybe_end_tool ToolOps.save_settings_signals
      cases hset : ops.get_settings_const t <;> simp [ht, hset, Core.emit]
    refine ⟨_, this, h0, h1, fun _ => ⟨rfl, rfl⟩, ?_, ?_⟩
    · rintro (h | h) <;> cases h
    · intro h
      cases h
  | REVERT =>
    obtain ⟨n, hn⟩ : ∃ n : Nat, s.history_current = (n : Int) :=
      ⟨s.history_current.toNat, by omega⟩
    have hlt : n < s.history.length := by omega
    have ha : s.history[n]? = some s.history[n] := List.getElem?_eq_getElem hlt
    refine ⟨_, maybe_end_tool_revert_eq ops s t n _ ht hn ha, h0, h1, fun _ => ⟨rfl, rfl⟩, ?_, ?_⟩
    · intro _
      refine ⟨rfl, h0, ?_⟩
      have hn2 : s.history_current.toNat = n := by omega
      simp only [hn2]
      exact ha
    · intro h
      cases h
  | COMMIT =>
    obtain ⟨s0, hs0⟩ : ∃ s0 : Core D T J, s0 =
        (({ s with
          tool := none
          tool_selection := ops.selection t
          emitted := s.emitted ++ ops.save_settings_signals t ++ [.tool_changed ToolID.NONE] } :
          Core D T J).set_needs_save true) := ⟨_, rfl⟩
    have hm : s.maybe_end_tool ops ⟨Result.COMMIT⟩ = s0.rebuild false := by
      rw [hs0]
      unfold Core.maybe_end_tool ToolOps.save_settings_signals
      cases hset : ops.get_settings_const t <;> simp [ht, hset, Core.emit]
    have q1 : s0.history = s.history := by rw [hs0, (set_needs_save_history _ _).1]
    have q2 : s0.history_current = s.history_current := by
      rw [hs0, (set_needs_save_history _ _).2.1]
    have q3 : s0.tool = none := by rw [hs0, (set_needs_save_history _ _).2.2.2]
    have q4 : s0.doc = s.doc := by rw [hs0, (set_needs_save_history _ _).2.2.1]
    obtain ⟨s1, e0, e1, e2, e3, e4, -, e6, e7⟩ :=
      rebuild_false_spec s0 (by rw [q2]; omega) (by rw [q1, q2]; exact h1)
    rw [q2] at e2
    refine ⟨s1, hm.trans e0, by omega, by omega, fun h => absurd rfl h, ?_, ?_⟩
    · intro _
      refine ⟨e7.trans q3, by omega, ?_⟩
      rw [e4, e6]
    · intro _
      refine ⟨?_, e3, e6.trans q4⟩
      rw [e1, q1, q2, e6]

/-- A call that leaves the history and the cursor alone and answers `NOP` or
`END` meets `tool_step_post`. -/
theorem tool_step_post_of_frame (s s1 : Core D T J) (r : ToolResponse)
    (hr : r.result = Result.NOP ∨ r.result = Result.END)
    (hh : s1.history = s.history) (hc : s1.history_current = s.history_current)
    (h0 : 0 ≤ s.history_current) (h1 : s.history_current < s.history.length) :
    s.tool_step_post r s1 := by
  refine ⟨by omega, by rw [hh, hc]; exact h1, fun _ => ⟨hh, hc⟩, ?_, ?_⟩
  · rintro (h | h) <;> rcases hr with h2 | h2 <;> rw [h2] at h <;> cases h
  · intro h
    rcases hr with h2 | h2 <;> rw [h2] at h <;> cases h

theorem tool_step_post_of_maybe_end_tool (ops : ToolOps D T J) (r : ToolResponse)
    (s s0 : Core D T J) (t : T) (ht : s0.tool = some t)
    (hh : s0.history = s.history) (hc : s0.history_current = s.history_current)
    (h0 : 0 ≤ s.history_current) (h1 : s.history_current < s.history.length) :
    ∃ s1, ((s0.maybe_end_tool ops r).bind fun _ s1 => Outcome.ok r s1) = .ok r s1
      ∧ s.tool_step_post r s1 ∧ (r.result = Result.COMMIT → s1.doc = s0.doc) := by
  obtain ⟨s1, e, p0, p1, p2, p3, p4⟩ :=
    maybe_end_tool_step ops r s0 t ht (by omega) (by rw [hh, hc]; exact h1)
  refine ⟨s1, by rw [e]; rfl, ⟨p0, p1, ?_, p3, ?_⟩, fun h => (p4 h).2.2⟩
  · intro h
    exact ⟨(p2 h).1.trans hh, (p2 h).2.trans hc⟩
  · intro h
    obtain ⟨a1, a2, -⟩ := p4 h
    rw [hh, hc] at a1
    exact ⟨a1, a2⟩

/-- The value of `tool_update` when the tool's `update` throws a
`std::exception`: the tool is dropped and `END` returned; the document stays
as the call left it. -/
theorem tool_update_throw_eq (ops : ToolOps D T J) (s : Core D T J) (t : T) (a : ToolArgs)
    (e : Exn) (ht : s.tool = some t) (hr : (ops.update t a s.doc).result = .error e)
    (he : e.is_std_exception = true) :
    s.tool_update ops a = .ok ToolResponse.end_
      { s with
        doc := (ops.update t a s.doc).doc
        tool := none
        emitted := s.emitted ++ [.tool_changed ToolID.NONE] } := by
  simp [Core.tool_update, ht, hr, he, Core.emit]

/-- The value of `tool_update` when the tool's `update` throws an object that
is not a `std::exception`: the object propagates, the tool stays active, no
signal is emitted; the document and the tool are as the call left them. -/
theorem tool_update_foreign_eq (ops : ToolOps D T J) (s : Core D T J) (t : T) (a : ToolArgs)
    (e : Exn) (ht : s.tool = some t) (hr : (ops.update t a s.doc).result = .error e)
    (he : e.is_std_exception = false) :
    s.tool_update ops a = .threw e
      { s with
        doc := (ops.update t a s.doc).doc
        tool := some (ops.update t a s.doc).tool } := by
  simp [Core.tool_update, ht, hr, he]

/-- One `tool_update` from a state `s0` that has the history and the cursor of
`s`, the cursor on an entry. -/
theorem tool_update_call_post (ops : ToolOps D T J) (a : ToolArgs) (s s0 : Core D T J)
    (hh : s0.history = s.history) (hc : s0.history_current = s.history_current)
    (h0 : 0 ≤ s.history_current) (h1 : s.history_current < s.history.length) :
    s.tool_call_post (s0.tool_update ops a) := by
  cases ht : s0.tool with
  | none =>
    have e : s0.tool_update ops a = .ok ToolResponse.nop s0 := by simp [Core.tool_update, ht]
    rw [e]
    exact tool_step_post_of_frame s s0 _ (Or.inl rfl) hh hc h0 h1
  | some t =>
    cases hres : (ops.update t a s0.doc).result with
    | error e =>
      cases he : e.is_std_exception with
      | true =>
        rw [tool_update_throw_eq ops s0 t a e ht hres he]
        exact tool_step_post_of_frame s _ _ (Or.inr rfl) hh hc h0 h1
      | false =>
        rw [tool_update_foreign_eq ops s0 t a e ht hres he]
        exact ⟨he, hh, hc⟩
    | ok r =>
      rw [tool_update_ok_eq ops s0 t a r ht hres]
      obtain ⟨s1, e, p, -⟩ := tool_step_post_of_maybe_end_tool ops r s
        { s0 with doc := (ops.update t a s0.doc).doc, tool := some (ops.update t a s0.doc).tool }
        _ rfl hh hc h0 h1
      rw [e]
      exact p

/-- The settings block of `tool_begin` leaves the history and the cursor alone. -/
theorem tool_begin_settings_frame (ops : ToolOps D T J) (t : T) (s : Core D T J) :
    (Core.tool_begin_settings ops t s).1.history = s.history
      ∧ (Core.tool_begin_settings ops t s).1.history_current = s.history_current := by
  unfold Core.tool_begin_settings
  by_cases hp : ops.has_settings_proxy t = true
  · cases hl : ops.load_tool_settings (ops.get_tool_id_for_settings t) <;>
      simp [hp, hl, Core.emit]
  · simp [hp]

/-- The value of the call of `begin` inside `tool_begin` when `begin` throws a
`std::exception`, for a tool id the catalogue knows: the tool is dropped and
`END` returned; the document stays as the call left it. -/
theorem tool_begin_call_throw_eq (ops : ToolOps D T J) (tool_id : ToolID) (args : ToolArgs)
    (t : T) (s : Core D T J) (e : Exn) (hcat : (ops.action_catalog tool_id).isSome)
    (hr : (ops.begin t args s.doc).result = .error e) (he : e.is_std_exception = true) :
    s.tool_begin_call ops tool_id args t = .ok ToolResponse.end_
      { s with
        doc := (ops.begin t args s.doc).doc
        tool := none
        emitted := s.emitted ++ [.tool_changed tool_id, .tool_changed ToolID.NONE] } := by
  obtain ⟨name, hname⟩ := Option.isSome_iff_exists.mp hcat
  simp [Core.tool_begin_call, Core.emit, hr, he, Core.tool_begin_catch, hname]

/-- The value of the call of `begin` inside `tool_begin` when `begin` throws an
object that is not a `std::exception`: the object propagates, the tool stays
active and `tool_changed(tool_id)` is the last signal. -/
theorem tool_begin_call_foreign_eq (ops : ToolOps D T J) (tool_id : ToolID) (args : ToolArgs)
    (t : T) (s : Core D T J) (e : Exn)
    (hr : (ops.begin t args s.doc).result = .error e) (he : e.is_std_exception = false) :
    s.tool_begin_call ops tool_id args t = .threw e
      { s with
        doc := (ops.begin t args s.doc).doc
        tool := some (ops.begin t args s.doc).tool
        emitted := s.emitted ++ [.tool_changed tool_id] } := by
  simp [Core.tool_begin_call, Core.emit, hr, he]

/-- The value of the call of `begin` inside `tool_begin` when `begin` returns. -/
theorem tool_begin_call_ok_eq (ops : ToolOps D T J) (tool_id : ToolID) (args : ToolArgs)
    (t : T) (s : Core D T J) (r : ToolResponse)
    (hr : (ops.begin t args s.doc).result = .ok r) :
    s.tool_begin_call ops tool_id args t =
      (Core.maybe_end_tool ops r
        { s with
          doc := (ops.begin t args s.doc).doc
          tool := some (ops.begin t args s.doc).tool
          emitted := s.emitted ++ [.tool_changed tool_id] }).bind fun _ s1 => .ok r s1 := by
  simp [Core.tool_begin_call, Core.emit, hr]

/-- The call of `begin` inside `tool_begin`, from a state with the cursor on an
entry, for a tool id the catalogue knows. -/
theorem tool_begin_call_post (ops : ToolOps D T J) (tool_id : ToolID) (args : ToolArgs) (t : T)
    (s s0 : Core D T J) (hh : s0.history = s.history)
    (hc : s0.history_current = s.history_current)
    (h0 : 0 ≤ s.history_current) (h1 : s.history_current < s.history.length)
    (hcat : (ops.action_catalog tool_id).isSome) :
    s.tool_call_post (s0.tool_begin_call ops tool_id args t) := by
  cases hres : (ops.begin t args s0.doc).result with
  | error e =>
    cases he : e.is_std_exception with
    | true =>
      rw [tool_begin_call_throw_eq ops tool_id args t s0 e hcat hres he]
      exact tool_step_post_of_frame s _ _ (Or.inr rfl) hh hc h0 h1
    | false =>
      rw [tool_begin_call_foreign_eq ops tool_id args t s0 e hres he]
      exact ⟨he, hh, hc⟩
  | ok r =>
    rw [tool_begin_call_ok_eq ops tool_id args t s0 r hres]
    obtain ⟨s1, e, p, -⟩ := tool_step_post_of_maybe_end_tool ops r s
      { s0 with
        doc := (ops.begin t args s0.doc).doc
        tool := some (ops.begin t args s0.doc).tool
        emitted := s0.emitted ++ [.tool_changed tool_id] }
      _ rfl hh hc h0 h1
    rw [e]
    exact p

/-- The first `try` block of `tool_begin` left by a thrown object, for a tool
id the catalogue knows. -/
theorem tool_begin_guard_post (ops : ToolOps D T J) (tool_id : ToolID) (e : Exn)
    (s s0 : Core D T J) (hh : s0.history = s.history)
    (hc : s0.history_current = s.history_current)
    (h0 : 0 ≤ s.history_current) (h1 : s.history_current < s.history.length)
    (hcat : (ops.action_catalog tool_id).isSome) :
    s.tool_call_post (s0.tool_begin_guard ops tool_id e) := by
  obtain ⟨name, hname⟩ := Option.isSome_iff_exists.mp hcat
  cases he : e.is_std_exception with
  | true =>
    have : s0.tool_begin_guard ops tool_id e = .ok ToolResponse.end_ s0 := by
      simp [Core.tool_begin_guard, he, Core.tool_begin_catch, hname]
    rw [this]
    exact tool_step_post_of_frame s _ _ (Or.inr rfl) hh hc h0 h1
  | false =>
    have : s0.tool_begin_guard ops tool_id e = .threw e s0 := by
      simp [Core.tool_begin_guard, he]
    rw [this]
    exact ⟨he, hh, hc⟩

/-- One `tool_begin` from an idle state with the cursor on an entry, for a tool
id the factory and the catalogue know. -/
theorem tool_begin_post (ops : ToolOps D T J) (tool_id : ToolID) (args : ToolArgs)
    (transient : Bool) (s : Core D T J) (hidle : s.tool = none)
    (h0 : 0 ≤ s.history_current) (h1 : s.history_current < s.history.length)
    (hcat : (ops.action_catalog tool_id).isSome) (hfac : ops.create_tool tool_id ≠ .ok none) :
    s.tool_call_post (s.tool_begin ops tool_id args transient) := by
  unfold Core.tool_begin
  simp only [hidle, Option.isSome_none, Bool.false_eq_true, if_false]
  cases hct : ops.create_tool tool_id with
  | error e =>
    exact tool_begin_guard_post ops tool_id e s _ rfl rfl h0 h1 hcat
  | ok ot =>
    cases ot with
    | none => exact absurd hct hfac
    | some t =>
      simp only []
      have hf := tool_begin_settings_frame ops t
        { s with doc := ops.update_rules s.doc, tool := some t }
      rcases hl : Core.tool_begin_settings ops t
        { s with doc := ops.update_rules s.doc, tool := some t } with ⟨s2, t2, oe⟩
      rw [hl] at hf
      cases oe with
      | some e =>
        exact tool_begin_guard_post ops tool_id e s _ hf.1 hf.2 h0 h1 hcat
      | none =>
        simp only []
        cases hcb : ops.can_begin (ops.tool_begin_setters args transient t2) s2.doc with
        | error e =>
          exact tool_begin_guard_post ops tool_id e s _ hf.1 hf.2 h0 h1 hcat
        | ok b =>
          cases b with
          | false =>
            exact tool_step_post_of_frame s _ _ (Or.inl rfl) hf.1 hf.2 h0 h1
          | true =>
            exact tool_begin_call_post ops tool_id args _ s _ hf.1 hf.2 h0 h1 hcat

/-- The events of a run, fed from a state `s0` reached from `s` by engine
calls, the cursor of `s` on an entry: the run returns normally and
`tool_step_post` holds from `s` to its last state, or it is left by an object
that is not a `std::exception`, the history and the cursor being those of
`s`. -/
theorem feed_events_run (ops : ToolOps D T J) (evs : List ToolArgs) (s : Core D T J)
    (h0 : 0 ≤ s.history_current) (h1 : s.history_current < s.history.length) :
    ∀ (r0 : ToolResponse) (s0 : Core D T J), s.tool_step_post r0 s0 →
      s.tool_call_post (s0.feed_events ops evs r0) := by
  induction evs with
  | nil =>
    intro r0 s0 hp
    exact hp
  | cons a rest ih =>
    intro r0 s0 hp
    by_cases ht : s0.tool.isSome = true
    · have hnc : r0.result ≠ Result.COMMIT := by
        intro hcm
        have := (hp.2.2.2.1 (Or.inl hcm)).1
        rw [this] at ht
        cases ht
      obtain ⟨hh, hc⟩ := hp.2.2.1 hnc
      have hu := tool_update_call_post ops a s s0 hh hc h0 h1
      simp only [Core.feed_events, ht, if_true]
      cases hout : s0.tool_update ops a with
      | ok r2 s2 =>
        rw [hout] at hu
        simp only [Outcome.bind]
        exact ih r2 s2 hu
      | threw e s2 =>
        rw [hout] at hu
        exact hu
      | undefined =>
        rw [hout] at hu
        exact hu.elim
    · have : s0.feed_events ops (a :: rest) r0 = .ok r0 s0 := by
        simp only [Core.feed_events, ht]
        rfl
      rw [this]
      exact hp

/-- A tool run from an idle state with the cursor on an entry, for a tool id
the factory and the catalogue know. -/
theorem tool_run_post (ops : ToolOps D T J) (tool_id : ToolID) (args : ToolArgs)
    (transient : Bool) (evs : List ToolArgs) (s : Core D T J) (hidle : s.tool = none)
    (h0 : 0 ≤ s.history_current) (h1 : s.history_current < s.history.length)
    (hcat : (ops.action_catalog tool_id).isSome) (hfac : ops.create_tool tool_id ≠ .ok none) :
    s.tool_call_post (s.tool_run ops tool_id args transient evs) := by
  have hb := tool_begin_post ops tool_id args transient s hidle h0 h1 hcat hfac
  unfold Core.tool_run
  cases hout : s.tool_begin ops tool_id args transient with
  | ok r2 s2 =>
    rw [hout] at hb
    simp only [Outcome.bind]
    exact feed_events_run ops evs s h0 h1 r2 s2 hb
  | threw e s2 =>
    rw [hout] at hb
    exact hb
  | undefined =>
    rw [hout] at hb
    exact hb.elim

/-- C7 (the claim as stated fails): a tool run that ends with an exception.
From an idle engine whose document `7` equals `history[cursor]`, the tool's
`update` changes the document to `99` and throws; `tool_update` answers `END`
and the engine is idle, but the document is `99` while `history[cursor]` is
still `7`: the mutation is neither recorded nor undone. -/
theorem C7_exception_keeps_mutation :
    (Core.sample 7 [7] 0 : Core Nat Unit Unit).tool = none
      ∧ (Core.sample 7 [7] 0 : Core Nat Unit Unit).at_snapshot
      ∧ (throwing_tool.update () move_event 7).result = .error (.exception "update failed")
      ∧ ∃ s1, (Core.sample 7 [7] 0 : Core Nat Unit Unit).tool_run throwing_tool (ToolID.tool 0)
            move_event false [move_event] = .ok ToolResponse.end_ s1
          ∧ s1.tool = none ∧ s1.doc = 99 ∧ s1.history = [7] ∧ s1.history_current = 0
          ∧ ¬ s1.at_snapshot := by
  refine ⟨rfl, ⟨by decide, rfl⟩, rfl, _, rfl, rfl, rfl, rfl, rfl, ?_⟩
  rintro ⟨-, h⟩
  cases h

/-- C7 (amended): from an idle engine whose document equals `history[cursor]`,
a tool run (`tool_begin` for a tool id known to the factory and the catalogue,
then any events through `tool_update`) either returns normally or is left by a
thrown object that is not a `std::exception`, which no handler of the engine
catches; the history and the cursor are then unchanged. If the run returns
`COMMIT`, the engine is idle, the history is the old entries up to the cursor
followed by the document as the tool left it, trimmed to fifty entries, and
the cursor is on that new last entry: the mutations are recorded. If it
returns `REVERT`, the engine is idle, the history and the cursor are unchanged
and the document is the one the run started from: the mutations are undone.
When the tool's `update`, or its `begin`, throws a `std::exception`, the engine
drops the tool and answers `END` without reloading: the history and the cursor
are unchanged and the document stays as the throwing call left it. When the
thrown object is not a `std::exception`, it propagates from `tool_update` or
`tool_begin`: the tool stays active, the history and the cursor are unchanged
and the document stays as the throwing call left it. For one `tool_update`
with the cursor on an entry: if the tool returns `COMMIT`, the new last entry
and the document are the document the tool's `update` left; if it returns
`REVERT`, the document is `history[cursor]` and the history is unchanged. -/
theorem C7_commit_or_revert_atomic (ops : ToolOps D T J) (tool_id : ToolID) (args : ToolArgs)
    (transient : Bool) (evs : List ToolArgs) (s : Core D T J)
    (hidle : s.tool = none) (hsnap : s.at_snapshot)
    (hcat : (ops.action_catalog tool_id).isSome) (hfac : ops.create_tool tool_id ≠ .ok none) :
    ((∃ r s1, s.tool_run ops tool_id args transient evs = .ok r s1
        ∧ (r.result = Result.COMMIT →
            s1.tool = none ∧ s1.at_snapshot
            ∧ s1.history = (s.history.take (s.history_current + 1).toNat ++ [s1.doc]).drop
                ((s.history_current + 2).toNat - 50)
            ∧ s1.history_current = (s1.history.length : Int) - 1)
        ∧ (r.result = Result.REVERT →
            s1.tool = none ∧ s1.at_snapshot ∧ s1.history = s.history
            ∧ s1.history_current = s.history_current ∧ s1.doc = s.doc)
        ∧ (r.result ≠ Result.COMMIT →
            s1.history = s.history ∧ s1.history_current = s.history_current))
      ∨ (∃ e s1, s.tool_run ops tool_id args transient evs = .threw e s1
        ∧ e.is_std_exception = false
        ∧ s1.history = s.history ∧ s1.history_current = s.history_current))
    ∧ (∀ (s2 : Core D T J) (t : T) (a : ToolArgs) (e : Exn),
        s2.tool = some t → (ops.update t a s2.doc).result = .error e →
        e.is_std_exception = true →
        ∃ s3, s2.tool_update ops a = .ok ToolResponse.end_ s3
          ∧ s3.tool = none ∧ s3.history = s2.history
          ∧ s3.history_current = s2.history_current
          ∧ s3.doc = (ops.update t a s2.doc).doc)
    ∧ (∀ (s2 : Core D T J) (t : T) (e : Exn),
        (ops.begin t args s2.doc).result = .error e → e.is_std_exception = true →
        ∃ s3, s2.tool_begin_call ops tool_id args t = .ok ToolResponse.end_ s3
          ∧ s3.tool = none ∧ s3.history = s2.history
          ∧ s3.history_current = s2.history_current
          ∧ s3.doc = (ops.begin t args s2.doc).doc)
    ∧ (∀ (s2 : Core D T J) (t : T) (a : ToolArgs) (e : Exn),
        s2.tool = some t → (ops.update t a s2.doc).result = .error e →
        e.is_std_exception = false →
        ∃ s3, s2.tool_update ops a = .threw e s3
          ∧ s3.tool = some (ops.update t a s2.doc).tool ∧ s3.history = s2.history
          ∧ s3.history_current = s2.history_current
          ∧ s3.doc = (ops.update t a s2.doc).doc ∧ s3.emitted = s2.emitted)
    ∧ (∀ (s2 : Core D T J) (t : T) (e : Exn),
        (ops.begin t args s2.doc).result = .error e → e.is_std_exception = false →
        ∃ s3, s2.tool_begin_call ops tool_id args t = .threw e s3
          ∧ s3.tool = some (ops.begin t args s2.doc).tool ∧ s3.history = s2.history
          ∧ s3.history_current = s2.history_current
          ∧ s3.doc = (ops.begin t args s2.doc).doc
          ∧ s3.emitted = s2.emitted ++ [.tool_changed tool_id])
    ∧ (∀ (s2 : Core D T J) (t : T) (a : ToolArgs),
        s2.tool = some t → 0 ≤ s2.history_current → s2.history_current < s2.history.length →
        (ops.update t a s2.doc).result = .ok ⟨Result.COMMIT⟩ →
        ∃ s3, s2.tool_update ops a = .ok ⟨Result.COMMIT⟩ s3
          ∧ s3.tool = none ∧ s3.doc = (ops.update t a s2.doc).doc
          ∧ s3.history = (s2.history.take (s2.history_current + 1).toNat
              ++ [(ops.update t a s2.doc).doc]).drop ((s2.history_current + 2).toNat - 50)
          ∧ s3.history_current = (s3.history.length : Int) - 1)
    ∧ (∀ (s2 : Core D T J) (t : T) (a : ToolArgs),
        s2.tool = some t → 0 ≤ s2.history_current → s2.history_current < s2.history.length →
        (ops.update t a s2.doc).result = .ok ⟨Result.REVERT⟩ →
        ∃ s3, s2.tool_update ops a = .ok ⟨Result.REVERT⟩ s3
          ∧ s3.tool = none ∧ s2.history[s2.history_current.toNat]? = some s3.doc
          ∧ s3.history = s2.history ∧ s3.history_current = s2.history_current) := by
  have h0 : 0 ≤ s.history_current := hsnap.1
  have h1 : s.history_current < s.history.length := by
    have h := hsnap.2
    rcases Nat.lt_or_ge s.history_current.toNat s.history.length with hlt | hge
    · omega
    · rw [List.getElem?_eq_none hge] at h
      cases h
  refine ⟨?_, ?_, ?_, ?_, ?_, ?_, ?_⟩
  · have hp := tool_run_post ops tool_id args transient evs s hidle h0 h1 hcat hfac
    cases hout : s.tool_run ops tool_id args transient evs with
    | ok r s1 =>
      rw [hout] at hp
      obtain ⟨-, -, p2, p3, p4⟩ := hp
      refine Or.inl ⟨r, s1, rfl, ?_, ?_, p2⟩
      · intro hr
        exact ⟨(p3 (Or.inl hr)).1, (p3 (Or.inl hr)).2, (p4 hr).1, (p4 hr).2⟩
      · intro hr
        have hne : r.result ≠ Result.COMMIT := by
          rw [hr]
          decide
        obtain ⟨hh, hc⟩ := p2 hne
        obtain ⟨ht, hs⟩ := p3 (Or.inr hr)
        refine ⟨ht, hs, hh, hc, ?_⟩
        have e1 := hs.2
        rw [hh, hc, hsnap.2] at e1
        injection e1 with e1
        exact e1.symm
    | threw e s1 =>
      rw [hout] at hp
      exact Or.inr ⟨e, s1, rfl, hp.1, hp.2.1, hp.2.2⟩
    | undefined =>
      rw [hout] at hp
      exact hp.elim
  · intro s2 t a e ht hr he
    exact ⟨_, tool_update_throw_eq ops s2 t a e ht hr he, rfl, rfl, rfl, rfl⟩
  · intro s2 t e hr he
    exact ⟨_, tool_begin_call_throw_eq ops tool_id args t s2 e hcat hr he, rfl, rfl, rfl, rfl⟩
  · intro s2 t a e ht hr he
    exact ⟨_, tool_update_foreign_eq ops s2 t a e ht hr he, rfl, rfl, rfl, rfl, rfl⟩
  · intro s2 t e hr he
    refine ⟨_, tool_begin_call_foreign_eq ops tool_id args t s2 e hr he, rfl, rfl, rfl, rfl, ?_⟩
    rfl
  · intro s2 t a ht g0 g1 hr
    obtain ⟨s3, e, p, hd⟩ := tool_step_post_of_maybe_end_tool ops ⟨Result.COMMIT⟩ s2
      { s2 with doc := (ops.update t a s2.doc).doc, tool := some (ops.update t a s2.doc).tool }
      _ rfl rfl rfl g0 g1
    have hd2 : s3.doc = (ops.update t a s2.doc).doc := hd rfl
    refine ⟨s3, ?_, (p.2.2.2.1 (Or.inl rfl)).1, hd2, ?_, (p.2.2.2.2 rfl).2⟩
    · rw [tool_update_ok_eq ops s2 t a _ ht hr]
      exact e
    · rw [← hd2]
      exact (p.2.2.2.2 rfl).1
  · intro s2 t a ht g0 g1 hr
    obtain ⟨s3, e, p, -⟩ := tool_step_post_of_maybe_end_tool ops ⟨Result.REVERT⟩ s2
      { s2 with doc := (ops.update t a s2.doc).doc, tool := some (ops.update t a s2.doc).tool }
      _ rfl rfl rfl g0 g1
    have hne : (⟨Result.REVERT⟩ : ToolResponse).result ≠ Result.COMMIT := by decide
    obtain ⟨hh, hc⟩ := p.2.2.1 hne
    obtain ⟨ht3, hs3⟩ := p.2.2.2.1 (Or.inr rfl)
    refine ⟨s3, ?_, ht3, ?_, hh, hc⟩
    · rw [tool_update_ok_eq ops s2 t a _ ht hr]
      exact e
    · have e1 := hs3.2
      rw [hh, hc] at e1
      exact e1

/-- Witness of C7: from document `7` with history `[7]`, a run whose `update`
changes the document to `8` and returns `COMMIT` ends idle with the history
`[7, 8]`, the cursor at `1` and the document `8`. -/
theorem C7_commit_or_revert_atomic_witness :
    ∃ s1, (Core.sample 7 [7] 0 : Core Nat Unit Unit).tool_run committing_tool (ToolID.tool 0)
          move_event false [move_event] = .ok ⟨Result.COMMIT⟩ s1
      ∧ s1.tool = none ∧ s1.at_snapshot ∧ s1.history = [7, 8] ∧ s1.history_current = 1
      ∧ s1.doc = 8 := by
  have e2 : (Core.sample 7 [7] 0 : Core Nat Unit Unit).tool_run committing_tool (ToolID.tool 0)
      move_event false [move_event] = .ok ⟨Result.COMMIT⟩ _ := rfl
  rcases (C7_commit_or_revert_atomic committing_tool (ToolID.tool 0) move_event false
      [move_event] (Core.sample 7 [7] 0 : Core Nat Unit Unit) rfl ⟨by decide, rfl⟩ rfl
      (fun h => by cases h)).1 with ⟨r, s1, e, p, -⟩ | ⟨e0, s1, e, -⟩
  · have e3 := e.symm.trans e2
    injection e3 with hr hs
    subst hr
    refine ⟨s1, e, (p rfl).1, (p rfl).2.1, ?_, ?_, ?_⟩ <;> rw [hs] <;> rfl
  · rw [e2] at e
    cases e

/-! ## Entity store claims -/

theorem Store.find_insert_sorted {E : Type} (uu : UUID) (e : E) (m : Store E)
    (h : m.find uu = none) : (m.insert_sorted uu e).find uu = some e := by
  induction m with
  | nil => simp [Store.insert_sorted, Store.find]
  | cons p rest ih =>
    obtain ⟨k, e1⟩ := p
    by_cases hk : k = uu
    · simp [Store.find, hk] at h
    · simp only [Store.find, hk, if_false] at h
      by_cases hlt : uu < k
      · simp [Store.insert_sorted, hlt, Store.find]
      · simp [Store.insert_sorted, hlt, Store.find, hk, ih h]

theorem Store.find_erase {E : Type} (uu : UUID) (m : Store E) : (m.erase uu).find uu = none := by
  induction m with
  | nil => rfl
  | cons p rest ih =>
    obtain ⟨k, e1⟩ := p
    by_cases hk : k = uu
    · simp [Store.erase, hk, ih]
    · simp [Store.erase, hk, Store.find, ih]

theorem Store.erase_of_absent {E : Type} (uu : UUID) (m : Store E) (h : m.find uu = none) :
    m.erase uu = m := by
  induction m with
  | nil => rfl
  | cons p rest ih =>
    obtain ⟨k, e1⟩ := p
    by_cases hk : k = uu
    · simp [Store.find, hk] at h
    · simp only [Store.find, hk, if_false] at h
      simp [Store.erase, hk, ih h]

/-- After `emplace` the key is present, with the entity `emplace` returns. -/
theorem Store.find_emplace {E : Type} (ctor : UUID → E) (uu : UUID) (m : Store E) :
    (m.emplace ctor uu).1.find uu = some (m.emplace ctor uu).2 := by
  unfold Store.emplace
  cases h : m.find uu with
  | none => exact Store.find_insert_sorted uu _ m h
  | some e => exact h

/-- `emplace` of a key that is present changes nothing and returns the entity
stored under it. -/
theorem Store.emplace_of_present {E : Type} (ctor : UUID → E) (uu : UUID) (m : Store E) (e : E)
    (h : m.find uu = some e) : m.emplace ctor uu = (m, e) := by
  simp [Store.emplace, h]

/-- The value of `insert_K` on a document with a map of kind `k`. -/
theorem Document.insert_eq {X : Entities} (k : Kind) (d : Document X) (uu : UUID)
    (m : Store (X.E k)) (hm : d.get_map k = some m) :
    d.insert k uu = .ok (m.emplace (X.ctor k) uu).2 (d.set_map k (m.emplace (X.ctor k) uu).1) := by
  cases k <;>
  · simp only [Document.get_map] at hm
    simp [Document.insert, Document.set_map, hm, insert_junction, insert_line, insert_arc, insert_text, insert_polygon, insert_hole, insert_dimension, insert_keepout]

/-- The value of `get_K` on a document with a map of kind `k`. -/
theorem Document.get_eq {X : Entities} (k : Kind) (d : Document X) (uu : UUID)
    (m : Store (X.E k)) (hm : d.get_map k = some m) :
    d.get k uu = match m.find uu with
      | some e => .ok e d
      | none => .threw .out_of_range d := by
  cases k <;>
  · simp only [Document.get_map] at hm
    cases hf : m.find uu <;>
      simp [Document.get, Store.map_at, hm, hf, get_junction, get_line, get_arc, get_text, get_polygon, get_hole, get_dimension, get_keepout]

/-- The value of `delete_K` on a document with a map of kind `k`. -/
theorem Document.delete_eq {X : Entities} (k : Kind) (d : Document X) (uu : UUID)
    (m : Store (X.E k)) (hm : d.get_map k = some m) :
    d.delete k uu = .ok () (d.set_map k (m.erase uu)) := by
  cases k <;>
  · simp only [Document.get_map] at hm
    simp [Document.delete, Document.set_map, hm, delete_junction, delete_line, delete_arc, delete_text, delete_polygon, delete_hole, delete_dimension, delete_keepout]

theorem Document.get_map_set_map {X : Entities} (k : Kind) (d : Document X)
    (m : Store (X.E k)) : (d.set_map k m).get_map k = some m := by
  cases k <;> rfl

theorem Document.set_map_self {X : Entities} (k : Kind) (d : Document X)
    (m : Store (X.E k)) (hm : d.get_map k = some m) : d.set_map k m = d := by
  cases k <;>
  · simp only [Document.get_map] at hm
    simp [Document.set_map, ← hm]

/-- C8: for every entity kind of which the document has a map, every state of
the document and every UUID `u`: `insert_K(u)` followed by `get_K(u)` returns
normally the entity `insert_K` returned, which is the one stored under `u`;
`insert_K(u)`, `delete_K(u)`, `get_K(u)` ends with `get_K` throwing
`std::out_of_range`, the not-found error; and `get_K(u)` throws it whenever `u`
is absent. -/
theorem C8_insert_get_delete {X : Entities} (k : Kind) (d : Document X) (uu : UUID)
    (m : Store (X.E k)) (hm : d.get_map k = some m) :
    (∃ e d1 m1, d.insert k uu = .ok e d1 ∧ d1.get k uu = .ok e d1
        ∧ d1.get_map k = some m1 ∧ m1.find uu = some e)
    ∧ (∃ e d1 d2, d.insert k uu = .ok e d1 ∧ d1.delete k uu = .ok () d2
        ∧ d2.get k uu = .threw .out_of_range d2)
    ∧ (m.find uu = none → d.get k uu = .threw .out_of_range d) := by
  have hi := Document.insert_eq k d uu m hm
  have hg1 := Document.get_map_set_map k d (m.emplace (X.ctor k) uu).1
  have hd := Document.delete_eq k _ uu _ hg1
  refine ⟨⟨_, _, _, hi, ?_, hg1, Store.find_emplace _ _ _⟩, ⟨_, _, _, hi, hd, ?_⟩, ?_⟩
  · rw [Document.get_eq k _ uu _ hg1, Store.find_emplace]
  · rw [Document.get_eq k _ uu _ (Document.get_map_set_map k _ _), Store.find_erase]
  · intro hf
    rw [Document.get_eq k d uu m hm, hf]

/-- Witness of C8: on the document whose text map holds `3` and `5`,
`insert_text(4)` returns the new entity `(4, 0)`, `get_text(4)` then returns
it, and after `delete_text(4)` it throws `std::out_of_range`. -/
theorem C8_insert_get_delete_witness :
    text_document.get_map Kind.text = some [(3, (3, 7)), (5, (5, 42))]
      ∧ ∃ d1 d2, text_document.insert Kind.text 4 = .ok (4, 0) d1
          ∧ d1.get Kind.text 4 = .ok (4, 0) d1
          ∧ d1.delete Kind.text 4 = .ok () d2
          ∧ d2.get Kind.text 4 = .threw .out_of_range d2 := by
  refine ⟨rfl, ?_⟩
  obtain ⟨-, ⟨e, d1, d2, h1, h2, h3⟩, -⟩ :=
    C8_insert_get_delete Kind.text text_document 4 _ rfl
  have h0 : text_document.insert Kind.text 4 = .ok (4, 0) _ := rfl
  have e1 := h1.symm.trans h0
  injection e1 with he hd
  subst he
  refine ⟨d1, d2, h1, ?_, h2, h3⟩
  rw [hd]
  rfl

/-- C9: for every entity kind of which the document has a map and every UUID
`u` present in that map, `insert_K(u)` returns the entity stored under `u` and
leaves the whole document as it was: same keys, every stored entity unchanged,
the one under `u` included. Hence, for any `u`, a second `insert_K(u)` returns
the same entity as the first and changes nothing. -/
theorem C9_insert_idempotent {X : Entities} (k : Kind) (d : Document X) (uu : UUID)
    (m : Store (X.E k)) (hm : d.get_map k = some m) :
    (∀ e, m.find uu = some e → d.insert k uu = .ok e d)
    ∧ (∃ e d1, d.insert k uu = .ok e d1 ∧ d1.insert k uu = .ok e d1) := by
  have key : ∀ (d0 : Document X) (m0 : Store (X.E k)) (e : X.E k), d0.get_map k = some m0 →
      m0.find uu = some e → d0.insert k uu = .ok e d0 := by
    intro d0 m0 e h0 hf
    rw [Document.insert_eq k d0 uu m0 h0, Store.emplace_of_present _ uu m0 e hf,
      Document.set_map_self k d0 m0 h0]
  refine ⟨fun e hf => key d m e hm hf, _, _, Document.insert_eq k d uu m hm, ?_⟩
  exact key _ _ _ (Document.get_map_set_map k d _) (Store.find_emplace _ _ _)

/-- Witness of C9: the text `5` is stored with the content `42`;
`insert_text(5)` returns that entity, not a new one with content `0`, and the
document is unchanged. -/
theorem C9_insert_idempotent_witness :
    text_document.get_map Kind.text = some [(3, (3, 7)), (5, (5, 42))]
      ∧ Store.find 5 [(3, ((3, 7) : UUID × Nat)), (5, (5, 42))] = some (5, 42)
      ∧ text_document.insert Kind.text 5 = .ok (5, 42) text_document :=
  ⟨rfl, rfl, (C9_insert_idempotent Kind.text text_document 5 _ rfl).1 (5, 42) rfl⟩

/-- C10 (the claim as stated fails): the UUID `7` is absent from the empty
junction map and from the empty line map, yet `delete_junction(7)` and
`delete_line(7)` return normally instead of throwing the not-found error. -/
theorem C10_delete_absent_returns :
    empty_document.get_map Kind.junction = some []
      ∧ Store.find 7 ([] : Store (UUID × Nat)) = none
      ∧ delete_junction 7 empty_document = .ok () empty_document
      ∧ delete_line 7 empty_document = .ok () empty_document
      ∧ ∀ e d1, delete_junction 7 empty_document ≠ .threw e d1 := by
  refine ⟨rfl, rfl, rfl, rfl, ?_⟩
  intro e d1 h
  cases h

/-- C10 (amended): for every entity kind of which the document has a map and
every UUID `u` absent from that map, `delete_K(u)` returns normally and leaves
the document as it was: erasing an absent key is a silent no-op. -/
theorem C10_delete_absent_noop {X : Entities} (k : Kind) (d : Document X) (uu : UUID)
    (m : Store (X.E k)) (hm : d.get_map k = some m) (hf : m.find uu = none) :
    d.delete k uu = .ok () d := by
  rw [Document.delete_eq k d uu m hm, Store.erase_of_absent uu m hf,
    Document.set_map_self k d m hm]

/-- Witness of C10: the UUID `4` is absent from the text map holding `3` and
`5`; `delete_text(4)` returns normally and the document is unchanged. -/
theorem C10_delete_absent_noop_witness :
    text_document.get_map Kind.text = some [(3, (3, 7)), (5, (5, 42))]
      ∧ Store.find 4 [(3, ((3, 7) : UUID × Nat)), (5, (5, 42))] = none
      ∧ text_document.delete Kind.text 4 = .ok () text_document :=
  ⟨rfl, rfl, C10_delete_absent_noop Kind.text text_document 4 _ rfl rfl⟩

/-! ## The cursor invariant away from `undo` on the empty history -/

/-- Every history operation other than `undo()` on the empty history keeps the
cursor invariant: from a state with `-1 ≤ cursor < |history|` and
`cursor = -1` exactly when the history is empty, the operation returns
normally and the invariant holds again. -/
theorem cursor_inv_preserved (s : Core D T J) (op : HistoryOp D) (hinv : s.cursor_inv)
    (hop : op = HistoryOp.undo → s.history_current ≠ -1) :
    ∃ s1, s.history_op op = .ok () s1 ∧ s1.cursor_inv := by
  obtain ⟨i0, i1, i2⟩ := hinv
  have hnil : ∀ {l : List D}, l = [] ↔ l.length = 0 := fun {l} => List.length_eq_zero.symm
  cases op with
  | rebuild b =>
    cases b with
    | true => exact ⟨_, rfl, i0, i1, i2⟩
    | false =>
      obtain ⟨s1, e0, -, e2, e3, -⟩ := rebuild_false_spec s i0 i1
      refine ⟨s1, e0, by omega, by omega, ?_⟩
      rw [hnil]
      omega
  | undo =>
    have hne := hop rfl
    by_cases h0 : s.history_current = 0
    · exact ⟨s, by simp [Core.history_op, Core.undo, h0], i0, i1, i2⟩
    · obtain ⟨n, hn⟩ : ∃ n : Nat, s.history_current = (n : Int) + 1 :=
        ⟨(s.history_current - 1).toNat, by omega⟩
      have hlt : n < s.history.length := by omega
      refine ⟨_, undo_eq s n _ hn (List.getElem?_eq_getElem hlt), ?_⟩
      refine ⟨?_, ?_, ?_⟩
      · rw [(set_needs_save_history _ _).2.1]
        simp only [Core.emit]
        omega
      · rw [(set_needs_save_history _ _).2.1, (set_needs_save_history _ _).1]
        simp only [Core.emit]
        omega
      · rw [(set_needs_save_history _ _).2.1, (set_needs_save_history _ _).1]
        simp only [Core.emit]
        rw [hnil]
        omega
  | redo =>
    by_cases h0 : s.history_current + 1 = (s.history.length : Int)
    · exact ⟨s, by simp [Core.history_op, Core.redo, h0], i0, i1, i2⟩
    · obtain ⟨n, hn⟩ : ∃ n : Nat, s.history_current + 1 = (n : Int) :=
        ⟨(s.history_current + 1).toNat, by omega⟩
      have hlt : n < s.history.length := by omega
      refine ⟨_, redo_eq s n _ hn (List.getElem?_eq_getElem hlt), ?_⟩
      refine ⟨?_, ?_, ?_⟩
      · rw [(set_needs_save_history _ _).2.1]
        simp only [Core.emit]
        omega
      · rw [(set_needs_save_history _ _).2.1, (set_needs_save_history _ _).1]
        simp only [Core.emit]
        omega
      · rw [(set_needs_save_history _ _).2.1, (set_needs_save_history _ _).1]
        simp only [Core.emit]
        rw [hnil]
        omega
  | history_clear =>
    refine ⟨_, rfl, ?_, ?_, ?_⟩ <;> simp [Core.history_clear, Core.emit]
  | edit d => exact ⟨_, rfl, i0, i1, i2⟩

/-- Instance of `cursor_inv_preserved`: `undo()` with the cursor on the second
of three entries. -/
theorem cursor_inv_preserved_witness :
    (Core.sample 2 [1, 2, 3] 1 : Core Nat Unit Unit).cursor_inv
      ∧ ∃ s1, (Core.sample 2 [1, 2, 3] 1 : Core Nat Unit Unit).history_op HistoryOp.undo
            = .ok () s1 ∧ s1.cursor_inv := by
  have hinv : (Core.sample 2 [1, 2, 3] 1 : Core Nat Unit Unit).cursor_inv :=
    ⟨by decide, by decide, by decide⟩
  exact ⟨hinv, cursor_inv_preserved _ HistoryOp.undo hinv (fun _ => by decide)⟩

/-- On every state with a cursor that is not negative, `can_undo()` is true
exactly when the cursor is positive; on every state with
`cursor + 1 ≤ |history|`, `can_redo()` is true exactly when
`cursor + 1 < |history|`. -/
theorem can_undo_redo_within_bounds (s : Core D T J) :
    (0 ≤ s.history_current → (s.can_undo = true ↔ 0 < s.history_current))
    ∧ (s.history_current + 1 ≤ s.history.length →
        (s.can_redo = true ↔ s.history_current + 1 < s.history.length)) := by
  constructor
  · intro h
    simp only [Core.can_undo, bne_iff_ne, ne_eq]
    omega
  · intro h
    simp only [Core.can_redo, bne_iff_ne, ne_eq]
    omega

/-- Instance of `can_undo_redo_within_bounds`: three entries, cursor `1`: both
an undo and a redo are possible. -/
theorem can_undo_redo_within_bounds_witness :
    (Core.sample 2 [1, 2, 3] 1 : Core Nat Unit Unit).can_undo = true
      ∧ (Core.sample 2 [1, 2, 3] 1 : Core Nat Unit Unit).can_redo = true :=
  ⟨((can_undo_redo_within_bounds (Core.sample 2 [1, 2, 3] 1 : Core Nat Unit Unit)).1
      (by decide)).2 (by decide),
   ((can_undo_redo_within_bounds (Core.sample 2 [1, 2, 3] 1 : Core Nat Unit Unit)).2
      (by decide)).2 (by decide)⟩

/-! ## Tool engine claims: busy and exceptions -/

/-- C11: if a tool is active, `tool_begin` throws the error "can't begin tool
while tool is active" for every tool id, arguments and transient flag, and the
state it leaves is the state before: the active tool with its selection, the
document, the history, the cursor, `needs_save` and the list of emitted
signals are unchanged. The kernel has one slot for the active tool, which
therefore still holds the one tool that was active. -/
theorem C11_tool_begin_busy (ops : ToolOps D T J) (tool_id : ToolID) (args : ToolArgs)
    (transient : Bool) (s : Core D T J) (t : T) (ht : s.tool = some t) :
    s.tool_begin ops tool_id args transient
        = .threw (.runtime_error "can't begin tool while tool is active") s
      ∧ (s.tool_begin ops tool_id args transient).state? = some s := by
  have h : s.tool_begin ops tool_id args transient
      = .threw (.runtime_error "can't begin tool while tool is active") s := by
    simp [Core.tool_begin, ht]
  exact ⟨h, by rw [h]; rfl⟩

/-- Witness of C11: a kernel with an active tool on document `9`. -/
theorem C11_tool_begin_busy_witness :
    (Core.sample_active () 9 [7] 0 : Core Nat Unit Unit).tool = some ()
      ∧ (Core.sample_active () 9 [7] 0 : Core Nat Unit Unit).tool_begin idle_tool
          ToolID.MAP_PIN move_event false
        = .threw (.runtime_error "can't begin tool while tool is active")
            (Core.sample_active () 9 [7] 0) :=
  ⟨rfl, (C11_tool_begin_busy idle_tool ToolID.MAP_PIN move_event false
    (Core.sample_active () 9 [7] 0 : Core Nat Unit Unit) () rfl).1⟩

/-- The value of `tool_begin` on an idle engine when the factory returns a
tool, the settings load without exception and `can_begin` answers true: the
call of `begin` on the prepared tool. -/
theorem tool_begin_eq_call (ops : ToolOps D T J) (tool_id : ToolID) (args : ToolArgs)
    (transient : Bool) (s : Core D T J) (t0 : T) (hidle : s.tool = none)
    (hct : ops.create_tool tool_id = .ok (some t0))
    (hset : (s.tool_begin_prepared ops args transient t0).2.2 = none)
    (hcb : ops.can_begin (s.tool_begin_prepared ops args transient t0).2.1
      (s.tool_begin_prepared ops args transient t0).1.doc = .ok true) :
    s.tool_begin ops tool_id args transient
      = (s.tool_begin_prepared ops args transient t0).1.tool_begin_call ops tool_id args
          (s.tool_begin_prepared ops args transient t0).2.1 := by
  unfold Core.tool_begin_prepared at hset hcb ⊢
  unfold Core.tool_begin
  simp only [hidle, Option.isSome_none, Bool.false_eq_true, if_false, hct]
  rcases hl : Core.tool_begin_settings ops t0
    { s with doc := ops.update_rules s.doc, tool := some t0 } with ⟨s2, t2, oe⟩
  rw [hl] at hset hcb
  simp only at hset hcb
  subst hset
  simp only [hcb]

/-- Preparing the tool in `tool_begin` leaves the history, the cursor and
`needs_save` alone. -/
theorem tool_begin_prepared_frame (ops : ToolOps D T J) (args : ToolArgs) (transient : Bool)
    (t0 : T) (s : Core D T J) :
    (s.tool_begin_prepared ops args transient t0).1.history = s.history
      ∧ (s.tool_begin_prepared ops args transient t0).1.history_current = s.history_current
      ∧ (s.tool_begin_prepared ops args transient t0).1.needs_save = s.needs_save
      ∧ (s.tool_begin_prepared ops args transient t0).1.property_transaction
          = s.property_transaction := by
  unfold Core.tool_begin_prepared Core.tool_begin_settings
  by_cases hp : ops.has_settings_proxy t0 = true
  · cases hl : ops.load_tool_settings (ops.get_tool_id_for_settings t0) <;>
      simp [hp, hl, Core.emit]
  · simp [hp]

/-- C12 (the claim as stated fails): a tool whose `update` throws an object
that is not a `std::exception`. The handler of `tool_update` is
`catch (const std::exception &)`, so the object propagates to the caller:
`tool_update` does not return `END`, the tool is still active and no signal is
emitted, in particular no `tool_changed(NONE)`. -/
theorem C12_foreign_exception_propagates :
    (Core.sample_active () 7 [7] 0 : Core Nat Unit Unit).tool = some ()
      ∧ (foreign_throwing_tool.update () move_event 7).result
          = .error (.foreign "update failed")
      ∧ ∃ s1, (Core.sample_active () 7 [7] 0 : Core Nat Unit Unit).tool_update
            foreign_throwing_tool move_event = .threw (.foreign "update failed") s1
          ∧ s1.tool = some () ∧ s1.emitted = [] ∧ s1.doc = 99 :=
  ⟨rfl, rfl, _, rfl, rfl, rfl, rfl⟩

/-- C12 (amended): when the `update` of the active tool throws a
`std::exception`, `tool_update` returns `END`; when the `begin` of a tool
throws a `std::exception`, `tool_begin` (from an idle engine, for a tool id
the catalogue knows, the tool having been set up and `can_begin` having
answered true) returns `END`. In both cases the engine is idle afterwards,
`tool_changed(NONE)` is the last signal emitted, no `save_tool_settings` is
emitted, and `needs_save`, the history entries and the cursor are unchanged.
When the thrown object is not a `std::exception`, no handler catches it: it
propagates from `tool_update` or `tool_begin`, the tool stays active, no
`tool_changed(NONE)` is emitted, and `needs_save`, the history entries and the
cursor are unchanged. -/
theorem C12_tool_exception (ops : ToolOps D T J) :
    (∀ (s : Core D T J) (t : T) (a : ToolArgs) (e : Exn),
      s.tool = some t → (ops.update t a s.doc).result = .error e →
      e.is_std_exception = true →
      ∃ s1, s.tool_update ops a = .ok ToolResponse.end_ s1
        ∧ s1.tool = none
        ∧ s1.emitted = s.emitted ++ [.tool_changed ToolID.NONE]
        ∧ s1.emitted.getLast? = some (.tool_changed ToolID.NONE)
        ∧ s1.needs_save = s.needs_save ∧ s1.history = s.history
        ∧ s1.history_current = s.history_current)
    ∧ (∀ (s : Core D T J) (tool_id : ToolID) (args : ToolArgs) (transient : Bool) (t0 : T)
        (e : Exn),
      s.tool = none → (ops.action_catalog tool_id).isSome →
      ops.create_tool tool_id = .ok (some t0) →
      (s.tool_begin_prepared ops args transient t0).2.2 = none →
      ops.can_begin (s.tool_begin_prepared ops args transient t0).2.1
        (s.tool_begin_prepared ops args transient t0).1.doc = .ok true →
      (ops.begin (s.tool_begin_prepared ops args transient t0).2.1 args
        (s.tool_begin_prepared ops args transient t0).1.doc).result = .error e →
      e.is_std_exception = true →
      ∃ s1, s.tool_begin ops tool_id args transient = .ok ToolResponse.end_ s1
        ∧ s1.tool = none
        ∧ s1.emitted = (s.tool_begin_prepared ops args transient t0).1.emitted
            ++ [.tool_changed tool_id, .tool_changed ToolID.NONE]
        ∧ s1.emitted.getLast? = some (.tool_changed ToolID.NONE)
        ∧ s1.needs_save = s.needs_save ∧ s1.history = s.history
        ∧ s1.history_current = s.history_current)
    ∧ (∀ (s : Core D T J) (t : T) (a : ToolArgs) (e : Exn),
      s.tool = some t → (ops.update t a s.doc).result = .error e →
      e.is_std_exception = false →
      ∃ s1, s.tool_update ops a = .threw e s1
        ∧ s1.tool = some (ops.update t a s.doc).tool
        ∧ s1.emitted = s.emitted
        ∧ s1.needs_save = s.needs_save ∧ s1.history = s.history
        ∧ s1.history_current = s.history_current)
    ∧ (∀ (s : Core D T J) (tool_id : ToolID) (args : ToolArgs) (transient : Bool) (t0 : T)
        (e : Exn),
      s.tool = none →
      ops.create_tool tool_id = .ok (some t0) →
      (s.tool_begin_prepared ops args transient t0).2.2 = none →
      ops.can_begin (s.tool_begin_prepared ops args transient t0).2.1
        (s.tool_begin_prepared ops args transient t0).1.doc = .ok true →
      (ops.begin (s.tool_begin_prepared ops args transient t0).2.1 args
        (s.tool_begin_prepared ops args transient t0).1.doc).result = .error e →
      e.is_std_exception = false →
      ∃ s1, s.tool_begin ops tool_id args transient = .threw e s1
        ∧ s1.tool = some (ops.begin (s.tool_begin_prepared ops args transient t0).2.1 args
            (s.tool_begin_prepared ops args transient t0).1.doc).tool
        ∧ s1.emitted = (s.tool_begin_prepared ops args transient t0).1.emitted
            ++ [.tool_changed tool_id]
        ∧ s1.needs_save = s.needs_save ∧ s1.history = s.history
        ∧ s1.history_current = s.history_current) := by
  refine ⟨?_, ?_, ?_, ?_⟩
  · intro s t a e ht hr he
    refine ⟨_, tool_update_throw_eq ops s t a e ht hr he, rfl, rfl, ?_, rfl, rfl, rfl⟩
    simp
  · intro s tool_id args transient t0 e hidle hcat hct hset hcb hr he
    rw [tool_begin_eq_call ops tool_id args transient s t0 hidle hct hset hcb]
    refine ⟨_, tool_begin_call_throw_eq ops tool_id args _ _ e hcat hr he, rfl, rfl,
      ?_, ?_, ?_, ?_⟩
    · simp
    · exact (tool_begin_prepared_frame ops args transient t0 s).2.2.1
    · exact (tool_begin_prepared_frame ops args transient t0 s).1
    · exact (tool_begin_prepared_frame ops args transient t0 s).2.1
  · intro s t a e ht hr he
    exact ⟨_, tool_update_foreign_eq ops s t a e ht hr he, rfl, rfl, rfl, rfl, rfl⟩
  · intro s tool_id args transient t0 e hidle hct hset hcb hr he
    rw [tool_begin_eq_call ops tool_id args transient s t0 hidle hct hset hcb]
    refine ⟨_, tool_begin_call_foreign_eq ops tool_id args _ _ e hr he, rfl, rfl, ?_, ?_, ?_⟩
    · exact (tool_begin_prepared_frame ops args transient t0 s).2.2.1
    · exact (tool_begin_prepared_frame ops args transient t0 s).1
    · exact (tool_begin_prepared_frame ops args transient t0 s).2.1

/-- Witness of C12: from the idle engine on document `7` with history `[7]`,
the tool's `begin` changes the document and throws a `std::exception`:
`tool_begin` returns `END`, the engine is idle, the last signal is
`tool_changed(NONE)`, and `needs_save`, the history and the cursor are as
before. -/
theorem C12_tool_exception_witness :
    ∃ s1, (Core.sample 7 [7] 0 : Core Nat Unit Unit).tool_begin failing_begin_tool
          (ToolID.tool 0) move_event false = .ok ToolResponse.end_ s1
      ∧ s1.tool = none
      ∧ s1.emitted = [.tool_changed (ToolID.tool 0), .tool_changed ToolID.NONE]
      ∧ s1.emitted.getLast? = some (.tool_changed ToolID.NONE)
      ∧ s1.needs_save = false ∧ s1.history = [7] ∧ s1.history_current = 0 :=
  (C12_tool_exception failing_begin_tool).2.1 (Core.sample 7 [7] 0 : Core Nat Unit Unit)
    (ToolID.tool 0) move_event false () (.exception "begin failed") rfl rfl rfl rfl rfl rfl rfl

/-- C13 (the code departs from the claim): a tool whose `can_begin` throws.
From an idle engine `tool_begin` returns `END`, but the tool the factory
returned is still held as the active tool and no signal at all is emitted, in
particular no `tool_changed(NONE)`; the following `tool_begin` throws the
error "can't begin tool while tool is active". -/
theorem C13_setup_exception_leaves_tool :
    (Core.sample 7 [7] 0 : Core Nat Unit Unit).tool = none
      ∧ failing_can_begin_tool.can_begin () 7 = .error (.exception "can_begin failed")
      ∧ ∃ s1, (Core.sample 7 [7] 0 : Core Nat Unit Unit).tool_begin failing_can_begin_tool
            (ToolID.tool 0) move_event false = .ok ToolResponse.end_ s1
          ∧ s1.tool = some ()
          ∧ s1.emitted = []
          ∧ s1.tool_begin failing_can_begin_tool (ToolID.tool 0) move_event false
              = .threw (.runtime_error "can't begin tool while tool is active") s1 :=
  ⟨rfl, rfl, _, rfl, rfl, rfl, rfl⟩

/-! ## Property transaction claims -/

theorem set_needs_save_needs_save (v : Bool) (s : Core D T J) :
    (s.set_needs_save v).needs_save = v := by
  rcases s with ⟨d, h, c, ns, t, ts, pt, em⟩
  cases v <;> cases ns <;> simp [Core.set_needs_save, Core.emit]

theorem set_needs_save_property_transaction (v : Bool) (s : Core D T J) :
    (s.set_needs_save v).property_transaction = s.property_transaction
      ∧ (s.set_needs_save v).tool_selection = s.tool_selection := by
  rcases s with ⟨d, h, c, ns, t, ts, pt, em⟩
  cases v <;> cases ns <;> simp [Core.set_needs_save, Core.emit]

/-- The value of `set_property_commit` in a transaction, on a state with
`-1 ≤ cursor < |history|`. -/
theorem set_property_commit_eq (s : Core D T J) (n : Nat) (hp : s.property_transaction = true)
    (hn : s.history_current + 1 = (n : Int)) (hle : n ≤ s.history.length) :
    s.set_property_commit = .ok ()
      { (Core.set_needs_save true
          { s with
            history := (s.history.take n ++ [s.doc]).drop (n + 1 - 50)
            history_current := (n : Int) - ((n + 1 - 50 : Nat) : Int)
            emitted := s.emitted ++ [.rebuilt, .can_undo_redo] }) with
        property_transaction := false } := by
  unfold Core.set_property_commit
  rw [rebuild_false_eq s n hn hle]
  simp [hp, Outcome.bind]

/-- C14: the property transaction is a two-state protocol.
`set_property_begin()` throws and changes nothing if a transaction is in
progress, otherwise it only sets the flag. `set_property_commit()` throws and
changes nothing if no transaction is in progress; otherwise, on a state with
`-1 ≤ cursor < |history|`, it returns normally, the history is the old entries
`0..cursor` followed by exactly one snapshot of the document (then trimmed to
fifty entries), the cursor is on that snapshot, `needs_save` is true and the
flag is cleared. Hence a bracket `set_property_begin()`, mutations that turn
the document into `d`, `set_property_commit()` pushes exactly one entry, the
snapshot of `d`. -/
theorem C14_property_transaction (s : Core D T J) :
    (s.property_transaction = true →
      s.set_property_begin = .threw (.runtime_error "transaction already in progress") s)
    ∧ (s.property_transaction = false →
      s.set_property_begin = .ok () { s with property_transaction := true })
    ∧ (s.property_transaction = false →
      s.set_property_commit = .threw (.runtime_error "no transaction in progress") s)
    ∧ (s.property_transaction = true → -1 ≤ s.history_current →
      s.history_current < s.history.length →
      ∃ s1, s.set_property_commit = .ok () s1
        ∧ s1.history = (s.history.take (s.history_current + 1).toNat ++ [s.doc]).drop
            ((s.history_current + 2).toNat - 50)
        ∧ s1.history_current = (s1.history.length : Int) - 1
        ∧ s1.history[s1.history_current.toNat]? = some s.doc
        ∧ s1.needs_save = true ∧ s1.property_transaction = false
        ∧ s1.doc = s.doc ∧ s1.tool = s.tool)
    ∧ (s.property_transaction = false → -1 ≤ s.history_current →
      s.history_current < s.history.length →
      ∀ d : D, ∃ s1 s2, s.set_property_begin = .ok () s1
        ∧ Core.set_property_commit { s1 with doc := d } = .ok () s2
        ∧ s2.history = (s.history.take (s.history_current + 1).toNat ++ [d]).drop
            ((s.history_current + 2).toNat - 50)
        ∧ s2.needs_save = true ∧ s2.property_transaction = false ∧ s2.doc = d) := by
  have commit : ∀ s0 : Core D T J, s0.property_transaction = true → -1 ≤ s0.history_current →
      s0.history_current < s0.history.length →
      ∃ s1, s0.set_property_commit = .ok () s1
        ∧ s1.history = (s0.history.take (s0.history_current + 1).toNat ++ [s0.doc]).drop
            ((s0.history_current + 2).toNat - 50)
        ∧ s1.history_current = (s1.history.length : Int) - 1
        ∧ s1.history[s1.history_current.toNat]? = some s0.doc
        ∧ s1.needs_save = true ∧ s1.property_transaction = false
        ∧ s1.doc = s0.doc ∧ s1.tool = s0.tool := by
    intro s0 hp h1 h2
    obtain ⟨n, hn⟩ : ∃ n : Nat, s0.history_current + 1 = (n : Int) :=
      ⟨(s0.history_current + 1).toNat, by omega⟩
    have hle : n ≤ s0.history.length := by omega
    have hn1 : (s0.history_current + 1).toNat = n := by omega
    have hn2 : (s0.history_current + 2).toNat = n + 1 := by omega
    have hlen0 : (s0.history.take n ++ [s0.doc]).length = n + 1 := by
      simp [List.length_take, Nat.min_eq_left hle]
    have hlen : ((s0.history.take n ++ [s0.doc]).drop (n + 1 - 50)).length
        = n + 1 - (n + 1 - 50) := by
      rw [List.length_drop, hlen0]
    refine ⟨_, set_property_commit_eq s0 n hp hn hle, ?_, ?_, ?_, ?_, rfl, ?_, ?_⟩
    · simp only [(set_needs_save_history _ _).1, hn1, hn2]
    · simp only [(set_needs_save_history _ _).1, (set_needs_save_history _ _).2.1, hlen]
      omega
    · simp only [(set_needs_save_history _ _).1, (set_needs_save_history _ _).2.1]
      have hidx : ((n : Int) - ((n + 1 - 50 : Nat) : Int)).toNat = n - (n + 1 - 50) := by omega
      rw [hidx, List.getElem?_drop]
      have : n + 1 - 50 + (n - (n + 1 - 50)) = n := by omega
      rw [this, List.getElem?_append_right (by simp [List.length_take, Nat.min_eq_left hle])]
      simp [List.length_take, Nat.min_eq_left hle]
    · exact set_needs_save_needs_save _ _
    · simp only [(set_needs_save_history _ _).2.2.1]
    · simp only [(set_needs_save_history _ _).2.2.2]
  refine ⟨?_, ?_, ?_, commit s, ?_⟩
  · intro hp
    simp [Core.set_property_begin, hp]
  · intro hp
    simp [Core.set_property_begin, hp]
  · intro hp
    simp [Core.set_property_commit, hp]
  · intro hp h1 h2 d
    obtain ⟨s2, e, q1, -, -, q4, q5, q6, -⟩ :=
      commit { s with property_transaction := true, doc := d } rfl h1 h2
    have hb : s.set_property_begin = .ok () { s with property_transaction := true } := by
      simp [Core.set_property_begin, hp]
    exact ⟨{ s with property_transaction := true }, s2, hb, e, q1, q4, q5, q6⟩

/-- Witness of C14: on document `2` with history `[1, 2]`, cursor `1`, a
bracket that edits the document to `3` leaves the history `[1, 2, 3]`, with
`needs_save` true and no transaction in progress. -/
theorem C14_property_transaction_witness :
    ∃ s1 s2, (Core.sample 2 [1, 2] 1 : Core Nat Unit Unit).set_property_begin = .ok () s1
      ∧ Core.set_property_commit { s1 with doc := 3 } = .ok () s2
      ∧ s2.history = [1, 2, 3] ∧ s2.needs_save = true ∧ s2.property_transaction = false
      ∧ s2.doc = 3 :=
  (C14_property_transaction (Core.sample 2 [1, 2] 1 : Core Nat Unit Unit)).2.2.2.2 rfl
    (by decide) (by decide) 3

theorem rebuild_no_runtime_error (b : Bool) (s : Core D T J) :
    (s.rebuild b).no_runtime_error := by
  intro what s1 h
  unfold Core.rebuild at h
  cases b with
  | true => simp at h
  | false =>
    simp only [Bool.not_false, if_true] at h
    cases hp : pop_back_loop s.history_current s.history.reverse <;> simp [hp] at h

theorem history_load_no_runtime_error (i : Int) (s : Core D T J) :
    (s.history_load i).no_runtime_error := by
  intro what s1 h
  unfold Core.history_load at h
  split at h
  · split at h <;> simp at h
  · simp at h

theorem bind_no_runtime_error {σ α β : Type} (o : Outcome σ α) (f : α → σ → Outcome σ β)
    (ho : o.no_runtime_error) (hf : ∀ a s, (f a s).no_runtime_error) :
    (o.bind f).no_runtime_error := by
  intro what s1 h
  cases o with
  | ok a s => exact hf a s what s1 h
  | threw e s =>
    simp only [Outcome.bind, Outcome.threw.injEq] at h
    exact ho what s1 (by rw [h.1, h.2])
  | undefined => simp [Outcome.bind] at h

theorem ok_no_runtime_error {σ α : Type} (a : α) (s : σ) :
    (Outcome.ok a s : Outcome σ α).no_runtime_error := by
  intro what s1 h
  cases h

theorem maybe_end_tool_no_runtime_error (ops : ToolOps D T J) (r : ToolResponse)
    (s : Core D T J) : (s.maybe_end_tool ops r).no_runtime_error := by
  unfold Core.maybe_end_tool
  split
  · split
    · intro what s1 h
      cases h
    · simp only []
      split
      · exact rebuild_no_runtime_error _ _
      · split
        · exact bind_no_runtime_error _ _ (history_load_no_runtime_error _ _)
            (fun _ s0 => rebuild_no_runtime_error _ s0)
        · exact ok_no_runtime_error _ _
  · exact ok_no_runtime_error _ _

theorem tool_begin_catch_no_runtime_error (ops : ToolOps D T J) (tool_id : ToolID)
    (s : Core D T J) : (s.tool_begin_catch ops tool_id).no_runtime_error := by
  intro what s1 h
  unfold Core.tool_begin_catch at h
  split at h <;> simp at h

/-- An object that is not a `std::exception` is not a `std::runtime_error`. -/
theorem threw_foreign_no_runtime_error {σ α : Type} (e : Exn) (s : σ)
    (he : ¬ e.is_std_exception = true) : (Outcome.threw e s : Outcome σ α).no_runtime_error := by
  intro what s1 h
  injection h with h1 _
  rw [h1] at he
  exact he rfl

theorem tool_begin_guard_no_runtime_error (ops : ToolOps D T J) (tool_id : ToolID) (e : Exn)
    (s : Core D T J) : (s.tool_begin_guard ops tool_id e).no_runtime_error := by
  unfold Core.tool_begin_guard
  split
  · exact tool_begin_catch_no_runtime_error _ _ _
  · rename_i he
    exact threw_foreign_no_runtime_error _ _ he

theorem tool_begin_call_no_runtime_error (ops : ToolOps D T J) (tool_id : ToolID)
    (args : ToolArgs) (t : T) (s : Core D T J) :
    (s.tool_begin_call ops tool_id args t).no_runtime_error := by
  unfold Core.tool_begin_call
  simp only []
  split
  · split
    · exact tool_begin_catch_no_runtime_error _ _ _
    · rename_i he
      exact threw_foreign_no_runtime_error _ _ he
  · exact bind_no_runtime_error _ _ (maybe_end_tool_no_runtime_error _ _ _)
      (fun _ _ => ok_no_runtime_error _ _)

/-- On an idle engine `tool_begin` does not throw a `std::runtime_error`,
whatever the property-transaction flag. -/
theorem tool_begin_idle_no_runtime_error (ops : ToolOps D T J) (tool_id : ToolID)
    (args : ToolArgs) (transient : Bool) (s : Core D T J) (hidle : s.tool = none) :
    (s.tool_begin ops tool_id args transient).no_runtime_error := by
  unfold Core.tool_begin
  simp only [hidle, Option.isSome_none, Bool.false_eq_true, if_false]
  split
  · exact tool_begin_guard_no_runtime_error _ _ _ _
  · intro what s1 h
    cases h
  · split
    · exact tool_begin_guard_no_runtime_error _ _ _ _
    · split
      · exact tool_begin_guard_no_runtime_error _ _ _ _
      · exact ok_no_runtime_error _ _
      · exact tool_begin_call_no_runtime_error _ _ _ _ _

/-- C15 (the claim as stated fails): a tool and a property transaction active
at the same time. From an idle engine `tool_begin` starts a tool that stays
active, and `set_property_begin()` then returns normally; in the other order,
`set_property_begin()` and then `tool_begin` both return normally. Either way
the state reached has an active tool and a transaction in progress. -/
theorem C15_tool_and_transaction_overlap :
    (∃ s1 s2, (Core.sample 7 [7] 0 : Core Nat Unit Unit).tool_begin idle_tool ToolID.MAP_PIN
          move_event false = .ok ToolResponse.nop s1
        ∧ s1.tool = some () ∧ s1.set_property_begin = .ok () s2
        ∧ s2.tool = some () ∧ s2.property_transaction = true)
    ∧ (∃ s1 s2, (Core.sample 7 [7] 0 : Core Nat Unit Unit).set_property_begin = .ok () s1
        ∧ s1.property_transaction = true
        ∧ s1.tool_begin idle_tool ToolID.MAP_PIN move_event false = .ok ToolResponse.nop s2
        ∧ s2.tool = some () ∧ s2.property_transaction = true) :=
  ⟨⟨_, _, rfl, rfl, rfl, rfl, rfl⟩, ⟨_, _, rfl, rfl, rfl, rfl, rfl⟩⟩

/-- C15 (amended): each of the two brackets excludes only its own kind.
`set_property_begin()` throws exactly when a property transaction is in
progress; with none in progress it returns normally and only sets the flag,
also while a tool is active, which stays active. `tool_begin` throws the busy
error when a tool is active, and on an idle engine it throws no
`std::runtime_error`, whether or not a property transaction is in progress. -/
theorem C15_brackets_are_independent (ops : ToolOps D T J) (tool_id : ToolID) (args : ToolArgs)
    (transient : Bool) (s : Core D T J) :
    (s.property_transaction = true →
      s.set_property_begin = .threw (.runtime_error "transaction already in progress") s)
    ∧ (s.property_transaction = false →
      s.set_property_begin = .ok () { s with property_transaction := true })
    ∧ (s.tool.isSome = true →
      s.tool_begin ops tool_id args transient
        = .threw (.runtime_error "can't begin tool while tool is active") s)
    ∧ (s.tool = none → (s.tool_begin ops tool_id args transient).no_runtime_error) := by
  refine ⟨?_, ?_, ?_, tool_begin_idle_no_runtime_error ops tool_id args transient s⟩
  · intro hp
    simp [Core.set_property_begin, hp]
  · intro hp
    simp [Core.set_property_begin, hp]
  · intro ht
    simp [Core.tool_begin, ht]

/-- Witness of C15: with a tool active and no transaction in progress,
`set_property_begin()` returns normally and the tool stays active. -/
theorem C15_brackets_are_independent_witness :
    (Core.sample_active () 9 [7] 0 : Core Nat Unit Unit).property_transaction = false
      ∧ (Core.sample_active () 9 [7] 0 : Core Nat Unit Unit).tool = some ()
      ∧ (Core.sample_active () 9 [7] 0 : Core Nat Unit Unit).set_property_begin
          = .ok () { (Core.sample_active () 9 [7] 0 : Core Nat Unit Unit) with
              property_transaction := true } :=
  ⟨rfl, rfl, (C15_brackets_are_independent idle_tool ToolID.MAP_PIN move_event false
    (Core.sample_active () 9 [7] 0 : Core Nat Unit Unit)).2.1 rfl⟩

/-! ## The needs-save flag -/

/-- The comparator as a lexicographic order on the keys: visible area, type
value, display name, `x` ascending, `y` descending. -/
theorem search_result_less_iff (env : SearchEnv) (a b : SearchResult) :
    search_result_less env a b = true ↔
      (env.area_key a < env.area_key b
        ∨ (env.area_key a = env.area_key b
          ∧ (env.type_value a.type < env.type_value b.type
            ∨ (env.type_value a.type = env.type_value b.type
              ∧ (env.strcmp_natural (env.name a) (env.name b) < 0
                ∨ (env.strcmp_natural (env.name a) (env.name b) = 0
                  ∧ (a.location.x < b.location.x
                    ∨ (a.location.x = b.location.x ∧ b.location.y < a.location.y)))))))) := by
  simp only [search_result_less, SearchEnv.area_key, SearchEnv.name]
  generalize env.type_value a.type = ta
  generalize env.type_value b.type = tb
  generalize env.strcmp_natural _ _ = c
  generalize a.location.x = xa
  generalize b.location.x = xb
  generalize a.location.y = ya
  generalize b.location.y = yb
  cases env.in_range a.location <;> cases env.in_range b.location <;>
    simp only [Bool.not_true, Bool.not_false, Bool.and_self, Bool.and_true, Bool.and_false,
      Bool.false_eq_true, if_false, if_true, gt_iff_lt] <;>
    (try split_ifs) <;>
    simp only [decide_eq_true_eq, Bool.false_eq_true, false_iff, true_iff, true_and,
      false_and, or_false, lt_self_iff_false, false_or, zero_lt_one, true_or, not_true_eq_false,
      not_false_eq_true, one_ne_zero, zero_ne_one, Int.reduceLT, Int.reduceEq] <;>
    (try omega)

theorem area_key_eq_iff (env : SearchEnv) (p q : SearchResult) :
    env.in_range p.location = env.in_range q.location ↔ env.area_key p = env.area_key q := by
  unfold SearchEnv.area_key
  cases env.in_range p.location <;> cases env.in_range q.location <;> simp

theorem search_result_less_false_iff (env : SearchEnv) (p q : SearchResult) :
    search_result_less env p q = false ↔ ¬ search_result_less env p q = true := by
  cases search_result_less env p q <;> simp

theorem consistent_eq_self (env : SearchEnv) (henv : env.consistent) (x : String) :
    env.strcmp_natural x x = 0 := by
  have s1 := henv.swap x x
  omega

theorem consistent_lt_of_lt_of_le (env : SearchEnv) (henv : env.consistent) (x y z : String)
    (h1 : env.strcmp_natural x y < 0) (h2 : env.strcmp_natural y z ≤ 0) :
    env.strcmp_natural x z < 0 := by
  have s1 := henv.swap x y
  have s2 := henv.swap x z
  have s3 := henv.swap z x
  have t1 := henv.le_trans y z x
  have t2 := henv.le_trans x y z
  omega

theorem consistent_lt_of_le_of_lt (env : SearchEnv) (henv : env.consistent) (x y z : String)
    (h1 : env.strcmp_natural x y ≤ 0) (h2 : env.strcmp_natural y z < 0) :
    env.strcmp_natural x z < 0 := by
  have s1 := henv.swap y z
  have s2 := henv.swap x z
  have s3 := henv.swap z x
  have t1 := henv.le_trans z x y
  have t2 := henv.le_trans x y z
  omega

theorem consistent_eq_symm (env : SearchEnv) (henv : env.consistent) (x y : String)
    (h1 : env.strcmp_natural x y = 0) : env.strcmp_natural y x = 0 := by
  have s1 := henv.swap x y
  have s2 := henv.swap y x
  omega

theorem consistent_eq_trans (env : SearchEnv) (henv : env.consistent) (x y z : String)
    (h1 : env.strcmp_natural x y = 0) (h2 : env.strcmp_natural y z = 0) :
    env.strcmp_natural x z = 0 := by
  have e1 := consistent_eq_symm env henv x y h1
  have e2 := consistent_eq_symm env henv y z h2
  have t1 := henv.le_trans x y z
  have t2 := henv.le_trans z y x
  have s1 := henv.swap x z
  have s2 := henv.swap z x
  omega

theorem search_result_less_irrefl (env : SearchEnv) (henv : env.consistent) (a : SearchResult) :
    search_result_less env a a = false := by
  have e := consistent_eq_self env henv (env.name a)
  rw [search_result_less_false_iff, search_result_less_iff]
  omega

theorem search_result_less_asymm (env : SearchEnv) (henv : env.consistent) (a b : SearchResult)
    (h : search_result_less env a b = true) : search_result_less env b a = false := by
  have s1 := henv.swap (env.name a) (env.name b)
  have s2 := henv.swap (env.name b) (env.name a)
  rw [search_result_less_false_iff, search_result_less_iff]
  rw [search_result_less_iff] at h
  omega

theorem search_result_less_trans (env : SearchEnv) (henv : env.consistent)
    (a b c : SearchResult) (h1 : search_result_less env a b = true)
    (h2 : search_result_less env b c = true) : search_result_less env a c = true := by
  have l1 := consistent_lt_of_lt_of_le env henv (env.name a) (env.name b) (env.name c)
  have l2 := consistent_lt_of_le_of_lt env henv (env.name a) (env.name b) (env.name c)
  have l3 := consistent_eq_trans env henv (env.name a) (env.name b) (env.name c)
  rw [search_result_less_iff] at h1 h2 ⊢
  generalize env.strcmp_natural (env.name a) (env.name b) = cab at *
  generalize env.strcmp_natural (env.name b) (env.name c) = cbc at *
  generalize env.strcmp_natural (env.name a) (env.name c) = cac at *
  generalize env.area_key a = ka at *
  generalize env.area_key b = kb at *
  generalize env.area_key c = kc at *
  generalize env.type_value a.type = ta at *
  generalize env.type_value b.type = tb at *
  generalize env.type_value c.type = tc at *
  rcases h1 with h1 | ⟨e1, h1 | ⟨e2, h1 | ⟨e3, h1⟩⟩⟩ <;>
    rcases h2 with h2 | ⟨f1, h2 | ⟨f2, h2 | ⟨f3, h2⟩⟩⟩ <;> omega

theorem search_result_trichotomy (env : SearchEnv) (henv : env.consistent)
    (a b : SearchResult) :
    search_result_less env a b = true ∨ search_result_less env b a = true
      ∨ search_result_tie env a b := by
  have s1 := henv.swap (env.name a) (env.name b)
  have s2 := henv.swap (env.name b) (env.name a)
  simp only [search_result_less_iff, search_result_tie, area_key_eq_iff]
  simp only [SearchEnv.name] at *
  omega

theorem search_result_tie_incomparable (env : SearchEnv) (henv : env.consistent)
    (a b : SearchResult) (h : search_result_tie env a b) :
    search_result_less env a b = false ∧ search_result_less env b a = false := by
  have s1 := henv.swap (env.name a) (env.name b)
  have s2 := henv.swap (env.name b) (env.name a)
  simp only [search_result_tie, area_key_eq_iff] at h
  simp only [search_result_less_false_iff, search_result_less_iff]
  simp only [SearchEnv.name] at *
  omega

theorem sample_search_env_consistent : sample_search_env.consistent :=
  ⟨fun a b => by simp only [sample_search_env]; omega,
   fun a b c => by simp only [sample_search_env]; omega⟩

/-- C17 (the claim as stated fails): two distinct results, the junctions with
UUID `1` and `2`, of the same type, with the same display name and at the same
location: `strcmp_natural` is a consistent three-way comparison, yet neither
result is less than the other. -/
theorem C17_distinct_results_tie :
    sample_search_env.consistent
      ∧ junction_one ≠ junction_two
      ∧ search_result_less sample_search_env junction_one junction_two = false
      ∧ search_result_less sample_search_env junction_two junction_one = false :=
  ⟨sample_search_env_consistent, by decide, by decide, by decide⟩

/-- C17 (amended): for a consistent `strcmp_natural` the comparator of
`sort_search_results` is a strict weak order on search results: no result is
less than itself, `a < b` excludes `b < a`, `a < b` and `b < c` imply `a < c`,
and of two results one is less than the other unless they tie on every key
(same side of the visible area, same type, display names that compare equal,
same `x`, same `y`), in which case neither is less. It is total on results
that differ in a key, not on all distinct results. -/
theorem C17_comparator_strict_weak_order (env : SearchEnv) (henv : env.consistent)
    (a b c : SearchResult) :
    search_result_less env a a = false
      ∧ (search_result_less env a b = true → search_result_less env b a = false)
      ∧ (search_result_less env a b = true → search_result_less env b c = true →
          search_result_less env a c = true)
      ∧ (search_result_less env a b = true ∨ search_result_less env b a = true
          ∨ search_result_tie env a b)
      ∧ (search_result_tie env a b →
          search_result_less env a b = false ∧ search_result_less env b a = false) :=
  ⟨search_result_less_irrefl env henv a, search_result_less_asymm env henv a b,
    search_result_less_trans env henv a b c, search_result_trichotomy env henv a b,
    search_result_tie_incomparable env henv a b⟩

/-- Witness of C17: the junction at `(0, 5)` sorts before the junction at the
origin (`y` descending), and not the other way round. -/
theorem C17_comparator_strict_weak_order_witness :
    sample_search_env.consistent
      ∧ search_result_less sample_search_env junction_three junction_two = true
      ∧ search_result_less sample_search_env junction_two junction_three = false :=
  ⟨sample_search_env_consistent, by decide,
    (C17_comparator_strict_weak_order sample_search_env sample_search_env_consistent
      junction_three junction_two junction_one).2.1 (by decide)⟩

/-! ## The map-pin tool: lemmas -/

/-- The loop that skips placed pins stops at the first unplaced entry or at
the end of the list. -/
theorem skip_placed_loop_spec (l : List (Pin × Bool)) (i : Nat) :
    i ≤ skip_placed_loop l i ∧ skip_placed_loop l i ≤ i + l.length
      ∧ (∀ k, k < skip_placed_loop l i - i → placed_at l k = some true)
      ∧ (skip_placed_loop l i < i + l.length →
          placed_at l (skip_placed_loop l i - i) = some false) := by
  induction l generalizing i with
  | nil => simp [skip_placed_loop]
  | cons e rest ih =>
    obtain ⟨p, placed⟩ := e
    cases placed with
    | false => simp [skip_placed_loop, placed_at]
    | true =>
      obtain ⟨h1, h2, h3, h4⟩ := ih (i + 1)
      simp only [skip_placed_loop, Bool.true_eq_false, if_false, List.length_cons]
      refine ⟨by omega, by omega, ?_, ?_⟩
      · intro k hk
        cases k with
        | zero => simp [placed_at]
        | succ k =>
          have := h3 k (by omega)
          simpa [placed_at] using this
      · intro hlt
        have h5 := h4 (by omega)
        have : skip_placed_loop rest (i + 1) - i = (skip_placed_loop rest (i + 1) - (i + 1)) + 1 := by
          omega
        rw [this]
        simpa [placed_at] using h5

theorem set_placed_eq (pins : List (Pin × Bool)) (i : Nat) (e : Pin × Bool)
    (h : pins[i]? = some e) : set_placed pins i = .ok (pins.set i (e.1, true)) := by
  simp [set_placed, h]

theorem Store.find_modify_self {E : Type} (uu : UUID) (f : E → E) (m : Store E) :
    (m.modify uu f).find uu = (m.find uu).map f := by
  induction m with
  | nil => rfl
  | cons p rest ih =>
    obtain ⟨k, e⟩ := p
    by_cases hk : k = uu
    · simp [Store.modify, Store.find, hk]
    · simp [Store.modify, Store.find, hk, ih]

theorem Store.find_modify_other {E : Type} (uu v : UUID) (f : E → E) (m : Store E)
    (h : uu ≠ v) : (m.modify uu f).find v = m.find v := by
  induction m with
  | nil => rfl
  | cons p rest ih =>
    obtain ⟨k, e⟩ := p
    by_cases hk : k = uu
    · subst hk
      simp [Store.modify, Store.find, h]
    · by_cases hv : k = v
      · subst hv
        simp [Store.modify, Store.find, hk]
      · simp [Store.modify, Store.find, hk, hv, ih]

/-- The value of `create_pin` when the current pin is valid and the new pin is
a pin of the unit. -/
theorem create_pin_eq (uu : UUID) (st : MapPin) (u : UUID) (p : SymbolPin) (unit_pin : Pin)
    (hpin : st.pin = some u) (hp : st.symbol_pins.find u = some p)
    (hu : st.unit_pins.find uu = some unit_pin) :
    st.create_pin uu = .ok ()
      { st with
        symbol_pins :=
          (((st.symbol_pins.emplace SymbolPin.ctor uu).1.modify uu
            fun q => { q with length := mm_2_5 }).modify uu
            fun q => { q with name := unit_pin.primary_name }).modify uu
            fun q => { q with orientation := p.orientation }
        pin := some uu
        pin_last := some u
        pin_last2 := st.pin_last } := by
  simp [MapPin.create_pin, hpin, hp, Store.map_at, hu, MapPin.insert_symbol_pin, MapPin.assign]
theorem placed_at_drop (l : List (Pin × Bool)) (n k : Nat) :
    placed_at (l.drop n) k = placed_at l (n + k) := by
  simp [placed_at, List.getElem?_drop]

/-- Marking entry `i` placed and skipping placed entries from `i + 1` on: the
index `j` reached lies after `i`, every entry from `i` up to `j` is placed, and
entry `j`, if there is one, is unplaced. -/
theorem advance_spec (pins : List (Pin × Bool)) (i : Nat) (e : Pin × Bool)
    (hi : pins[i]? = some e) :
    i < skip_placed_loop ((pins.set i (e.1, true)).drop (i + 1)) (i + 1)
      ∧ skip_placed_loop ((pins.set i (e.1, true)).drop (i + 1)) (i + 1) ≤ pins.length
      ∧ (∀ k, i ≤ k → k < skip_placed_loop ((pins.set i (e.1, true)).drop (i + 1)) (i + 1) →
          placed_at (pins.set i (e.1, true)) k = some true)
      ∧ (skip_placed_loop ((pins.set i (e.1, true)).drop (i + 1)) (i + 1) < pins.length →
          placed_at (pins.set i (e.1, true))
            (skip_placed_loop ((pins.set i (e.1, true)).drop (i + 1)) (i + 1)) = some false)
      ∧ (∀ k, k ≠ i → (pins.set i (e.1, true))[k]? = pins[k]?) := by
  have hlt : i < pins.length := by
    rcases Nat.lt_or_ge i pins.length with h | h
    · exact h
    · rw [List.getElem?_eq_none h] at hi
      cases hi
  obtain ⟨h1, h2, h3, h4⟩ := skip_placed_loop_spec ((pins.set i (e.1, true)).drop (i + 1)) (i + 1)
  generalize skip_placed_loop ((pins.set i (e.1, true)).drop (i + 1)) (i + 1) = j at *
  simp only [List.length_drop, List.length_set] at h2 h4
  refine ⟨by omega, by omega, ?_, ?_, ?_⟩
  · intro k hk1 hk2
    by_cases hki : k = i
    · subst hki
      simp [placed_at, List.getElem?_set_self hlt]
    · have := h3 (k - (i + 1)) (by omega)
      rw [placed_at_drop] at this
      have e1 : i + 1 + (k - (i + 1)) = k := by omega
      rw [e1] at this
      exact this
  · intro hj
    have := h4 (by omega)
    rw [placed_at_drop] at this
    have e1 : i + 1 + (j - (i + 1)) = j := by omega
    rw [e1] at this
    exact this
  · intro k hk
    exact List.getElem?_set_ne (Ne.symm hk)

/-- The value of `update` on a click of button 1 that exhausts the list. -/
theorem click_commit_eq (env : MapPinEnv) (args : ToolArgs) (st : MapPin) (e : Pin × Bool)
    (hc : args.type = ToolEventType.CLICK) (hb : args.button = 1)
    (hi : st.pins[st.pin_index]? = some e)
    (hj : skip_placed_loop ((st.pins.set st.pin_index (e.1, true)).drop (st.pin_index + 1))
      (st.pin_index + 1) = st.pins.length) :
    st.update env args = .ok ToolResponse.commit
      { st with pins := st.pins.set st.pin_index (e.1, true), pin_index := st.pins.length } := by
  simp [MapPin.update, hc, hb, set_placed_eq _ _ _ hi, hj]

/-- The value of `update` on a click of button 1 that finds a next unplaced
pin, the current pin being valid and the next pin a pin of the unit. -/
theorem click_next_eq (env : MapPinEnv) (args : ToolArgs) (st : MapPin) (e next : Pin × Bool)
    (j : Nat) (u : UUID) (p : SymbolPin) (unit_pin : Pin)
    (hc : args.type = ToolEventType.CLICK) (hb : args.button = 1)
    (hi : st.pins[st.pin_index]? = some e)
    (hj : skip_placed_loop ((st.pins.set st.pin_index (e.1, true)).drop (st.pin_index + 1))
      (st.pin_index + 1) = j)
    (hnext : (st.pins.set st.pin_index (e.1, true))[j]? = some next)
    (hu : st.unit_pins.find next.1.uuid = some unit_pin)
    (hpin : st.pin = some u) (hp : st.symbol_pins.find u = some p) :
    st.update env args = .ok ToolResponse.nop
      { st with
        pins := st.pins.set st.pin_index (e.1, true)
        pin_index := j
        symbol_pins :=
          ((((st.symbol_pins.emplace SymbolPin.ctor next.1.uuid).1.modify next.1.uuid
            fun q => { q with length := mm_2_5 }).modify next.1.uuid
            fun q => { q with name := unit_pin.primary_name }).modify next.1.uuid
            fun q => { q with orientation := p.orientation }).modify next.1.uuid
            fun q => { q with position := args.coords }
        pin := some next.1.uuid
        pin_last := some u
        pin_last2 := st.pin_last } := by
  have hjlt : j < st.pins.length := by
    rcases Nat.lt_or_ge j st.pins.length with h | h
    · exact h
    · rw [List.getElem?_eq_none (by simpa using h)] at hnext
      cases hnext
  have hne : j ≠ st.pins.length := by omega
  have hcp := create_pin_eq next.1.uuid
    { st with pins := st.pins.set st.pin_index (e.1, true), pin_index := j } u p unit_pin hpin hp hu
  simp only [MapPin.update, hc, hb, set_placed_eq _ _ _ hi, hj, List.length_set, hne, hnext,
    hcp, Outcome.bind, MapPin.assign]
  simp
/-! ## The map-pin tool: claims -/

/-- C19: in every tool state with `pin_index < |pins|`, a click of button 1
marks `pins[pin_index]` placed and moves `pin_index` to `j`, the first unplaced
entry after it, or `|pins|` if there is none (every entry from the old
`pin_index` up to `j` is then placed, the other entries are unchanged). If
`j = |pins|` the response is `COMMIT` and nothing else changes: no pin is
created. Otherwise, the current pin being valid and entry `j` a pin of the
unit, the response is `NOP`, entry `j` is the current pin, stored in the symbol
with the click position, the length 2.5 mm, the orientation of the pin just
placed and the primary name of the unit's pin; the pin just placed is
`pin_last` and the former `pin_last` is `pin_last2`. -/
theorem C19_click_button_one (env : MapPinEnv) (args : ToolArgs) (st : MapPin) (e : Pin × Bool)
    (pins1 : List (Pin × Bool)) (j : Nat)
    (hc : args.type = ToolEventType.CLICK) (hb : args.button = 1)
    (hi : st.pins[st.pin_index]? = some e)
    (hp1 : pins1 = st.pins.set st.pin_index (e.1, true))
    (hj : j = skip_placed_loop (pins1.drop (st.pin_index + 1)) (st.pin_index + 1)) :
    (st.pin_index < j ∧ j ≤ st.pins.length
      ∧ (∀ k, st.pin_index ≤ k → k < j → placed_at pins1 k = some true)
      ∧ (j < st.pins.length → placed_at pins1 j = some false)
      ∧ (∀ k, k ≠ st.pin_index → pins1[k]? = st.pins[k]?))
    ∧ (j = st.pins.length →
        st.update env args = .ok ToolResponse.commit { st with pins := pins1, pin_index := j })
    ∧ (∀ (next : Pin × Bool) (u : UUID) (p : SymbolPin) (unit_pin : Pin),
        pins1[j]? = some next → st.unit_pins.find next.1.uuid = some unit_pin →
        st.pin = some u → st.symbol_pins.find u = some p →
        ∃ st1 q, st.update env args = .ok ToolResponse.nop st1
          ∧ st1.pins = pins1 ∧ st1.pin_index = j
          ∧ st1.pin = some next.1.uuid ∧ st1.pin_last = some u ∧ st1.pin_last2 = st.pin_last
          ∧ st1.symbol_pins.find next.1.uuid = some q
          ∧ q.position = args.coords ∧ q.length = mm_2_5
          ∧ q.orientation = p.orientation ∧ q.name = unit_pin.primary_name) := by
  subst hp1
  refine ⟨?_, ?_, ?_⟩
  · rw [hj]
    exact advance_spec st.pins st.pin_index e hi
  · intro hlen
    have := click_commit_eq env args st e hc hb hi (by rw [← hj]; exact hlen)
    rw [this, hlen]
  · intro next u p unit_pin hnext hu hpin hp
    refine ⟨_,
      { uuid := (st.symbol_pins.emplace SymbolPin.ctor next.1.uuid).2.uuid
        name := unit_pin.primary_name, position := args.coords
        orientation := p.orientation, length := mm_2_5 },
      click_next_eq env args st e next j u p unit_pin hc hb hi hj.symm hnext hu
        hpin hp, rfl, rfl, rfl, rfl, rfl, ?_, rfl, rfl, rfl, rfl⟩
    simp only [Store.find_modify_self, Store.find_emplace, Option.map_some']

/-- Witness of C19: after `begin` (pins `"1"`, `"2"`, `"10"`, the pin `"1"`
current), a click of button 1 at `(3, 0)` marks `"1"` placed, creates the pin
`"2"` at `(3, 0)` with length 2.5 mm and orientation `RIGHT`, and answers
`NOP`. -/
theorem C19_click_button_one_witness :
    fresh_map_pin.begin (sample_map_pin_env 2) (event_at ToolEventType.MOVE 0 0 0)
        = .ok ToolResponse.nop map_pin_started
      ∧ ∃ st1 q, map_pin_started.update (sample_map_pin_env 2)
            (event_at ToolEventType.CLICK 1 0 3) = .ok ToolResponse.nop st1
          ∧ st1.pins = [(⟨2, "1"⟩, true), (⟨3, "2"⟩, false), (⟨1, "10"⟩, false)]
          ∧ st1.pin_index = 1 ∧ st1.pin = some 3 ∧ st1.pin_last = some 2
          ∧ st1.pin_last2 = none
          ∧ st1.symbol_pins.find 3 = some q
          ∧ q.position = ⟨3, 0⟩ ∧ q.length = 2500000
          ∧ q.orientation = Orientation.RIGHT ∧ q.name = "2" := by
  refine ⟨rfl, ?_⟩
  exact (C19_click_button_one (sample_map_pin_env 2) (event_at ToolEventType.CLICK 1 0 3)
    map_pin_started (⟨2, "1"⟩, false) _ 1 rfl rfl rfl rfl rfl).2.2
    (⟨3, "2"⟩, false) 2 ⟨2, "1", ⟨0, 0⟩, Orientation.RIGHT, 2500000⟩ ⟨3, "2"⟩ rfl rfl rfl rfl

/-- The value of `Coordi::operator-` when the differences are values of
`int64_t`. -/
theorem Coordi.sub_eq (a b : Coordi) (hx : in_int64 (a.x - b.x) = true)
    (hy : in_int64 (a.y - b.y) = true) : a.sub b = some ⟨a.x - b.x, a.y - b.y⟩ := by
  simp [Coordi.sub, hx, hy]

/-- The value of `Coordi::operator+` when the sums are values of `int64_t`. -/
theorem Coordi.add_eq (a b : Coordi) (hx : in_int64 (a.x + b.x) = true)
    (hy : in_int64 (a.y + b.y) = true) : a.add b = some ⟨a.x + b.x, a.y + b.y⟩ := by
  simp [Coordi.add, hx, hy]

/-- The key Return with `pin_last` and `pin_last2` of the same orientation, no
overflow in the arithmetic and a valid current pin: the position `pos` is
assigned and `update` goes on as on a click of button 1 at the same
coordinates. -/
theorem return_eq_click (env : MapPinEnv) (a_key a_click : ToolArgs) (st : MapPin)
    (l l2 u : UUID) (last last2 p : SymbolPin) (shift pos : Coordi)
    (hk : a_key.type = ToolEventType.KEY) (hr : a_key.key = GDK_KEY_Return)
    (hc : a_click.type = ToolEventType.CLICK) (hb : a_click.button = 1)
    (hco : a_click.coords = a_key.coords)
    (hl : st.pin_last = some l) (hl2 : st.pin_last2 = some l2)
    (hfl : st.symbol_pins.find l = some last) (hfl2 : st.symbol_pins.find l2 = some last2)
    (hpin : st.pin = some u) (hfp : st.symbol_pins.find u = some p)
    (ho : last2.orientation = last.orientation)
    (hsub : last.position.sub last2.position = some shift)
    (hadd : last.position.add shift = some pos) :
    st.update env a_key
      = (st.assign u fun q => { q with position := pos }).update env a_click := by
  have hmove : ¬ ToolEventType.KEY = ToolEventType.MOVE := by decide
  have hclick : ¬ ToolEventType.KEY = ToolEventType.CLICK := by decide
  have hcm : ¬ ToolEventType.CLICK = ToolEventType.MOVE := by decide
  simp only [MapPin.update, hmove, hclick, hk, hr, hl, hl2, hfl, hfl2, ho, hsub, hadd, hpin,
    MapPin.deref, hfp, if_true, if_false, hc, hb, hcm, hco, MapPin.assign]

/-- The key Return with `pin_last` and `pin_last2` of the same orientation when
the subtraction or the addition overflows: undefined behaviour. -/
theorem return_overflow_eq (env : MapPinEnv) (a_key : ToolArgs) (st : MapPin)
    (l l2 : UUID) (last last2 : SymbolPin)
    (hk : a_key.type = ToolEventType.KEY) (hr : a_key.key = GDK_KEY_Return)
    (hl : st.pin_last = some l) (hl2 : st.pin_last2 = some l2)
    (hfl : st.symbol_pins.find l = some last) (hfl2 : st.symbol_pins.find l2 = some last2)
    (ho : last2.orientation = last.orientation)
    (hov : last.position.sub last2.position = none
      ∨ ∃ shift, last.position.sub last2.position = some shift
          ∧ last.position.add shift = none) :
    st.update env a_key = .undefined := by
  have hmove : ¬ ToolEventType.KEY = ToolEventType.MOVE := by decide
  have hclick : ¬ ToolEventType.KEY = ToolEventType.CLICK := by decide
  rcases hov with hsub | ⟨shift, hsub, hadd⟩
  · simp only [MapPin.update, hmove, hclick, hk, hr, hl, hl2, hfl, hfl2, ho, hsub, if_true,
      if_false]
  · simp only [MapPin.update, hmove, hclick, hk, hr, hl, hl2, hfl, hfl2, ho, hsub, hadd,
      if_true, if_false]

/-- C18 (the claim as stated fails): the pin `"1"` is placed at
`(-2^62, 0)` and the pin `"2"` at `(2^62, 0)`, both values of `int64_t`, with
the same orientation. The position the claim gives the current pin has
`x = 2^62 + (2^62 - (-2^62)) = 3 * 2^62`, which is no value of `int64_t`: the
subtraction `pin_last->position - pin_last2->position` overflows, and the
behaviour of `update` on Return is undefined. -/
theorem C18_return_overflows :
    map_pin_far_apart.pin_last = some 3 ∧ map_pin_far_apart.pin_last2 = some 2
      ∧ (map_pin_far_apart.symbol_pins.find 3).map (fun q => (q.position, q.orientation))
          = some (⟨4611686018427387904, 0⟩, Orientation.RIGHT)
      ∧ (map_pin_far_apart.symbol_pins.find 2).map (fun q => (q.position, q.orientation))
          = some (⟨-4611686018427387904, 0⟩, Orientation.RIGHT)
      ∧ in_int64 4611686018427387904 = true ∧ in_int64 (-4611686018427387904) = true
      ∧ (4611686018427387904 : Int) + (4611686018427387904 - (-4611686018427387904))
          = 13835058055282163712
      ∧ INT64_MAX < 13835058055282163712
      ∧ map_pin_far_apart.update (sample_map_pin_env 2)
          (event_at ToolEventType.KEY 0 GDK_KEY_Return 5) = .undefined :=
  ⟨rfl, rfl, rfl, rfl, by decide, by decide, by decide, by decide, rfl⟩

/-- C18 (amended): the key Return. If `pin_last` and `pin_last2` are set and
have the same orientation, the current pin is valid, and the differences
`pin_last.position - pin_last2.position` and the sums
`pin_last.position + (pin_last.position - pin_last2.position)` are values of
`int64_t` in both coordinates, `update` sets the position of the current pin to
`(x, y)` with `x = last.x + (last.x - last2.x)` and `y = last.y + (last.y - last2.y)`,
leaves every other pin of the symbol and every other member alone, and then
does exactly what it does on a click of button 1 at the same coordinates in
the state `st0` so changed; in particular, when no unplaced entry follows it
returns `COMMIT` with the current pin at that position. If one of the
differences or sums is not a value of `int64_t`, the behaviour is undefined.
If the orientations differ, or if `pin_last` or `pin_last2` is not set,
nothing changes and the response is `NOP`. -/
theorem C18_return_autoplaces (env : MapPinEnv) (a_key : ToolArgs) (st : MapPin)
    (hk : a_key.type = ToolEventType.KEY) (hr : a_key.key = GDK_KEY_Return) :
    (∀ (a_click : ToolArgs) (l l2 u : UUID) (last last2 p : SymbolPin),
      a_click.type = ToolEventType.CLICK → a_click.button = 1 →
      a_click.coords = a_key.coords →
      st.pin_last = some l → st.pin_last2 = some l2 →
      st.symbol_pins.find l = some last → st.symbol_pins.find l2 = some last2 →
      st.pin = some u → st.symbol_pins.find u = some p →
      last2.orientation = last.orientation →
      in_int64 (last.position.x - last2.position.x) = true →
      in_int64 (last.position.y - last2.position.y) = true →
      in_int64 (last.position.x + (last.position.x - last2.position.x)) = true →
      in_int64 (last.position.y + (last.position.y - last2.position.y)) = true →
      ∃ st0 : MapPin,
        st0 = (st.assign u fun q =>
            { q with
              position := ⟨last.position.x + (last.position.x - last2.position.x),
                last.position.y + (last.position.y - last2.position.y)⟩ })
        ∧ st.update env a_key = st0.update env a_click
        ∧ st0.symbol_pins.find u
            = some { p with
                position := ⟨last.position.x + (last.position.x - last2.position.x),
                  last.position.y + (last.position.y - last2.position.y)⟩ }
        ∧ (∀ v, v ≠ u → st0.symbol_pins.find v = st.symbol_pins.find v)
        ∧ st0.unit_pins = st.unit_pins ∧ st0.pins = st.pins ∧ st0.pin_index = st.pin_index
        ∧ st0.pin = st.pin ∧ st0.pin_last = st.pin_last ∧ st0.pin_last2 = st.pin_last2
        ∧ st0.selection = st.selection
        ∧ (∀ e, st.pins[st.pin_index]? = some e →
            skip_placed_loop ((st.pins.set st.pin_index (e.1, true)).drop (st.pin_index + 1))
              (st.pin_index + 1) = st.pins.length →
            st.update env a_key = .ok ToolResponse.commit
              { st0 with pins := st.pins.set st.pin_index (e.1, true),
                         pin_index := st.pins.length }))
    ∧ (∀ (l l2 : UUID) (last last2 : SymbolPin),
      st.pin_last = some l → st.pin_last2 = some l2 →
      st.symbol_pins.find l = some last → st.symbol_pins.find l2 = some last2 →
      last2.orientation = last.orientation →
      ¬ (in_int64 (last.position.x - last2.position.x) = true
          ∧ in_int64 (last.position.y - last2.position.y) = true
          ∧ in_int64 (last.position.x + (last.position.x - last2.position.x)) = true
          ∧ in_int64 (last.position.y + (last.position.y - last2.position.y)) = true) →
      st.update env a_key = .undefined)
    ∧ (∀ (l l2 : UUID) (last last2 : SymbolPin),
      st.pin_last = some l → st.pin_last2 = some l2 →
      st.symbol_pins.find l = some last → st.symbol_pins.find l2 = some last2 →
      last2.orientation ≠ last.orientation →
      st.update env a_key = .ok ToolResponse.nop st)
    ∧ (st.pin_last = none ∨ st.pin_last2 = none →
      st.update env a_key = .ok ToolResponse.nop st) := by
  have hmove : ¬ ToolEventType.KEY = ToolEventType.MOVE := by decide
  have hclick : ¬ ToolEventType.KEY = ToolEventType.CLICK := by decide
  refine ⟨?_, ?_, ?_, ?_⟩
  · intro a_click l l2 u last last2 p hc hb hco hl hl2 hfl hfl2 hpin hfp ho hx1 hy1 hx2 hy2
    have hsub := Coordi.sub_eq last.position last2.position hx1 hy1
    have hadd := Coordi.add_eq last.position
      ⟨last.position.x - last2.position.x, last.position.y - last2.position.y⟩ hx2 hy2
    have heq := return_eq_click env a_key a_click st l l2 u last last2 p _ _ hk hr hc hb hco
      hl hl2 hfl hfl2 hpin hfp ho hsub hadd
    refine ⟨_, rfl, heq, ?_, ?_, rfl, rfl, rfl, rfl, rfl, rfl, rfl, ?_⟩
    · simp only [MapPin.assign, Store.find_modify_self, hfp, Option.map_some']
    · intro v hv
      simp only [MapPin.assign]
      exact Store.find_modify_other u v _ _ (Ne.symm hv)
    · intro e hi hj
      rw [heq]
      exact click_commit_eq env a_click _ e hc hb hi hj
  · intro l l2 last last2 hl hl2 hfl hfl2 ho hov
    apply return_overflow_eq env a_key st l l2 last last2 hk hr hl hl2 hfl hfl2 ho
    by_cases h1 : in_int64 (last.position.x - last2.position.x) = true
        ∧ in_int64 (last.position.y - last2.position.y) = true
    · refine Or.inr ⟨_, Coordi.sub_eq _ _ h1.1 h1.2, ?_⟩
      have h2 : ¬ (in_int64 (last.position.x + (last.position.x - last2.position.x)) = true
          ∧ in_int64 (last.position.y + (last.position.y - last2.position.y)) = true) :=
        fun h => hov ⟨h1.1, h1.2, h.1, h.2⟩
      simp only [Coordi.add, h2, if_false]
    · exact Or.inl (by simp only [Coordi.sub, h1, if_false])
  · intro l l2 last last2 hl hl2 hfl hfl2 ho
    simp only [MapPin.update, hmove, hclick, hk, hr, hl, hl2, hfl, hfl2, ho, if_true, if_false]
  · intro h
    rcases h with h | h
    · simp only [MapPin.update, hmove, hclick, hk, hr, h, if_true, if_false]
    · cases hl : st.pin_last <;>
        simp only [MapPin.update, hmove, hclick, hk, hr, h, hl, if_true, if_false]

/-- Witness of C18. (1) The pins `"1"`, `"2"`, `"10"`: after `begin` at the
origin, a click at the origin, the pointer moved to `(5, 0)` and a click
there, the pins `"1"` and `"2"` are placed at `(0, 0)` and `(5, 0)` with the
same orientation. Return then places the pin `"10"` at `(10, 0)`; the response
is `COMMIT` and the symbol has three pins. (2) With the pin `"1"` at `(3, 4)`
and the pin `"2"` at `(8, 6)`, Return places the pin `"10"` at `(13, 8)`. -/
theorem C18_return_autoplaces_witness :
    ((fresh_map_pin.begin (sample_map_pin_env 2) (event_at ToolEventType.MOVE 0 0 0)).bind
        (fun r s => s.updates (sample_map_pin_env 2)
          [event_at ToolEventType.CLICK 1 0 0, event_at ToolEventType.MOVE 0 0 5,
            event_at ToolEventType.CLICK 1 0 5] r)
        = .ok ToolResponse.nop map_pin_two_placed
      ∧ ∃ st1, map_pin_two_placed.update (sample_map_pin_env 2)
            (event_at ToolEventType.KEY 0 GDK_KEY_Return 5) = .ok ToolResponse.commit st1
          ∧ (st1.symbol_pins.find 1).map (fun q => q.position) = some ⟨10, 0⟩
          ∧ st1.symbol_pins.length = 3
          ∧ st1.pins = [(⟨2, "1"⟩, true), (⟨3, "2"⟩, true), (⟨1, "10"⟩, true)])
    ∧ ∃ st1, map_pin_oblique.update (sample_map_pin_env 2)
          (event_at ToolEventType.KEY 0 GDK_KEY_Return 5) = .ok ToolResponse.commit st1
        ∧ (st1.symbol_pins.find 1).map (fun q => q.position) = some ⟨13, 8⟩
        ∧ (st1.symbol_pins.find 2).map (fun q => q.position) = some ⟨3, 4⟩
        ∧ (st1.symbol_pins.find 3).map (fun q => q.position) = some ⟨8, 6⟩ := by
  refine ⟨⟨rfl, ?_⟩, ?_⟩
  · obtain ⟨st0, h0, -, h1, -, -, -, -, -, -, -, -, h2⟩ :=
      (C18_return_autoplaces (sample_map_pin_env 2)
        (event_at ToolEventType.KEY 0 GDK_KEY_Return 5) map_pin_two_placed rfl rfl).1
        (event_at ToolEventType.CLICK 1 0 5) 3 2 1
        ⟨3, "2", ⟨5, 0⟩, Orientation.RIGHT, 2500000⟩
        ⟨2, "1", ⟨0, 0⟩, Orientation.RIGHT, 2500000⟩
        ⟨1, "10", ⟨5, 0⟩, Orientation.RIGHT, 2500000⟩ rfl rfl rfl rfl rfl rfl rfl rfl rfl rfl
        (by decide) (by decide) (by decide) (by decide)
    have h3 := h2 (⟨1, "10"⟩, false) rfl rfl
    refine ⟨_, h3, ?_, ?_, rfl⟩
    · show (st0.symbol_pins.find 1).map (fun q => q.position) = some ⟨10, 0⟩
      rw [h1]
      rfl
    · show st0.symbol_pins.length = 3
      rw [h0]
      rfl
  · obtain ⟨st0, -, -, h1, h4, -, -, -, -, -, -, -, h2⟩ :=
      (C18_return_autoplaces (sample_map_pin_env 2)
        (event_at ToolEventType.KEY 0 GDK_KEY_Return 5) map_pin_oblique rfl rfl).1
        (event_at ToolEventType.CLICK 1 0 5) 3 2 1
        ⟨3, "2", ⟨8, 6⟩, Orientation.RIGHT, 2500000⟩
        ⟨2, "1", ⟨3, 4⟩, Orientation.RIGHT, 2500000⟩
        ⟨1, "10", ⟨8, 6⟩, Orientation.RIGHT, 2500000⟩ rfl rfl rfl rfl rfl rfl rfl rfl rfl rfl
        (by decide) (by decide) (by decide) (by decide)
    have h3 := h2 (⟨1, "10"⟩, false) rfl rfl
    refine ⟨_, h3, ?_, ?_, ?_⟩
    · show (st0.symbol_pins.find 1).map (fun q => q.position) = some ⟨13, 8⟩
      rw [h1]
      rfl
    · show (st0.symbol_pins.find 2).map (fun q => q.position) = some ⟨3, 4⟩
      rw [h4 2 (by decide)]
      rfl
    · show (st0.symbol_pins.find 3).map (fun q => q.position) = some ⟨8, 6⟩
      rw [h4 3 (by decide)]
      rfl

/-- The call of `create_pin` leaves the pin list and `pin_index` alone. -/
theorem create_pin_frame (uu : UUID) (st st1 : MapPin) (h : st.create_pin uu = .ok () st1) :
    st1.pins = st.pins ∧ st1.pin_index = st.pin_index := by
  unfold MapPin.create_pin at h
  simp only [MapPin.insert_symbol_pin, MapPin.assign] at h
  cases hpin : st.pin with
  | none =>
    simp only [hpin] at h
    cases hm : st.unit_pins.map_at uu with
    | error e => simp [hm] at h
    | ok unit_pin =>
      simp only [hm] at h
      cases h
      exact ⟨rfl, rfl⟩
  | some u =>
    simp only [hpin] at h
    cases hf : st.symbol_pins.find u with
    | none => simp [hf] at h
    | some p =>
      simp only [hf] at h
      cases hm : st.unit_pins.map_at uu with
      | error e => simp [hm] at h
      | ok unit_pin =>
        simp only [hm] at h
        cases h
        exact ⟨rfl, rfl⟩

/-- What a click of button 1 that returns has done to the pin list: entry
`pin_index` is marked placed and `pin_index` is where the skipping loop stops;
the response is `COMMIT` at the end of the list and `NOP` before it. -/
theorem click_step (env : MapPinEnv) (args : ToolArgs) (st : MapPin) (r : ToolResponse)
    (st1 : MapPin) (hc : args.type = ToolEventType.CLICK) (hb : args.button = 1)
    (h : st.update env args = .ok r st1) :
    ∃ e, st.pins[st.pin_index]? = some e ∧ st1.pins = st.pins.set st.pin_index (e.1, true)
      ∧ st1.pin_index = skip_placed_loop
          ((st.pins.set st.pin_index (e.1, true)).drop (st.pin_index + 1)) (st.pin_index + 1)
      ∧ ((r.result = Result.COMMIT ∧ st1.pin_index = st.pins.length)
          ∨ (r.result = Result.NOP ∧ st1.pin_index ≠ st.pins.length)) := by
  cases hi : st.pins[st.pin_index]? with
  | none => simp [MapPin.update, hc, hb, set_placed, hi] at h
  | some e =>
    refine ⟨e, rfl, ?_⟩
    generalize hj : skip_placed_loop
      ((st.pins.set st.pin_index (e.1, true)).drop (st.pin_index + 1)) (st.pin_index + 1) = j
    by_cases hjl : j = st.pins.length
    · rw [click_commit_eq env args st e hc hb hi (hj.trans hjl)] at h
      cases h
      exact ⟨rfl, hjl.symm, Or.inl ⟨rfl, rfl⟩⟩
    · simp only [MapPin.update, hc, hb, set_placed_eq _ _ _ hi, hj, List.length_set, hjl,
        if_true, if_false] at h
      cases hn : (st.pins.set st.pin_index (e.1, true))[j]? with
      | none => simp [hn] at h
      | some next =>
        simp only [hn] at h
        cases hcp : MapPin.create_pin next.1.uuid
            { st with pins := st.pins.set st.pin_index (e.1, true), pin_index := j } with
        | undefined => simp [hcp, Outcome.bind] at h
        | threw x s => simp [hcp, Outcome.bind] at h
        | ok v st2 =>
          obtain ⟨hp, hx⟩ := create_pin_frame _ _ _ hcp
          simp only [hcp, Outcome.bind] at h
          cases hpin : st2.pin with
          | none => simp [hpin] at h
          | some u =>
            simp only [hpin, MapPin.assign] at h
            cases h
            exact ⟨hp, hx, Or.inr ⟨rfl, by simpa [hx] using hjl⟩⟩

/-- What the key Return has done to the pin list when `update` returns:
nothing, with the response `NOP`, or what a click of button 1 does. -/
theorem return_step (env : MapPinEnv) (args : ToolArgs) (st : MapPin) (r : ToolResponse)
    (st1 : MapPin) (hk : args.type = ToolEventType.KEY) (hr : args.key = GDK_KEY_Return)
    (h : st.update env args = .ok r st1) :
    (r.result = Result.NOP ∧ st1 = st)
    ∨ ∃ e, st.pins[st.pin_index]? = some e ∧ st1.pins = st.pins.set st.pin_index (e.1, true)
      ∧ st1.pin_index = skip_placed_loop
          ((st.pins.set st.pin_index (e.1, true)).drop (st.pin_index + 1)) (st.pin_index + 1)
      ∧ ((r.result = Result.COMMIT ∧ st1.pin_index = st.pins.length)
          ∨ (r.result = Result.NOP ∧ st1.pin_index ≠ st.pins.length)) := by
  have hmove : ¬ ToolEventType.KEY = ToolEventType.MOVE := by decide
  have hclick : ¬ ToolEventType.KEY = ToolEventType.CLICK := by decide
  cases hl : st.pin_last with
  | none =>
    simp only [MapPin.update, hmove, hclick, hk, hr, hl, if_true, if_false] at h
    cases h
    exact Or.inl ⟨rfl, rfl⟩
  | some l =>
    cases hl2 : st.pin_last2 with
    | none =>
      simp only [MapPin.update, hmove, hclick, hk, hr, hl, hl2, if_true, if_false] at h
      cases h
      exact Or.inl ⟨rfl, rfl⟩
    | some l2 =>
      cases hfl2 : st.symbol_pins.find l2 with
      | none =>
        simp [MapPin.update, hk, hr, hl, hl2, hfl2] at h
      | some last2 =>
        cases hfl : st.symbol_pins.find l with
        | none => simp [MapPin.update, hk, hr, hl, hl2, hfl2, hfl] at h
        | some last =>
          by_cases ho : last2.orientation = last.orientation
          · cases hpin : st.pin with
            | none =>
              have hu : st.update env args = .undefined := by
                simp only [MapPin.update, hmove, hclick, hk, hr, hl, hl2, hfl2, hfl, ho, hpin,
                  MapPin.deref, if_true, if_false]
                split <;> try rfl
                split <;> rfl
              rw [hu] at h
              cases h
            | some u =>
              cases hfp : st.symbol_pins.find u with
              | none =>
                have hu : st.update env args = .undefined := by
                  simp only [MapPin.update, hmove, hclick, hk, hr, hl, hl2, hfl2, hfl, ho, hpin,
                    MapPin.deref, hfp, if_true, if_false]
                  split <;> try rfl
                  split <;> rfl
                rw [hu] at h
                cases h
              | some p =>
                cases hsub : last.position.sub last2.position with
                | none =>
                  rw [return_overflow_eq env args st l l2 last last2 hk hr hl hl2 hfl hfl2 ho
                    (Or.inl hsub)] at h
                  cases h
                | some shift =>
                  cases hadd : last.position.add shift with
                  | none =>
                    rw [return_overflow_eq env args st l l2 last last2 hk hr hl hl2 hfl hfl2 ho
                      (Or.inr ⟨shift, hsub, hadd⟩)] at h
                    cases h
                  | some pos =>
                    rw [return_eq_click env args
                      { args with type := ToolEventType.CLICK, button := 1 }
                      st l l2 u last last2 p shift pos hk hr rfl rfl rfl hl hl2 hfl hfl2 hpin
                      hfp ho hsub hadd] at h
                    have h1 := click_step env _ _ r st1 rfl rfl h
                    exact Or.inr h1
          · simp only [MapPin.update, hmove, hclick, hk, hr, hl, hl2, hfl, hfl2, ho, if_true,
              if_false] at h
            cases h
            exact Or.inl ⟨rfl, rfl⟩

/-- An event other than a click of button 1 or 3 and the keys Return and
Space leaves the pin list and `pin_index` alone, and its response is not
`COMMIT`. -/
theorem update_other_frame (env : MapPinEnv) (args : ToolArgs) (st : MapPin) (r : ToolResponse)
    (st1 : MapPin) (h1 : ¬ is_click_or_return args) (h2 : is_plain_event args)
    (h : st.update env args = .ok r st1) :
    st1.pins = st.pins ∧ st1.pin_index = st.pin_index ∧ r.result ≠ Result.COMMIT := by
  unfold is_click_or_return at h1
  unfold is_plain_event at h2
  obtain ⟨hs, h3⟩ := h2
  unfold MapPin.update at h
  by_cases hm : args.type = ToolEventType.MOVE
  · simp only [hm, if_true] at h
    cases hpin : st.pin with
    | none => simp [hpin, MapPin.deref] at h
    | some u =>
      cases hd : st.deref (some u) with
      | none => simp [hpin, hd] at h
      | some p =>
        simp only [hpin, hd, MapPin.assign] at h
        cases h
        exact ⟨rfl, rfl, by decide⟩
  · simp only [hm, if_false] at h
    by_cases hc : args.type = ToolEventType.CLICK
    · have hb1 : ¬ args.button = 1 := fun hb => h1 (Or.inl ⟨hc, hb⟩)
      have hb3 : ¬ args.button = 3 := fun hb => h3 ⟨hc, hb⟩
      simp only [hc, hb1, hb3, if_true, if_false] at h
      cases h
      exact ⟨rfl, rfl, by decide⟩
    · simp only [hc, if_false] at h
      by_cases hk : args.type = ToolEventType.KEY
      · have hr : ¬ args.key = GDK_KEY_Return := fun hr => h1 (Or.inr ⟨hk, hr⟩)
        have hsp : ¬ args.key = GDK_KEY_space := fun hsp => hs ⟨hk, hsp⟩
        simp only [hk, hr, hsp, if_true, if_false] at h
        by_cases hre : args.key = GDK_KEY_r ∨ args.key = GDK_KEY_e
        · simp only [hre, if_true] at h
          cases hpin : st.pin with
          | none => simp [hpin, MapPin.deref] at h
          | some u =>
            cases hd : st.deref (some u) with
            | none => simp [hpin, hd] at h
            | some p =>
              simp only [hpin, hd, MapPin.assign] at h
              cases h
              exact ⟨rfl, rfl, by decide⟩
        · simp only [hre, if_false] at h
          by_cases he : args.key = GDK_KEY_Escape
          · simp only [he, if_true] at h
            cases h
            exact ⟨rfl, rfl, by decide⟩
          · simp only [he, if_false] at h
            cases h
            exact ⟨rfl, rfl, by decide⟩
      · simp only [hk, if_false] at h
        cases h
        exact ⟨rfl, rfl, by decide⟩

/-- What a click of button 1 or the key Return has done to the pin list when
`update` returns. -/
theorem advance_step (env : MapPinEnv) (args : ToolArgs) (st : MapPin) (r : ToolResponse)
    (st1 : MapPin) (ha : is_click_or_return args) (h : st.update env args = .ok r st1) :
    (r.result = Result.NOP ∧ st1 = st)
    ∨ ∃ e, st.pins[st.pin_index]? = some e ∧ st1.pins = st.pins.set st.pin_index (e.1, true)
      ∧ st1.pin_index = skip_placed_loop
          ((st.pins.set st.pin_index (e.1, true)).drop (st.pin_index + 1)) (st.pin_index + 1)
      ∧ ((r.result = Result.COMMIT ∧ st1.pin_index = st.pins.length)
          ∨ (r.result = Result.NOP ∧ st1.pin_index ≠ st.pins.length)) := by
  rcases ha with ⟨hc, hb⟩ | ⟨hk, hr⟩
  · exact Or.inr (click_step env args st r st1 hc hb h)
  · exact return_step env args st r st1 hk hr h

/-- Marking an entry placed keeps the pins of the list. -/
theorem map_fst_set_placed (l : List (Pin × Bool)) (i : Nat) (e : Pin × Bool)
    (h : l[i]? = some e) : (l.set i (e.1, true)).map Prod.fst = l.map Prod.fst := by
  induction l generalizing i with
  | nil => rfl
  | cons a rest ih =>
    cases i with
    | zero =>
      simp only [List.getElem?_cons_zero, Option.some.injEq] at h
      subst h
      rfl
    | succ i =>
      simp only [List.getElem?_cons_succ] at h
      simp only [List.set_cons_succ, List.map_cons, ih i h]

/-- A list whose entries all read placed by index has only placed entries. -/
theorem all_placed_of_placed_at (l : List (Pin × Bool))
    (h : ∀ k, k < l.length → placed_at l k = some true) : ∀ e ∈ l, e.2 = true := by
  intro e he
  obtain ⟨k, hk, hke⟩ := List.getElem_of_mem he
  have := h k hk
  simp only [placed_at, List.getElem?_eq_getElem hk, Option.map_some', Option.some.injEq] at this
  rw [← hke]
  exact this

/-- The pin list after a click of button 1 or the key Return that answers
`COMMIT`: the same pins, every entry from the old `pin_index` on placed, the
entries before it unchanged. -/
theorem commit_step (env : MapPinEnv) (args : ToolArgs) (st : MapPin) (r : ToolResponse)
    (st1 : MapPin) (ha : is_click_or_return args) (h : st.update env args = .ok r st1)
    (hr : r.result = Result.COMMIT) :
    st1.pins.map Prod.fst = st.pins.map Prod.fst
      ∧ (∀ k, st.pin_index ≤ k → k < st1.pins.length → placed_at st1.pins k = some true)
      ∧ (∀ k, k < st.pin_index → st1.pins[k]? = st.pins[k]?) := by
  rcases advance_step env args st r st1 ha h with ⟨hn, _⟩ | ⟨e, hi, hp, hx, hres⟩
  · rw [hr] at hn
    cases hn
  · obtain ⟨a1, a2, a3, a4, a5⟩ := advance_spec st.pins st.pin_index e hi
    rw [← hx] at a1 a2 a3 a4
    rcases hres with ⟨_, hlen⟩ | ⟨hn, _⟩
    · refine ⟨by rw [hp]; exact map_fst_set_placed _ _ _ hi, ?_, ?_⟩
      · intro k hk1 hk2
        rw [hp]
        apply a3 k hk1
        rw [hp, List.length_set] at hk2
        omega
      · intro k hk
        rw [hp]
        exact a5 k (by omega)
    · rw [hr] at hn
      cases hn

/-- A click of button 1 or the key Return keeps the pins of the list and
keeps every entry before `pin_index` placed. -/
theorem advance_keeps_prefix (env : MapPinEnv) (args : ToolArgs) (st : MapPin) (r : ToolResponse)
    (st1 : MapPin) (ha : is_click_or_return args) (h : st.update env args = .ok r st1)
    (hpre : st.prefix_placed) :
    st1.pins.map Prod.fst = st.pins.map Prod.fst ∧ st1.prefix_placed := by
  rcases advance_step env args st r st1 ha h with ⟨_, hs⟩ | ⟨e, hi, hp, hx, hres⟩
  · rw [hs]
    exact ⟨rfl, hpre⟩
  · obtain ⟨a1, a2, a3, a4, a5⟩ := advance_spec st.pins st.pin_index e hi
    rw [← hx] at a1 a2 a3 a4
    refine ⟨by rw [hp]; exact map_fst_set_placed _ _ _ hi, ?_⟩
    intro k hk
    rw [hp]
    by_cases hki : st.pin_index ≤ k
    · exact a3 k hki hk
    · have := hpre k (by omega)
      simp only [placed_at] at this ⊢
      rw [a5 k (by omega)]
      exact this

/-- One event other than the key Space and a click of button 3, from a state
in which every entry before `pin_index` is placed: the pins of the list stay,
the entries before `pin_index` are placed again, and on `COMMIT` every entry
is placed. -/
theorem plain_step (env : MapPinEnv) (args : ToolArgs) (st : MapPin) (r : ToolResponse)
    (st1 : MapPin) (hp : is_plain_event args) (h : st.update env args = .ok r st1)
    (hpre : st.prefix_placed) :
    st1.pins.map Prod.fst = st.pins.map Prod.fst ∧ st1.prefix_placed
      ∧ (r.result = Result.COMMIT → ∀ e ∈ st1.pins, e.2 = true) := by
  by_cases ha : is_click_or_return args
  · obtain ⟨h1, h2⟩ := advance_keeps_prefix env args st r st1 ha h hpre
    refine ⟨h1, h2, ?_⟩
    intro hr
    obtain ⟨_, c2, c3⟩ := commit_step env args st r st1 ha h hr
    apply all_placed_of_placed_at
    intro k hk
    by_cases hki : st.pin_index ≤ k
    · exact c2 k hki hk
    · have := hpre k (by omega)
      simp only [placed_at] at this ⊢
      rw [c3 k (by omega)]
      exact this
  · obtain ⟨h1, h2, h3⟩ := update_other_frame env args st r st1 ha hp h
    refine ⟨by rw [h1], ?_, fun hr => absurd hr h3⟩
    intro k hk
    rw [h1]
    rw [h2] at hk
    exact hpre k hk

/-- A run of events other than the key Space and a click of button 3: if
every entry before `pin_index` is placed while the response is `NOP`, and
every entry is placed when it is `COMMIT`, the same holds at the end of the
run, and the pins of the list are the same. -/
theorem updates_inv (env : MapPinEnv) (evs : List ToolArgs) (r0 : ToolResponse) (st : MapPin)
    (r : ToolResponse) (st1 : MapPin) (hev : ∀ a ∈ evs, is_plain_event a)
    (h : st.updates env evs r0 = .ok r st1)
    (hnop : r0.result = Result.NOP → st.prefix_placed)
    (hcom : r0.result = Result.COMMIT → ∀ e ∈ st.pins, e.2 = true) :
    st1.pins.map Prod.fst = st.pins.map Prod.fst
      ∧ (r.result = Result.COMMIT → ∀ e ∈ st1.pins, e.2 = true) := by
  induction evs generalizing r0 st with
  | nil =>
    simp only [MapPin.updates, Outcome.ok.injEq] at h
    obtain ⟨h1, h2⟩ := h
    subst h1 h2
    exact ⟨rfl, hcom⟩
  | cons a rest ih =>
    by_cases hr0 : r0.result = Result.NOP
    · simp only [MapPin.updates, hr0, if_true] at h
      cases hu : st.update env a with
      | undefined => simp [hu, Outcome.bind] at h
      | threw x s => simp [hu, Outcome.bind] at h
      | ok r1 s1 =>
        simp only [hu, Outcome.bind] at h
        obtain ⟨p1, p2, p3⟩ := plain_step env a st r1 s1 (hev a (List.mem_cons_self _ _)) hu
          (hnop hr0)
        obtain ⟨q1, q2⟩ := ih r1 s1 (fun b hb => hev b (List.mem_cons_of_mem _ hb)) h
          (fun _ => p2) p3
        exact ⟨q1.trans p1, q2⟩
    · simp only [MapPin.updates, hr0, if_false, Outcome.ok.injEq] at h
      obtain ⟨h1, h2⟩ := h
      subst h1 h2
      exact ⟨rfl, hcom⟩

/-- In a list whose first unplaced entry is `a`, every entry before the first
entry with the UUID of `a` is placed. -/
theorem first_unplaced_prefix (l : List (Pin × Bool)) (a : Pin × Bool) (x : Nat)
    (hf : l.find? (fun b => b.2 = false) = some a)
    (hx : l.findIdx? (fun b => b.1.uuid = a.1.uuid) = some x) :
    ∀ k, k < x → placed_at l k = some true := by
  induction l generalizing x with
  | nil => simp at hf
  | cons b rest ih =>
    by_cases hb : b.2 = false
    · simp only [List.find?_cons, hb, decide_True, Option.some.injEq] at hf
      subst hf
      simp only [List.findIdx?_cons, decide_True, if_true, Option.some.injEq] at hx
      intro k hk
      omega
    · simp only [List.find?_cons, hb, decide_False] at hf
      by_cases hu : b.1.uuid = a.1.uuid
      · simp only [List.findIdx?_cons, hu, decide_True, if_true, Option.some.injEq] at hx
        intro k hk
        omega
      · simp only [List.findIdx?_cons, hu, decide_False] at hx
        simp only [Bool.false_eq_true, if_false, zero_add, List.findIdx?_succ,
          Option.map_eq_some'] at hx
        obtain ⟨x1, hx1, hx2⟩ := hx
        intro k hk
        cases k with
        | zero =>
          have : b.2 = true := by simpa using hb
          simp [placed_at, this]
        | succ k =>
          have := ih x1 hf (by simpa using hx1) k (by omega)
          simpa [placed_at] using this

/-- When `begin` does not ask the dialog (the pins come from the sidebar
selection, or at most one pin is unplaced) and returns, the pin list is the
one built by its first part, the response is `NOP` or `END`, and on `NOP`
every entry before `pin_index` is placed. -/
theorem begin_first_unplaced (env : MapPinEnv) (args : ToolArgs) (st : MapPin)
    (pins : List (Pin × Bool)) (from_sidebar : Bool) (r : ToolResponse) (st1 : MapPin)
    (hl : st.begin_list env args = .ok (pins, from_sidebar))
    (hd : from_sidebar = true ∨ pins.countP (fun a => a.2 = false) ≤ 1)
    (h : st.begin env args = .ok r st1) :
    st1.pins = pins ∧ (r.result = Result.NOP → st1.prefix_placed)
      ∧ r.result ≠ Result.COMMIT := by
  have hnd : ¬ (pins.countP (fun a => a.2 = false) > 1 ∧ from_sidebar = false) := by
    rintro ⟨h1, h2⟩
    rcases hd with hd | hd
    · rw [hd] at h2
      cases h2
    · omega
  unfold MapPin.begin at h
  simp only [hl] at h
  by_cases h0 : pins.countP (fun a => a.2 = false) = 0
  · simp only [h0, if_true] at h
    cases h
    exact ⟨rfl, fun hr => absurd hr (by decide), by decide⟩
  · simp only [h0, if_false, hnd] at h
    cases hf : pins.find? (fun a => a.2 = false) with
    | none =>
      simp only [hf, Option.map_none'] at h
      cases h
      exact ⟨rfl, fun hr => absurd hr (by decide), by decide⟩
    | some a =>
      simp only [hf, Option.map_some'] at h
      cases hx : pins.findIdx? (fun b => b.1.uuid = a.1.uuid) with
      | none => simp [hx] at h
      | some x =>
        simp only [hx] at h
        cases hcp : MapPin.create_pin a.1.uuid { st with pins := pins, pin_index := x } with
        | undefined => simp [hcp, Outcome.bind] at h
        | threw e s => simp [hcp, Outcome.bind] at h
        | ok v st2 =>
          obtain ⟨hp, hi⟩ := create_pin_frame _ _ _ hcp
          simp only [hcp, Outcome.bind] at h
          cases hpin : st2.pin with
          | none => simp [hpin] at h
          | some u =>
            simp only [hpin, MapPin.assign] at h
            cases h
            refine ⟨hp, fun _ => ?_, by decide⟩
            intro k hk
            show placed_at st2.pins k = some true
            rw [hp]
            exact first_unplaced_prefix pins a x hf hx k (by simpa [hi] using hk)

/-- C20, counterexample: the symbol has no pin, the unit the pins `"1"`,
`"2"`, `"10"`. `begin` asks the dialog, which answers the pin `"10"`, the last
of the list; the first click of button 1 then returns `COMMIT` while the pins
`"1"` and `"2"` are still unplaced. -/
theorem C20_commit_leaves_pins_unplaced :
    fresh_map_pin.begin (sample_map_pin_env 1) (event_at ToolEventType.MOVE 0 0 0)
        = .ok ToolResponse.nop map_pin_started_at_last
      ∧ ∃ st1, map_pin_started_at_last.update (sample_map_pin_env 1)
            (event_at ToolEventType.CLICK 1 0 0) = .ok ToolResponse.commit st1
          ∧ st1.pins = [(⟨2, "1"⟩, false), (⟨3, "2"⟩, false), (⟨1, "10"⟩, true)] :=
  ⟨rfl, _, rfl, rfl⟩

/-- C20, amended: (1) whenever `update` returns `COMMIT` from a click of
button 1 or from the key Return, the list holds the same pins as before, every
entry from the position of the pin that was current to the end of the list is
placed, and the entries before that position are unchanged (placed or not).
(2) When `begin` chooses the pin itself, which is then the first unplaced pin
(the pins come from the sidebar selection, or one pin only is unplaced), and
the events that follow are neither the key Space nor a click of button 3,
a run that ends with `COMMIT` has every pin of the list built by `begin`
placed. -/
theorem C20_commit_places_pins_from_index (env : MapPinEnv) :
    (∀ (args : ToolArgs) (st st1 : MapPin) (r : ToolResponse),
      is_click_or_return args → st.update env args = .ok r st1 → r.result = Result.COMMIT →
        st1.pins.map Prod.fst = st.pins.map Prod.fst
        ∧ (∀ k, st.pin_index ≤ k → k < st1.pins.length → placed_at st1.pins k = some true)
        ∧ (∀ k, k < st.pin_index → st1.pins[k]? = st.pins[k]?))
    ∧ (∀ (args0 : ToolArgs) (st0 st1 : MapPin) (pins : List (Pin × Bool)) (from_sidebar : Bool)
        (evs : List ToolArgs) (r : ToolResponse),
      st0.begin_list env args0 = .ok (pins, from_sidebar) →
      (from_sidebar = true ∨ pins.countP (fun a => a.2 = false) ≤ 1) →
      (∀ a ∈ evs, is_plain_event a) →
      (st0.begin env args0).bind (fun r0 s => s.updates env evs r0) = .ok r st1 →
      r.result = Result.COMMIT →
        st1.pins.map Prod.fst = pins.map Prod.fst ∧ ∀ e ∈ st1.pins, e.2 = true) := by
  refine ⟨?_, ?_⟩
  · intro args st st1 r ha h hr
    exact commit_step env args st r st1 ha h hr
  · intro args0 st0 st1 pins from_sidebar evs r hl hd hev h hr
    cases hb : st0.begin env args0 with
    | undefined => simp [hb, Outcome.bind] at h
    | threw e s => simp [hb, Outcome.bind] at h
    | ok r0 s =>
      simp only [hb, Outcome.bind] at h
      obtain ⟨b1, b2, b3⟩ := begin_first_unplaced env args0 st0 pins from_sidebar r0 s hl hd hb
      obtain ⟨u1, u2⟩ := updates_inv env evs r0 s r st1 hev h b2 (fun hc => absurd hc b3)
      exact ⟨by rw [u1, b1], u2 hr⟩

/-- Witness of C20. (1) With the pins `"1"` and `"2"` placed and the pin
`"10"` current, Return answers `COMMIT` and entry 2 is placed. (2) The pins
`"1"` and `"2"` are selected in the sidebar: `begin` starts with `"1"`, and
after a click, a move and a click the response is `COMMIT` with both pins
placed. -/
theorem C20_commit_places_pins_from_index_witness :
    (∃ st1, map_pin_two_placed.update (sample_map_pin_env 2)
          (event_at ToolEventType.KEY 0 GDK_KEY_Return 5) = .ok ToolResponse.commit st1
        ∧ placed_at st1.pins 2 = some true)
    ∧ (∃ st1, (fresh_map_pin.begin (sample_map_pin_env 2) sidebar_event).bind
          (fun r0 s => s.updates (sample_map_pin_env 2)
            [event_at ToolEventType.CLICK 1 0 0, event_at ToolEventType.MOVE 0 0 5,
              event_at ToolEventType.CLICK 1 0 5] r0) = .ok ToolResponse.commit st1
        ∧ st1.pins.map Prod.fst = [⟨2, "1"⟩, ⟨3, "2"⟩]
        ∧ ∀ e ∈ st1.pins, e.2 = true) := by
  refine ⟨⟨_, rfl, ?_⟩, ⟨_, rfl, ?_⟩⟩
  · exact ((C20_commit_places_pins_from_index (sample_map_pin_env 2)).1
      (event_at ToolEventType.KEY 0 GDK_KEY_Return 5) map_pin_two_placed _ ToolResponse.commit
      (Or.inr ⟨rfl, rfl⟩) rfl rfl).2.1 2 (by decide) (by decide)
  · exact (C20_commit_places_pins_from_index (sample_map_pin_env 2)).2 sidebar_event
      fresh_map_pin _ [(⟨2, "1"⟩, false), (⟨3, "2"⟩, false)] true
      [event_at ToolEventType.CLICK 1 0 0, event_at ToolEventType.MOVE 0 0 5,
        event_at ToolEventType.CLICK 1 0 5] ToolResponse.commit rfl (Or.inl rfl)
      (by simp [is_plain_event, event_at]) rfl rfl

/-! ## Totality of `rebuild` -/

/-- The number of pops of the loop of `rebuild` when the cursor is at `-1` or
on an entry. -/
theorem pop_back_count_eq (n : Nat) (rev : List D) (hle : n ≤ rev.length) :
    pop_back_count ((n : Int) - 1) rev = some (rev.length - n) := by
  induction rev with
  | nil =>
    have : n = 0 := by simpa using hle
    subst this
    simp [pop_back_count]
  | cons x rest ih =>
    by_cases h : n = rest.length + 1
    · subst h
      simp [pop_back_count]
    · have hle2 : n ≤ rest.length := by
        simp only [List.length_cons] at hle
        omega
      have hne : (n : Int) - 1 + 1 ≠ ((x :: rest).length : Int) := by
        simp only [List.length_cons]
        push_cast
        omega
      rw [pop_back_count, if_pos hne, ih hle2]
      simp only [Option.map_some', List.length_cons, Option.some.injEq]
      omega

/-- With the cursor below `-1` or behind the last entry the loop of `rebuild`
pops the empty deque. -/
theorem pop_back_loop_none (c : Int) (rev : List D)
    (h : c < -1 ∨ (rev.length : Int) < c + 1) :
    pop_back_loop c rev = none ∧ pop_back_count c rev = none := by
  induction rev with
  | nil =>
    have hne : c + 1 ≠ 0 := by
      simp only [List.length_nil, Nat.cast_zero] at h
      omega
    simp [pop_back_loop, pop_back_count, hne]
  | cons x rest ih =>
    have hne : c + 1 ≠ ((x :: rest).length : Int) := by
      simp only [List.length_cons, Nat.cast_add, Nat.cast_one] at h ⊢
      omega
    have h2 : c < -1 ∨ (rest.length : Int) < c + 1 := by
      simp only [List.length_cons, Nat.cast_add, Nat.cast_one] at h
      omega
    obtain ⟨i1, i2⟩ := ih h2
    rw [pop_back_loop, if_pos hne, pop_back_count, if_pos hne, i1, i2]
    exact ⟨rfl, rfl⟩

theorem history_trim_count_eq (h : List D) : history_trim_count h = h.length - 50 := by
  induction h with
  | nil => rfl
  | cons x rest ih =>
    by_cases hgt : (x :: rest).length > 50
    · rw [history_trim_count, if_pos hgt, ih]
      simp only [List.length_cons] at hgt ⊢
      omega
    · rw [history_trim_count, if_neg hgt]
      omega

/-- The outcome of `rebuild(false)` is undefined exactly when its loop pops the
empty deque. -/
theorem rebuild_false_undefined_iff (s : Core D T J) :
    s.rebuild false = .undefined ↔ pop_back_loop s.history_current s.history.reverse = none := by
  simp only [Core.rebuild, Bool.not_false, if_true]
  cases hp : pop_back_loop s.history_current s.history.reverse with
  | none => simp
  | some rev => simp

/-- The cursor in the state left by loading and then signalling, as `undo` and
`redo` do. -/
theorem load_then_signal_cursor (i : Int) (s s1 : Core D T J)
    (hs : ((s.history_load i).bind fun _ s =>
        Outcome.ok () (((s.emit .rebuilt).emit .can_undo_redo).set_needs_save true)).state?
      = some s1) :
    s1.history_current = s.history_current := by
  unfold Core.history_load at hs
  split at hs
  · split at hs
    · simp only [Outcome.bind, Outcome.state?, Option.some.injEq] at hs
      subst hs
      rw [(set_needs_save_history _ _).2.1]
      rfl
    · simp only [Outcome.bind, Outcome.state?, Option.some.injEq] at hs
      subst hs
      rfl
  · simp only [Outcome.bind, Outcome.state?, Option.some.injEq] at hs
    subst hs
    rfl

/-- A history operation other than `undo()` at the cursor `-1` keeps the
cursor at `-1` or on an entry, also when it throws. -/
theorem history_op_rebuild_pre (op : HistoryOp D) (s s1 : Core D T J) (h : s.rebuild_pre)
    (hop : op = HistoryOp.undo → s.history_current ≠ -1)
    (hs : (s.history_op op).state? = some s1) : s1.rebuild_pre := by
  obtain ⟨h1, h2⟩ := h
  cases op with
  | rebuild b =>
    cases b with
    | true =>
      simp only [Core.history_op, Core.rebuild, Bool.not_true, Bool.false_eq_true, if_false,
        Outcome.state?, Option.some.injEq] at hs
      subst hs
      exact ⟨h1, h2⟩
    | false =>
      obtain ⟨s2, e0, -, e2, e3, -⟩ := rebuild_false_spec s h1 (by omega)
      simp only [Core.history_op, e0, Outcome.state?, Option.some.injEq] at hs
      subst hs
      unfold Core.rebuild_pre
      omega
  | undo =>
    have hne := hop rfl
    simp only [Core.history_op, Core.undo] at hs
    split at hs
    · have e1 := load_then_signal_history _ _ _ hs
      have e2 := load_then_signal_cursor _ _ _ hs
      simp only at e1 e2
      unfold Core.rebuild_pre
      rw [e1, e2]
      omega
    · simp only [Outcome.state?, Option.some.injEq] at hs
      subst hs
      exact ⟨h1, h2⟩
  | redo =>
    simp only [Core.history_op, Core.redo] at hs
    split at hs
    · simp only [Outcome.state?, Option.some.injEq] at hs
      subst hs
      exact ⟨h1, h2⟩
    · rename_i hne
      have e1 := load_then_signal_history _ _ _ hs
      have e2 := load_then_signal_cursor _ _ _ hs
      simp only at e1 e2
      unfold Core.rebuild_pre
      rw [e1, e2]
      omega
  | history_clear =>
    simp only [Core.history_op, Outcome.state?, Option.some.injEq] at hs
    subst hs
    simp [Core.rebuild_pre, Core.history_clear, Core.emit]
  | edit d =>
    simp only [Core.history_op, Outcome.state?, Option.some.injEq] at hs
    subst hs
    exact ⟨h1, h2⟩

/-- C21 (the code departs from the claim): `undo()` right after
`history_clear()` leaves the cursor at `-2` over the empty history. The state
is reachable and has `cursor + 1 ≤ |history|`, yet from it the loop of
`rebuild(false)` pops the empty deque: the commit has undefined behaviour. -/
theorem C21_commit_pops_empty_history (s : Core D T J) :
    ∃ s1, s.history_clear.undo = .threw .out_of_range s1 ∧ Core.Reachable s1
      ∧ s1.history = [] ∧ s1.history_current = -2
      ∧ s1.history_current + 1 ≤ (s1.history.length : Int)
      ∧ pop_back_loop s1.history_current s1.history.reverse = none
      ∧ pop_back_count s1.history_current s1.history.reverse = none
      ∧ s1.rebuild false = .undefined ∧ ∀ d, s1.commit d = .undefined := by
  refine ⟨{ s.history_clear with history_current := -2 }, rfl, ?_, rfl, rfl, ?_, rfl, rfl,
    rfl, fun _ => rfl⟩
  · exact Core.Reachable.step HistoryOp.undo (Core.Reachable.clear s) rfl
  · show (-2 : Int) + 1 ≤ ((([] : List D).length : Nat) : Int)
    simp

/-- The states from which `rebuild(false)` returns: exactly those with
`-1 ≤ cursor` and `cursor + 1 ≤ |history|`; from every other state its first
loop pops the empty deque, which is undefined behaviour. From a state of the
first kind the first loop makes `|history| - (cursor + 1)` pops and leaves the
entries `0..cursor`, and the loop of `history_trim`, which runs on those
entries and the pushed snapshot, makes `max(0, cursor + 2 - 50)` pops. The
loop of `history_trim` makes `max(0, |history| - 50)` pops on every deque. -/
theorem rebuild_false_total_iff (s : Core D T J) :
    ((∃ s1, s.rebuild false = .ok () s1) ↔ s.rebuild_pre)
    ∧ (s.rebuild false = .undefined ↔ ¬ s.rebuild_pre)
    ∧ (¬ s.rebuild_pre → pop_back_count s.history_current s.history.reverse = none)
    ∧ (s.rebuild_pre →
        pop_back_count s.history_current s.history.reverse
            = some (s.history.length - (s.history_current + 1).toNat)
        ∧ pop_back_loop s.history_current s.history.reverse
            = some (s.history.take (s.history_current + 1).toNat).reverse
        ∧ history_trim_count (s.history.take (s.history_current + 1).toNat ++ [s.doc])
            = (s.history_current + 2).toNat - 50)
    ∧ (∀ (h : List D) (c : Int), history_trim_count h = h.length - 50
        ∧ history_trim_loop h c = (h.drop (h.length - 50), c - ((h.length - 50 : Nat) : Int))) := by
  have hpos : s.rebuild_pre → (∃ s1, s.rebuild false = .ok () s1) := by
    intro ⟨h1, h2⟩
    obtain ⟨s1, e0, -⟩ := rebuild_false_spec s h1 (by omega)
    exact ⟨s1, e0⟩
  have hneg : ¬ s.rebuild_pre → pop_back_loop s.history_current s.history.reverse = none
      ∧ pop_back_count s.history_current s.history.reverse = none := by
    intro hn
    apply pop_back_loop_none
    unfold Core.rebuild_pre at hn
    simp only [List.length_reverse]
    omega
  refine ⟨⟨?_, hpos⟩, ⟨?_, ?_⟩, fun hn => (hneg hn).2, ?_, ?_⟩
  · rintro ⟨s1, e⟩
    by_contra hn
    rw [(rebuild_false_undefined_iff s).2 (hneg hn).1] at e
    cases e
  · intro e hp
    obtain ⟨s1, e1⟩ := hpos hp
    rw [e] at e1
    cases e1
  · intro hn
    exact (rebuild_false_undefined_iff s).2 (hneg hn).1
  · intro ⟨h1, h2⟩
    obtain ⟨n, hn⟩ : ∃ n : Nat, s.history_current + 1 = (n : Int) :=
      ⟨(s.history_current + 1).toNat, by omega⟩
    have hle : n ≤ s.history.length := by omega
    have hn1 : (s.history_current + 1).toNat = n := by omega
    have hn2 : (s.history_current + 2).toNat = n + 1 := by omega
    have hc : s.history_current = (n : Int) - 1 := by omega
    rw [hn1, hn2]
    refine ⟨?_, ?_, ?_⟩
    · rw [hc, pop_back_count_eq n s.history.reverse (by simpa using hle)]
      simp
    · rw [hc, pop_back_loop_eq n s.history.reverse (by simpa using hle)]
      simp only [List.length_reverse]
      rw [List.drop_reverse]
      have : s.history.length - (s.history.length - n) = n := by omega
      rw [this]
    · rw [history_trim_count_eq]
      simp only [List.length_append, List.length_take, List.length_singleton]
      omega
  · intro h c
    exact ⟨history_trim_count_eq h, history_trim_loop_eq h c⟩

/-- Instance of `rebuild_false_total_iff`: three entries with the cursor on the
first one: the first loop pops two entries, the trim loop none. -/
theorem rebuild_false_total_iff_witness :
    after_two_undos.rebuild_pre
      ∧ pop_back_count after_two_undos.history_current after_two_undos.history.reverse = some 2
      ∧ pop_back_loop after_two_undos.history_current after_two_undos.history.reverse = some [1]
      ∧ history_trim_count [1, 4] = 0 := by
  have hp : after_two_undos.rebuild_pre := ⟨by decide, by decide⟩
  exact ⟨hp, ((rebuild_false_total_iff after_two_undos).2.2.2.1 hp).1,
    ((rebuild_false_total_iff after_two_undos).2.2.2.1 hp).2.1,
    ((rebuild_false_total_iff after_two_undos).2.2.2.1 hp).2.2⟩

/-- Every state reachable from `history_clear()` through `rebuild`, `undo`,
`redo`, `history_clear` and edits of the document, `undo()` never being called
with the cursor at `-1`, has `-1 ≤ cursor` and `cursor + 1 ≤ |history|`, and
`rebuild(false)` returns from it after `|history| - (cursor + 1)` pops. -/
theorem guarded_reachable_rebuild (s : Core D T J) (hr : Core.ReachableGuarded s) :
    s.rebuild_pre
      ∧ (∃ s1, s.rebuild false = .ok () s1)
      ∧ pop_back_count s.history_current s.history.reverse
          = some (s.history.length - (s.history_current + 1).toNat) := by
  have hp : s.rebuild_pre := by
    induction hr with
    | clear s => simp [Core.rebuild_pre, Core.history_clear, Core.emit]
    | step op _ hop hs ih => exact history_op_rebuild_pre op _ _ ih hop hs
  obtain ⟨h1, h2⟩ := hp
  obtain ⟨s1, e0, -⟩ := rebuild_false_spec s h1 (by omega)
  refine ⟨⟨h1, h2⟩, ⟨s1, e0⟩, ?_⟩
  obtain ⟨n, hn⟩ : ∃ n : Nat, s.history_current + 1 = (n : Int) :=
    ⟨(s.history_current + 1).toNat, by omega⟩
  have hn1 : (s.history_current + 1).toNat = n := by omega
  have hc : s.history_current = (n : Int) - 1 := by omega
  rw [hn1, hc, pop_back_count_eq n s.history.reverse (by simp only [List.length_reverse]; omega)]
  simp

/-- Instance of `guarded_reachable_rebuild`: the state after `history_clear()`
and one commit; the next commit returns. -/
theorem guarded_reachable_rebuild_witness :
    ∃ s0 : Core Nat Unit Unit,
      ((Core.init 7 : Core Nat Unit Unit).history_clear.history_op (.rebuild false)).state?
          = some s0
        ∧ s0.rebuild_pre ∧ ∃ s1, s0.rebuild false = .ok () s1 := by
  refine ⟨_, rfl, ?_⟩
  have h := guarded_reachable_rebuild _
    (Core.ReachableGuarded.step (HistoryOp.rebuild false)
      (Core.ReachableGuarded.clear (Core.init 7 : Core Nat Unit Unit))
      (fun h => HistoryOp.noConfusion h) rfl)
  exact ⟨h.1, h.2.1⟩

end horizon
